import Mathlib

/-!
# abyssOS: track reservation authority

A shallow embedding of `src/src/server/track_server.cc`.

* A pointer to a `track_node` is the index of that node in the server's
  `track` array, so `track` is a map from indices to node records and
  `node->reverse`, `edge[d].dest` are indices.
* `_KernelCrash` halts the server: handlers return `Except Halt _`.
* The constants and the helper of the headers that are not part of the
  sources (`track_data_new.h`, `track_server.h`, `train_admin.h`) are the
  fields of `TrackConsts`; every definition takes them as a parameter.
* `char` is an unsigned byte (the target is AArch64).
-/

namespace Track

/-- Reasons for which a request handler produces no reply. -/
inductive Halt where
  /-- `_KernelCrash`: a diagnostic is printed and the system halts. -/
  | crash
  /-- A read before the start of the request's path array (`path[len - 1]` with `len = 0`). -/
  | fault
  /-- The loop budget given to the look-ahead loop ran out. -/
  | spin
deriving DecidableEq, Repr

/-- Kinds of track node (`node_type` of the track data header). -/
inductive node_type where
  | NODE_NONE
  | NODE_SENSOR
  | NODE_BRANCH
  | NODE_MERGE
  | NODE_ENTER
  | NODE_EXIT
deriving DecidableEq, Repr

/-- One outgoing edge of a node: destination (index of the node pointed to) and length. -/
structure track_edge where
  dest : Nat
  dist : Nat
deriving DecidableEq, Repr

/-- One vertex of the track graph, with the fields `track_server.cc` reads and writes. -/
structure track_node where
  index : Nat
  type : node_type
  num : Int
  reverse : Nat
  edge : Nat → track_edge
  reserved_by : Int
  reserve_dir : Int

/-- Constants and helper declared in headers that are not among the sources. -/
structure TrackConsts where
  RESERVED_BY_NO_ONE : Int
  DIRECT_RESERVE : Int
  REVERSE_RESERVE : Int
  SAFETY_DISTANCE : Nat
  DIR_AHEAD : Nat
  DIR_STRAIGHT : Nat
  DIR_CURVED : Nat
  train_num_to_index : Int → Int

/-- The reply of `TRACK_TRY_RESERVE`. -/
structure ReservationStatus where
  successful : Bool
  dead_lock_detected : Bool
  res_dist : Nat
deriving DecidableEq, Repr

/-- The body `req.body.reservation` of a reservation request; `path` is the
request's array of node indices, of which the first `len` are meaningful. -/
structure Reservation where
  train_id : Int
  len : Nat
  path : Nat → Nat

/-- The local state of `track_server`, together with what it has sent so far:
`courier_requests` are the switch commands handed to the courier pool and
`subscriber_replies` the replies made to switch subscribers (task id and the
switch table sent). -/
structure TrackServer where
  track : Nat → track_node
  train_wanted_nodes : Int → List Nat
  switch_state : Nat → Char
  switch_subscriber : List Int
  courier_requests : List (Nat × Char)
  subscriber_replies : List (Int × (Nat → Char))

/-- Conversion of an `int` to `char` (unsigned byte). -/
def to_char (n : Int) : Nat := (n % 256).toNat

/-- Source: `get_switch_index_to_id`. -/
def get_switch_index_to_id (index : Int) : Nat :=
  if 0 ≤ index ∧ index ≤ 17 then to_char (0 + index + 1)
  else to_char (0 + index - 18 + 153)

/-- Source: `get_switch_id_to_index`. -/
def get_switch_id_to_index (id : Int) : Nat :=
  if 1 ≤ id ∧ id ≤ 18 then (id - 1).toNat
  else if 153 ≤ id ∧ id ≤ 156 then (id - 153 + 18).toNat
  else 0

/-- Source: `get_rev_switch_id`. -/
def get_rev_switch_id (id : Nat) : Except Halt Nat :=
  if id = 153 then .ok 154
  else if id = 154 then .ok 153
  else if id = 155 then .ok 156
  else if id = 156 then .ok 155
  else .error Halt.crash

/-- Source: `get_rev_switch_dir`. -/
def get_rev_switch_dir (dir : Char) : Char :=
  if dir = 's' then 'c' else 's'

/-- Source: lambda `pipe_sw`. Returns the new state and the lambda's boolean. -/
def pipe_sw (s : TrackServer) (id : Nat) (dir : Char) : Except Halt (TrackServer × Bool) :=
  if s.switch_state (get_switch_id_to_index id) ≠ dir then
    let s1 : TrackServer :=
      { s with
        switch_state := Function.update s.switch_state (get_switch_id_to_index id) dir
        courier_requests := s.courier_requests ++ [(id, dir)] }
    if 153 ≤ id ∧ id ≤ 156 then
      match get_rev_switch_id id with
      | .error h => .error h
      | .ok rev_id =>
        let rev_dir := get_rev_switch_dir dir
        .ok ({ s1 with
                switch_state :=
                  Function.update s1.switch_state (get_switch_id_to_index rev_id) rev_dir
                courier_requests := s1.courier_requests ++ [(rev_id, rev_dir)] }, true)
    else .ok (s1, true)
  else .ok (s, false)

/-- Source: lambda `reply_to_switch_subs`: every parked subscriber is sent the
switch table and removed from the queue. -/
def reply_to_switch_subs (s : TrackServer) : TrackServer :=
  { s with
    subscriber_replies :=
      s.subscriber_replies ++ s.switch_subscriber.map (fun tid => (tid, s.switch_state))
    switch_subscriber := [] }

/-- Source: lambda `can_reserve`. -/
def can_reserve (cfg : TrackConsts) (node : track_node) (reserver_id : Int) : Bool :=
  if node.reserved_by = cfg.RESERVED_BY_NO_ONE ∨ node.reserved_by = reserver_id then true
  else false

/-- Assignment of the two reservation fields of `track[i]`. -/
def set_reservation (track : Nat → track_node) (i : Nat) (owner dir : Int) : Nat → track_node :=
  Function.update track i { track i with reserved_by := owner, reserve_dir := dir }

/-- Source: lambda `reserve`, applied to `track[n]`. -/
def reserve (cfg : TrackConsts) (track : Nat → track_node) (n : Nat) (reserver_id : Int) :
    Nat → track_node :=
  let t1 := set_reservation track n reserver_id cfg.DIRECT_RESERVE
  set_reservation t1 (t1 n).reverse reserver_id cfg.REVERSE_RESERVE

/-- Source: lambda `cancel_reserve`, applied to `track[n]`. -/
def cancel_reserve (cfg : TrackConsts) (track : Nat → track_node) (n : Nat) (reserver_id : Int) :
    Except Halt (Nat → track_node) :=
  if (track n).reserved_by = cfg.RESERVED_BY_NO_ONE ∨ (track n).reserved_by ≠ reserver_id then
    .error Halt.crash
  else
    let t1 := set_reservation track n cfg.RESERVED_BY_NO_ONE cfg.RESERVED_BY_NO_ONE
    .ok (set_reservation t1 (t1 n).reverse cfg.RESERVED_BY_NO_ONE cfg.RESERVED_BY_NO_ONE)

/-- Source: lambda `branch_safety`: the index of a destination that `id` cannot
reserve, or `-1`. -/
def branch_safety (cfg : TrackConsts) (track : Nat → track_node) (node : track_node) (id : Int) :
    Int :=
  if ¬ can_reserve cfg (track (node.edge cfg.DIR_CURVED).dest) id = true then
    ((track (node.edge cfg.DIR_CURVED).dest).index : Int)
  else if ¬ can_reserve cfg (track (node.edge cfg.DIR_STRAIGHT).dest) id = true then
    ((track (node.edge cfg.DIR_STRAIGHT).dest).index : Int)
  else -1

/-- Source: lambda `central_branch_safety`. -/
def central_branch_safety (cfg : TrackConsts) (track : Nat → track_node) (id : Int) : Int :=
  if branch_safety cfg track (track 116) id ≠ -1 then branch_safety cfg track (track 116) id
  else if branch_safety cfg track (track 118) id ≠ -1 then branch_safety cfg track (track 118) id
  else if branch_safety cfg track (track 120) id ≠ -1 then branch_safety cfg track (track 120) id
  else if branch_safety cfg track (track 122) id ≠ -1 then branch_safety cfg track (track 122) id
  else -1

/-- The test made on each entry of the owner's wait-for set by `detect_deadlock`. -/
def holds_wanted (track : Nat → track_node) (id : Int) (it : Nat) : Bool :=
  decide ((track it).reserved_by = id) || decide ((track (track it).reverse).reserved_by = id)

/-- Source: lambda `detect_deadlock`: the current owner of `node` when some
node it wants is held by `id`, otherwise `-1`. -/
def detect_deadlock (cfg : TrackConsts) (s : TrackServer) (node : track_node) (id : Int) :
    Except Halt Int :=
  if node.reserved_by = cfg.RESERVED_BY_NO_ONE then .error Halt.crash
  else
    if (s.train_wanted_nodes (cfg.train_num_to_index node.reserved_by)).any
        (holds_wanted s.track id) then
      .ok node.reserved_by
    else .ok (-1)

/-- The statement `train_wanted_nodes[slot].insert(n)`. -/
def wanted_insert (s : TrackServer) (slot : Int) (n : Nat) : TrackServer :=
  { s with
    train_wanted_nodes :=
      Function.update s.train_wanted_nodes slot ((s.train_wanted_nodes slot).insert n) }

/-- The statement `train_wanted_nodes[slot].clear()`. -/
def wanted_clear (s : TrackServer) (slot : Int) : TrackServer :=
  { s with train_wanted_nodes := Function.update s.train_wanted_nodes slot [] }

/-- The failure exit shared by the three checks of `evaluate_robustness_failed`:
run the deadlock probe on `culprit`, record its verdict, fail. -/
def fail_with_probe (cfg : TrackConsts) (s : TrackServer) (res : ReservationStatus)
    (culprit : track_node) (id : Int) : Except Halt (TrackServer × ReservationStatus × Bool) :=
  match detect_deadlock cfg s culprit id with
  | .error h => .error h
  | .ok deadlock_other_id =>
    let res1 : ReservationStatus :=
      if deadlock_other_id ≠ -1 then { res with dead_lock_detected := true } else res
    .ok (s, { res1 with successful := false }, true)

/-- Source: lambda `evaluate_robustness_failed`. The boolean is its return value. -/
def evaluate_robustness_failed (cfg : TrackConsts) (s : TrackServer) (res : ReservationStatus)
    (node : track_node) (id : Int) : Except Halt (TrackServer × ReservationStatus × Bool) :=
  let s1 := wanted_insert s (cfg.train_num_to_index id) node.index
  if ¬ can_reserve cfg node id = true then
    fail_with_probe cfg s1 res node id
  else
    let node_index : Int :=
      if node.type = node_type.NODE_BRANCH then branch_safety cfg s1.track node id
      else if node.type = node_type.NODE_MERGE then
        branch_safety cfg s1.track (s1.track node.reverse) id
      else -1
    if node_index ≠ -1 then
      fail_with_probe cfg s1 res (s1.track node_index.toNat) id
    else if node.num = 154 ∨ node.num = 153 ∨ node.num = 155 ∨ node.num = 156 then
      if central_branch_safety cfg s1.track id ≠ -1 then
        let s2 := wanted_insert s1 (cfg.train_num_to_index id) 116
        let s3 := wanted_insert s2 (cfg.train_num_to_index id) 118
        let s4 := wanted_insert s3 (cfg.train_num_to_index id) 120
        let s5 := wanted_insert s4 (cfg.train_num_to_index id) 122
        fail_with_probe cfg s5 res (s5.track (central_branch_safety cfg s1.track id).toNat) id
      else .ok (s1, res, false)
    else .ok (s1, res, false)

/-- Source: `TRACK_UNRESERVE`, the loop over `path[0 .. len)`; `k` entries remain
from position `i`. -/
def unreserve_loop (cfg : TrackConsts) (path : Nat → Nat) (id : Int) :
    Nat → Nat → (Nat → track_node) → Except Halt (Nat → track_node)
  | 0, _, track => .ok track
  | k + 1, i, track =>
    match cancel_reserve cfg track (path i) id with
    | .error h => .error h
    | .ok track1 => unreserve_loop cfg path id k (i + 1) track1

/-- Source: `case RequestHeader::TRACK_UNRESERVE`. -/
def TRACK_UNRESERVE (cfg : TrackConsts) (s : TrackServer) (req : Reservation) :
    Except Halt TrackServer :=
  match unreserve_loop cfg req.path req.train_id req.len 0 s.track with
  | .error h => .error h
  | .ok track1 => .ok { s with track := track1 }

/-- Source: `TRACK_TRY_RESERVE`, the first loop (`evaluate_robustness_failed` on
each `track[path[i]]`, leaving at the first failure). -/
def check_loop (cfg : TrackConsts) (path : Nat → Nat) (id : Int) :
    Nat → Nat → TrackServer → ReservationStatus → Except Halt (TrackServer × ReservationStatus)
  | 0, _, s, res => .ok (s, res)
  | k + 1, i, s, res =>
    match evaluate_robustness_failed cfg s res (s.track (path i)) id with
    | .error h => .error h
    | .ok (s1, res1, failed) =>
      if failed = true then .ok (s1, res1) else check_loop cfg path id k (i + 1) s1 res1

/-- The first half of the body of the look-ahead loop: advance `next_node` along
the track. `none` is the `break` taken at a node that is neither merge, sensor
nor branch; otherwise the new `safety_distance` and `next_node`. -/
def lookahead_advance (cfg : TrackConsts) (s : TrackServer) (safety_distance next_node : Nat) :
    Except Halt (Option (Nat × Nat)) :=
  let node := s.track next_node
  if node.type = node_type.NODE_MERGE ∨ node.type = node_type.NODE_SENSOR then
    .ok (some (safety_distance + (node.edge cfg.DIR_AHEAD).dist, (node.edge cfg.DIR_AHEAD).dest))
  else if node.type = node_type.NODE_BRANCH then
    if s.switch_state (get_switch_id_to_index node.num) = 's' then
      .ok (some (safety_distance + (node.edge cfg.DIR_STRAIGHT).dist,
        (node.edge cfg.DIR_STRAIGHT).dest))
    else if s.switch_state (get_switch_id_to_index node.num) = 'c' then
      .ok (some (safety_distance + (node.edge cfg.DIR_CURVED).dist,
        (node.edge cfg.DIR_CURVED).dest))
    else .error Halt.crash
  else .ok none

/-- Source: `TRACK_TRY_RESERVE`, the loop
`while (res.successful && safety_distance < SAFETY_DISTANCE)`. The first
argument bounds the number of iterations; `Halt.spin` when it does not suffice. -/
def lookahead_loop (cfg : TrackConsts) (id : Int) :
    Nat → TrackServer → ReservationStatus → Nat → Nat →
      Except Halt (TrackServer × ReservationStatus)
  | 0, s, res, safety_distance, _ =>
    if res.successful = true ∧ safety_distance < cfg.SAFETY_DISTANCE then .error Halt.spin
    else .ok (s, res)
  | fuel + 1, s, res, safety_distance, next_node =>
    if res.successful = true ∧ safety_distance < cfg.SAFETY_DISTANCE then
      match lookahead_advance cfg s safety_distance next_node with
      | .error h => .error h
      | .ok none => .ok (s, res)
      | .ok (some (safety_distance1, next_node1)) =>
        match evaluate_robustness_failed cfg s res (s.track next_node1) id with
        | .error h => .error h
        | .ok (s1, res1, failed) =>
          if failed = true then .ok (s1, res1)
          else lookahead_loop cfg id fuel s1 res1 safety_distance1 next_node1
    else .ok (s, res)

/-- Source: `TRACK_TRY_RESERVE`, the granting loop over `path[0 .. len)`; `k`
entries remain from position `i`. -/
def grant_loop (cfg : TrackConsts) (path : Nat → Nat) (len : Nat) (id : Int) :
    Nat → Nat → TrackServer → ReservationStatus → Except Halt (TrackServer × ReservationStatus)
  | 0, _, s, res => .ok (s, res)
  | k + 1, i, s, res =>
    let s1 : TrackServer := { s with track := reserve cfg s.track (path i) id }
    let node := s1.track (path i)
    if node.type = node_type.NODE_BRANCH then
      if path (i + 1) = (node.edge cfg.DIR_STRAIGHT).dest then
        match pipe_sw s1 (to_char node.num) 's' with
        | .error h => .error h
        | .ok (s2, _) =>
          grant_loop cfg path len id k (i + 1) s2
            { res with res_dist := res.res_dist + (node.edge cfg.DIR_STRAIGHT).dist }
      else if path (i + 1) = (node.edge cfg.DIR_CURVED).dest then
        match pipe_sw s1 (to_char node.num) 'c' with
        | .error h => .error h
        | .ok (s2, _) =>
          grant_loop cfg path len id k (i + 1) s2
            { res with res_dist := res.res_dist + (node.edge cfg.DIR_CURVED).dist }
      else .error Halt.crash
    else if i ≠ len - 1 then
      grant_loop cfg path len id k (i + 1) s1
        { res with res_dist := res.res_dist + (node.edge cfg.DIR_AHEAD).dist }
    else grant_loop cfg path len id k (i + 1) s1 res

/-- Source: `case RequestHeader::TRACK_TRY_RESERVE`. The result is the server
state after the request and the `ReservationStatus` replied to the caller;
`fuel` bounds the iterations of the look-ahead loop. -/
def TRACK_TRY_RESERVE (cfg : TrackConsts) (fuel : Nat) (s : TrackServer) (req : Reservation) :
    Except Halt (TrackServer × ReservationStatus) :=
  let res : ReservationStatus := { successful := true, dead_lock_detected := false, res_dist := 0 }
  let s0 := wanted_clear s (cfg.train_num_to_index req.train_id)
  match check_loop cfg req.path req.train_id req.len 0 s0 res with
  | .error h => .error h
  | .ok (s1, res1) =>
    if req.len = 0 then .error Halt.fault
    else
      match lookahead_loop cfg req.train_id fuel s1 res1 0 (req.path (req.len - 1)) with
      | .error h => .error h
      | .ok (s2, res2) =>
        if res2.successful = true then
          let s3 := wanted_clear s2 (cfg.train_num_to_index req.train_id)
          match grant_loop cfg req.path req.len req.train_id req.len 0 s3 res2 with
          | .error h => .error h
          | .ok (s4, res4) => .ok (reply_to_switch_subs s4, res4)
        else .ok (s2, res2)

/-! ## Initialisation, switch requests and the request loop -/

/-- Constants and tables of the absent headers that the initialisation
sequences use: the number of switch slots, the two track identifiers, and what
`init_tracka` / `init_trackb` make of the track array. -/
structure TrackTables where
  NUM_SWITCHES : Nat
  TRACK_A_ID : Int
  TRACK_B_ID : Int
  init_tracka : (Nat → track_node) → (Nat → track_node)
  init_trackb : (Nat → track_node) → (Nat → track_node)

/-- Source: the array `new_switch_state` filled by `tracka_initialization_sequence`. -/
def tracka_new_switch_state (i : Nat) : Char :=
  if i = 18 ∨ i = 20 then 's' else 'c'

/-- Source: the array `new_switch_state` filled by `trackb_initialization_sequence`. -/
def trackb_new_switch_state (i : Nat) : Char :=
  if i = 4 ∨ i = 6 ∨ i = 18 ∨ i = 20 then 'c' else 's'

/-- Source: the loop `for (i = 0; i < NUM_SWITCHES; i++)
pipe_sw(get_switch_index_to_id(i), new_switch_state[i])` of both initialisation
sequences; `k` slots remain from slot `i`. -/
def init_switch_loop (new_switch_state : Nat → Char) :
    Nat → Nat → TrackServer → Except Halt TrackServer
  | 0, _, s => .ok s
  | k + 1, i, s =>
    match pipe_sw s (get_switch_index_to_id i) (new_switch_state i) with
    | .error h => .error h
    | .ok (s1, _) => init_switch_loop new_switch_state k (i + 1) s1

/-- Source: lambda `tracka_initialization_sequence`. -/
def tracka_initialization_sequence (tb : TrackTables) (s : TrackServer) :
    Except Halt TrackServer :=
  init_switch_loop tracka_new_switch_state tb.NUM_SWITCHES 0
    { s with track := tb.init_tracka s.track }

/-- Source: lambda `trackb_initialization_sequence`. -/
def trackb_initialization_sequence (tb : TrackTables) (s : TrackServer) :
    Except Halt TrackServer :=
  init_switch_loop trackb_new_switch_state tb.NUM_SWITCHES 0
    { s with track := tb.init_trackb s.track }

/-- Source: `case RequestHeader::TRACK_INIT`, with `info = req.body.info`. -/
def TRACK_INIT (tb : TrackTables) (s : TrackServer) (info : Int) : Except Halt TrackServer :=
  if info = tb.TRACK_A_ID then
    match tracka_initialization_sequence tb s with
    | .error h => .error h
    | .ok s1 => .ok (reply_to_switch_subs s1)
  else if info = tb.TRACK_B_ID then
    match trackb_initialization_sequence tb s with
    | .error h => .error h
    | .ok s1 => .ok (reply_to_switch_subs s1)
  else .error Halt.crash

/-- Source: `case RequestHeader::TRACK_SWITCH`, with `id = req.body.command.id`
and `dir = req.body.command.action` (both `char`). -/
def TRACK_SWITCH (s : TrackServer) (id : Nat) (dir : Char) : Except Halt TrackServer :=
  match pipe_sw s id dir with
  | .error h => .error h
  | .ok (s1, changed) => if changed = true then .ok (reply_to_switch_subs s1) else .ok s1

/-- Source: `case RequestHeader::TRACK_SWITCH_SUBSCRIBE`: the caller is parked. -/
def TRACK_SWITCH_SUBSCRIBE (s : TrackServer) (sender : Int) : TrackServer :=
  { s with switch_subscriber := s.switch_subscriber ++ [sender] }

/-- The requests of `track_server` that change its state. -/
inductive TrackRequest where
  | INIT (info : Int)
  | SWITCH (id : Nat) (dir : Char)
  | UNRESERVE (req : Reservation)
  | TRY_RESERVE (fuel : Nat) (req : Reservation)
  | SWITCH_SUBSCRIBE (sender : Int)

/-- Source: one turn of the `while (true)` loop of `track_server` on a request. -/
def serve (cfg : TrackConsts) (tb : TrackTables) (s : TrackServer) :
    TrackRequest → Except Halt TrackServer
  | TrackRequest.INIT info => TRACK_INIT tb s info
  | TrackRequest.SWITCH id dir => TRACK_SWITCH s id dir
  | TrackRequest.UNRESERVE req => TRACK_UNRESERVE cfg s req
  | TrackRequest.TRY_RESERVE fuel req =>
    match TRACK_TRY_RESERVE cfg fuel s req with
    | .error h => .error h
    | .ok (s1, _) => .ok s1
  | TrackRequest.SWITCH_SUBSCRIBE sender => .ok (TRACK_SWITCH_SUBSCRIBE s sender)

/-- The server handling a list of requests in order. -/
def serve_all (cfg : TrackConsts) (tb : TrackTables) :
    TrackServer → List TrackRequest → Except Halt TrackServer
  | s, [] => .ok s
  | s, r :: rest =>
    match serve cfg tb s r with
    | .error h => .error h
    | .ok s1 => serve_all cfg tb s1 rest

/-! ## Specification-side vocabulary -/

/-- Two server states that differ at most in the wait-for set of one slot. -/
def only_wanted_differs (slot : Int) (s s1 : TrackServer) : Prop :=
  s1.track = s.track ∧ s1.switch_state = s.switch_state ∧
  s1.switch_subscriber = s.switch_subscriber ∧ s1.courier_requests = s.courier_requests ∧
  s1.subscriber_replies = s.subscriber_replies ∧
  ∀ other : Int, other ≠ slot → s1.train_wanted_nodes other = s.train_wanted_nodes other

/-- The two assignments that `reserve` and `cancel_reserve` make: owner `o` on
`track[n]` and on its reverse, direction `d1` on `track[n]`, then `d2` on the reverse. -/
def write_pair (track : Nat → track_node) (n : Nat) (o d1 d2 : Int) : Nat → track_node :=
  let t1 := set_reservation track n o d1
  set_reservation t1 (t1 n).reverse o d2

/-- The track after `write_pair` on the entries `path[i .. i + k)`, in order. -/
def write_pairs (path : Nat → Nat) (o d1 d2 : Int) :
    Nat → Nat → (Nat → track_node) → (Nat → track_node)
  | 0, _, track => track
  | k + 1, i, track => write_pairs path o d1 d2 k (i + 1) (write_pair track (path i) o d1 d2)

/-- Train `id` may take `track[n]`: the node is unreserved or already held by `id`. -/
def reservable (cfg : TrackConsts) (track : Nat → track_node) (id : Int) (n : Nat) : Prop :=
  (track n).reserved_by = cfg.RESERVED_BY_NO_ONE ∨ (track n).reserved_by = id

instance (cfg : TrackConsts) (track : Nat → track_node) (id : Int) (n : Nat) :
    Decidable (reservable cfg track id n) := by
  unfold reservable; infer_instance

/-- Both the STRAIGHT and the CURVED destination of `track[b]` may be taken by `id`. -/
def branch_clear (cfg : TrackConsts) (track : Nat → track_node) (id : Int) (b : Nat) : Prop :=
  reservable cfg track id ((track b).edge cfg.DIR_STRAIGHT).dest ∧
  reservable cfg track id ((track b).edge cfg.DIR_CURVED).dest

instance (cfg : TrackConsts) (track : Nat → track_node) (id : Int) (b : Nat) :
    Decidable (branch_clear cfg track id b) := by
  unfold branch_clear; infer_instance

/-- The four tests a node must pass for train `id`: the node itself, the two
destinations of a branch, the two destinations of the reverse of a merge, and,
for a node numbered 153..156, the destinations of the central branch nodes
116, 118, 120 and 122. -/
def passes_checks (cfg : TrackConsts) (track : Nat → track_node) (id : Int) (n : Nat) : Prop :=
  reservable cfg track id n ∧
  ((track n).type = node_type.NODE_BRANCH → branch_clear cfg track id n) ∧
  ((track n).type = node_type.NODE_MERGE → branch_clear cfg track id (track n).reverse) ∧
  (153 ≤ (track n).num ∧ (track n).num ≤ 156 →
    branch_clear cfg track id 116 ∧ branch_clear cfg track id 118 ∧
    branch_clear cfg track id 120 ∧ branch_clear cfg track id 122)

instance (cfg : TrackConsts) (track : Nat → track_node) (id : Int) (n : Nat) :
    Decidable (passes_checks cfg track id n) := by
  unfold passes_checks; infer_instance

/-- The value of `node_index` after the branch / merge test of
`evaluate_robustness_failed` on `track[n]`. -/
def side_index (cfg : TrackConsts) (track : Nat → track_node) (id : Int) (n : Nat) : Int :=
  if (track n).type = node_type.NODE_BRANCH then branch_safety cfg track (track n) id
  else if (track n).type = node_type.NODE_MERGE then
    branch_safety cfg track (track (track n).reverse) id
  else -1

/-- The node on which the checks of `track[n]` run the deadlock probe: the node
itself when it cannot be reserved, else the offending branch destination, else
the offending destination of the central junction; `none` when all checks pass. -/
def culprit (cfg : TrackConsts) (track : Nat → track_node) (id : Int) (n : Nat) : Option Nat :=
  if ¬ can_reserve cfg (track n) id = true then some n
  else if side_index cfg track id n ≠ -1 then some (side_index cfg track id n).toNat
  else if ((track n).num = 154 ∨ (track n).num = 153 ∨ (track n).num = 155 ∨ (track n).num = 156) ∧
      central_branch_safety cfg track id ≠ -1 then
    some (central_branch_safety cfg track id).toNat
  else none

/-- The edge by which the look-ahead walk leaves `track[n]`, in the words of the
specification: the AHEAD edge of a sensor or merge; at a branch the STRAIGHT
edge when the recorded position of its switch is `s` and the CURVED edge when
it is `c`; no edge at a branch whose position is neither, nor at any other kind
of node. -/
def walk_edge (cfg : TrackConsts) (s : TrackServer) (n : Nat) : Option track_edge :=
  match (s.track n).type with
  | node_type.NODE_SENSOR => some ((s.track n).edge cfg.DIR_AHEAD)
  | node_type.NODE_MERGE => some ((s.track n).edge cfg.DIR_AHEAD)
  | node_type.NODE_BRANCH =>
    if s.switch_state (get_switch_id_to_index (s.track n).num) = 'c' then
      some ((s.track n).edge cfg.DIR_CURVED)
    else if s.switch_state (get_switch_id_to_index (s.track n).num) = 's' then
      some ((s.track n).edge cfg.DIR_STRAIGHT)
    else none
  | _ => none

/-- The look-ahead walk, in the words of the specification: starting from
`next_node` with the distance accumulated so far, and for as long as that
distance is below `SAFETY_DISTANCE`, move along the edge `walk_edge` gives for
the node reached and add its length; the walk ends where there is no such edge
(or when `fuel` steps have been taken). The result lists the nodes moved to. -/
def lookahead_walk (cfg : TrackConsts) (s : TrackServer) : Nat → Nat → Nat → List Nat
  | 0, _, _ => []
  | fuel + 1, safety_distance, next_node =>
    if cfg.SAFETY_DISTANCE ≤ safety_distance then []
    else
      match walk_edge cfg s next_node with
      | none => []
      | some e => e.dest :: lookahead_walk cfg s fuel (safety_distance + e.dist) e.dest

/-- The verdict of the deadlock probe run for train `id` on a node held by
`owner`, with the wait-for table of `s`. -/
def probe_hit (cfg : TrackConsts) (s : TrackServer) (owner id : Int) : Bool :=
  (s.train_wanted_nodes (cfg.train_num_to_index owner)).any (holds_wanted s.track id)

/-- The nodes `track[path[i]], ..., track[path[i + k - 1]]` named by a request. -/
def path_nodes (path : Nat → Nat) (k i : Nat) : List Nat := (List.range' i k).map path

/-- The first node of a list of examined nodes whose checks fail, as the node
handed to the deadlock probe. -/
def first_culprit (cfg : TrackConsts) (track : Nat → track_node) (id : Int) (nodes : List Nat) :
    Option Nat :=
  nodes.findSome? (culprit cfg track id)

/-- The reply `res1` records a failure found on culprit `x`, starting from `res`:
not successful, distance untouched, `x` held by somebody, and the deadlock flag
raised exactly when the probe on the holder of `x` hits (a holder numbered `-1`
is indistinguishable from the probe's "no deadlock" result). -/
def failed_on (cfg : TrackConsts) (track : Nat → track_node) (s1 : TrackServer) (id : Int)
    (res res1 : ReservationStatus) (x : Nat) : Prop :=
  res1.successful = false ∧ res1.res_dist = res.res_dist ∧
  (track x).reserved_by ≠ cfg.RESERVED_BY_NO_ONE ∧
  res1.dead_lock_detected =
    (res.dead_lock_detected ||
      (decide ((track x).reserved_by ≠ -1) && probe_hit cfg s1 (track x).reserved_by id))

/-- The nodes examined by a `TRACK_TRY_RESERVE` request on state `s`: the nodes
of the path, then the nodes of the look-ahead walk from the last of them. -/
def examined (cfg : TrackConsts) (fuel : Nat) (s : TrackServer) (req : Reservation) : List Nat :=
  path_nodes req.path req.len 0 ++ lookahead_walk cfg s fuel 0 (req.path (req.len - 1))

/-- Two `reserve_dir` values that mirror each other: DIRECT opposite REVERSE, or
both unreserved (the value `cancel_reserve` writes). -/
def mirror_paired (cfg : TrackConsts) (a b : Int) : Prop :=
  (a = cfg.DIRECT_RESERVE ∧ b = cfg.REVERSE_RESERVE) ∨
  (a = cfg.REVERSE_RESERVE ∧ b = cfg.DIRECT_RESERVE) ∨
  (a = cfg.RESERVED_BY_NO_ONE ∧ b = cfg.RESERVED_BY_NO_ONE)

instance (cfg : TrackConsts) (a b : Int) : Decidable (mirror_paired cfg a b) := by
  unfold mirror_paired; infer_instance

/-- The mirror invariant: every node has the owner of its reverse, and their
`reserve_dir` values are mirror-paired. -/
def mirror_invariant (cfg : TrackConsts) (track : Nat → track_node) : Prop :=
  ∀ n, (track n).reserved_by = (track (track n).reverse).reserved_by ∧
    mirror_paired cfg (track n).reserve_dir (track (track n).reverse).reserve_dir

/-- The reverse link is an involution on nodes. -/
def reverse_involution (track : Nat → track_node) : Prop :=
  ∀ n, (track (track n).reverse).reverse = n

/-- Whether `cancel_reserve` refuses `track[n]` for train `id`. -/
def not_owned (cfg : TrackConsts) (track : Nat → track_node) (id : Int) (n : Nat) : Prop :=
  (track n).reserved_by = cfg.RESERVED_BY_NO_ONE ∨ (track n).reserved_by ≠ id

instance (cfg : TrackConsts) (track : Nat → track_node) (id : Int) (n : Nat) :
    Decidable (not_owned cfg track id n) := by
  unfold not_owned; infer_instance

/-- The track after the first `j` entries of `path` have been released. -/
def released (cfg : TrackConsts) (path : Nat → Nat) (j : Nat) (track : Nat → track_node) :
    Nat → track_node :=
  write_pairs path cfg.RESERVED_BY_NO_ONE cfg.RESERVED_BY_NO_ONE cfg.RESERVED_BY_NO_ONE j 0 track

/-! ## Vocabulary for switches and requests -/

/-- The switch paired with a central switch (153 with 154, 155 with 156); any
other id is returned as it is. -/
def paired_id (id : Nat) : Nat :=
  match get_rev_switch_id id with
  | .ok rev_id => rev_id
  | .error _ => id

/-- The switch table that `pipe_sw(id, dir)` leaves, as a function of the table
it finds. -/
def pipe_table (f : Nat → Char) (id : Nat) (dir : Char) : Nat → Char :=
  if f (get_switch_id_to_index id) ≠ dir then
    if 153 ≤ id ∧ id ≤ 156 then
      Function.update (Function.update f (get_switch_id_to_index id) dir)
        (get_switch_id_to_index (paired_id id)) (get_rev_switch_dir dir)
    else Function.update f (get_switch_id_to_index id) dir
  else f

/-- The commands that `pipe_sw(id, dir)` hands to the courier pool. -/
def pipe_commands (f : Nat → Char) (id : Nat) (dir : Char) : List (Nat × Char) :=
  if f (get_switch_id_to_index id) ≠ dir then
    if 153 ≤ id ∧ id ≤ 156 then [(id, dir), (paired_id id, get_rev_switch_dir dir)]
    else [(id, dir)]
  else []

/-- The slots `pipe_sw(id, _)` may write: the slot of `id` and, for a central
switch, the slot of its partner. -/
def writes_slot (id slot : Nat) : Prop :=
  slot = get_switch_id_to_index id ∨
  (153 ≤ id ∧ id ≤ 156 ∧ slot = get_switch_id_to_index (paired_id id))

instance (id slot : Nat) : Decidable (writes_slot id slot) := by
  unfold writes_slot; infer_instance

/-- A switch id the track has: 1..18 or one of the central 153..156. -/
def valid_switch_id (id : Nat) : Prop := (1 ≤ id ∧ id ≤ 18) ∨ (153 ≤ id ∧ id ≤ 156)

instance (id : Nat) : Decidable (valid_switch_id id) := by
  unfold valid_switch_id; infer_instance

/-- The commands `cmds` announce every difference between the switch tables
`f0` and `f`: a slot whose content differs is named by a command (through
`get_switch_id_to_index`) that carries the slot's content in `f`; when the id
carried is a valid one, it is the id to which the slot belongs. -/
def announces (f0 f : Nat → Char) (cmds : List (Nat × Char)) : Prop :=
  ∀ slot, f slot ≠ f0 slot →
    ∃ cmd, cmd ∈ cmds ∧ get_switch_id_to_index cmd.1 = slot ∧ cmd.2 = f slot ∧
      (valid_switch_id cmd.1 → get_switch_index_to_id slot = cmd.1)

/-- The recorded positions of the central pair `(a, b)` are both unknown, or one
is `'s'` and the other `'c'`. -/
def central_pair_ok (f : Nat → Char) (a b : Nat) : Prop :=
  (f (get_switch_id_to_index a) = Char.ofNat 0 ∧ f (get_switch_id_to_index b) = Char.ofNat 0) ∨
  (f (get_switch_id_to_index a) = 's' ∧ f (get_switch_id_to_index b) = 'c') ∨
  (f (get_switch_id_to_index a) = 'c' ∧ f (get_switch_id_to_index b) = 's')


/-- The edge of `track[a]` that the granting loop follows towards `b`: for a
branch the STRAIGHT edge when it leads to `b` and the CURVED edge otherwise, for
every other node the AHEAD edge. -/
def edge_to (cfg : TrackConsts) (track : Nat → track_node) (a b : Nat) : track_edge :=
  if (track a).type = node_type.NODE_BRANCH then
    if b = ((track a).edge cfg.DIR_STRAIGHT).dest then (track a).edge cfg.DIR_STRAIGHT
    else (track a).edge cfg.DIR_CURVED
  else (track a).edge cfg.DIR_AHEAD

/-- Node `b` is the destination of a track edge that leaves `track[a]`: of the
STRAIGHT or the CURVED edge of a branch, of the AHEAD edge of any other node. -/
def joined (cfg : TrackConsts) (track : Nat → track_node) (a b : Nat) : Prop :=
  if (track a).type = node_type.NODE_BRANCH then
    ((track a).edge cfg.DIR_STRAIGHT).dest = b ∨ ((track a).edge cfg.DIR_CURVED).dest = b
  else ((track a).edge cfg.DIR_AHEAD).dest = b

instance (cfg : TrackConsts) (track : Nat → track_node) (a b : Nat) :
    Decidable (joined cfg track a b) := by
  unfold joined; infer_instance

/-- Two track arrays with the same topology: kinds, switch numbers and edges agree. -/
def same_layout (t t0 : Nat → track_node) : Prop :=
  ∀ m, (t m).type = (t0 m).type ∧ (t m).num = (t0 m).num ∧ (t m).edge = (t0 m).edge

/-- The switch slot that belongs to the branch node `track[n]`. -/
def slot_of (track : Nat → track_node) (n : Nat) : Nat :=
  get_switch_id_to_index (to_char (track n).num)

/-! ## Vocabulary for the wait-for sets and the look-ahead -/

/-- The checks of the first loop of `TRACK_TRY_RESERVE`, applied in order to the
nodes of a list: `evaluate_robustness_failed` on each, leaving at the first failure. -/
def check_nodes (cfg : TrackConsts) (id : Int) :
    List Nat → TrackServer → ReservationStatus → Except Halt (TrackServer × ReservationStatus)
  | [], s, res => .ok (s, res)
  | n :: rest, s, res =>
    match evaluate_robustness_failed cfg s res (s.track n) id with
    | .error h => .error h
    | .ok (s1, res1, failed) =>
      if failed = true then .ok (s1, res1) else check_nodes cfg id rest s1 res1

/-- The check that fails on `track[n]` is the one of the central junction: the
node and its branch destinations can be taken, the node is numbered 153..156,
and some destination of the branches 116, 118, 120, 122 cannot be taken. -/
def central_failed (cfg : TrackConsts) (track : Nat → track_node) (id : Int) (n : Nat) : Prop :=
  can_reserve cfg (track n) id = true ∧ side_index cfg track id n = -1 ∧
  ((track n).num = 154 ∨ (track n).num = 153 ∨ (track n).num = 155 ∨ (track n).num = 156) ∧
  central_branch_safety cfg track id ≠ -1

instance (cfg : TrackConsts) (track : Nat → track_node) (id : Int) (n : Nat) :
    Decidable (central_failed cfg track id n) := by
  unfold central_failed; infer_instance

/-- What examining `track[n]` adds to the wait-for set: the index of the node,
and the four central branch nodes when the central-junction check fails. -/
def step_wanted (cfg : TrackConsts) (track : Nat → track_node) (id : Int) (n : Nat) : List Nat :=
  if central_failed cfg track id n then [(track n).index, 116, 118, 120, 122]
  else [(track n).index]

/-- The indices wanted after examining the nodes of a list in order, up to and
including the first node whose checks fail. -/
def wanted_after (cfg : TrackConsts) (track : Nat → track_node) (id : Int) : List Nat → List Nat
  | [] => []
  | n :: rest =>
    step_wanted cfg track id n ++
      (if culprit cfg track id n = none then wanted_after cfg track id rest else [])

/-- Every recorded position of the 22 switch slots is `'s'` or `'c'`. -/
def positions_known (f : Nat → Char) : Prop := ∀ slot, slot < 22 → f slot = 's' ∨ f slot = 'c'

/-- The position of each node in the track array is its `index` field. -/
def index_is_position (track : Nat → track_node) : Prop := ∀ n, (track n).index = n

/-- The look-ahead walk in the words of the specification: from `next_node`,
follow the AHEAD edge at a node that is not a branch and the edge selected by
the recorded switch position at a branch, while the accumulated distance is
below `SAFETY_DISTANCE` (at most `fuel` steps). -/
def claimed_walk (cfg : TrackConsts) (s : TrackServer) : Nat → Nat → Nat → List Nat
  | 0, _, _ => []
  | fuel + 1, safety_distance, next_node =>
    if safety_distance < cfg.SAFETY_DISTANCE then
      let node := s.track next_node
      let e : track_edge :=
        if node.type = node_type.NODE_BRANCH then
          if s.switch_state (get_switch_id_to_index node.num) = 'c' then node.edge cfg.DIR_CURVED
          else node.edge cfg.DIR_STRAIGHT
        else node.edge cfg.DIR_AHEAD
      e.dest :: claimed_walk cfg s fuel (safety_distance + e.dist) e.dest
    else []
/-! ## A small track used for the concrete instances

Eight nodes in four reverse pairs `(0,1) (2,3) (4,5) (6,7)`; every index above
is an exit paired with its neighbour. Sensor `0` leads to branch `2` (switch 1),
whose straight edge leads to sensor `4` and whose curved edge to exit `8`;
merge `3` is the reverse of the branch and leads to sensor `1`. -/

/-- Values for the constants of the absent headers, used by the concrete instances. -/
def sample_consts : TrackConsts :=
  { RESERVED_BY_NO_ONE := -1, DIRECT_RESERVE := 1, REVERSE_RESERVE := 2, SAFETY_DISTANCE := 500,
    DIR_AHEAD := 0, DIR_STRAIGHT := 0, DIR_CURVED := 1, train_num_to_index := fun t => t }

/-- The other node of a reverse pair `(2k, 2k+1)`. -/
def mate (i : Nat) : Nat := if i % 2 = 0 then i + 1 else i - 1

/-- Node kinds of the sample track. -/
def sample_type : Nat → node_type
  | 0 => node_type.NODE_SENSOR
  | 1 => node_type.NODE_SENSOR
  | 2 => node_type.NODE_BRANCH
  | 3 => node_type.NODE_MERGE
  | 4 => node_type.NODE_SENSOR
  | 5 => node_type.NODE_SENSOR
  | _ => node_type.NODE_EXIT

/-- Edges of the sample track (node, direction). -/
def sample_edge : Nat → Nat → track_edge
  | 0, _ => ⟨2, 200⟩
  | 1, _ => ⟨7, 100⟩
  | 2, 0 => ⟨4, 400⟩
  | 2, _ => ⟨8, 300⟩
  | 3, _ => ⟨1, 200⟩
  | 4, _ => ⟨6, 600⟩
  | 5, _ => ⟨3, 400⟩
  | i, _ => ⟨i, 0⟩

/-- The sample track with a given ownership of its nodes. -/
def sample_track (owner : Nat → Int) : Nat → track_node := fun i =>
  { index := i, type := sample_type i, num := if i = 2 ∨ i = 3 then 1 else 0, reverse := mate i,
    edge := sample_edge i, reserved_by := owner i, reserve_dir := -1 }

/-- A server over the sample track: all switches in position `sw`, task 7
subscribed to switch changes, nothing wanted, nothing sent yet. -/
def sample_server (owner : Nat → Int) (sw : Char) : TrackServer :=
  { track := sample_track owner, train_wanted_nodes := fun _ => [], switch_state := fun _ => sw,
    switch_subscriber := [7], courier_requests := [], subscriber_replies := [] }

/-- Nobody holds anything. -/
def nobody : Nat → Int := fun _ => -1

/-- Train 71 holds the pair `(4, 5)`. -/
def train71_on_4 : Nat → Int := fun i => if i = 4 ∨ i = 5 then 71 else -1

/-- The sample server before any `TRACK_INIT`: every switch position is still
the `'\0'` written when the server starts. -/
def uninitialised_server : TrackServer := sample_server nobody (Char.ofNat 0)

/-- Train 58 holds the pair `(0, 1)` and train 71 the pair `(4, 5)`. -/
def crossing_trains : Nat → Int :=
  fun i => if i = 0 ∨ i = 1 then 58 else if i = 4 ∨ i = 5 then 71 else -1

/-- A table of track identifiers and number of slots for the concrete
instances: track A is 1, track B is 2, 22 switch slots, and the track array is
left as it is. -/
def sample_tables : TrackTables :=
  { NUM_SWITCHES := 22, TRACK_A_ID := 1, TRACK_B_ID := 2, init_tracka := fun t => t,
    init_trackb := fun t => t }


/-- The sample track with the sensor `4` wired back into the branch `2`: the
route `2 → 4 → 2 → 8` goes once round the loop and then leaves through the
curved leg. -/
def loop_track : Nat → track_node := fun i =>
  { sample_track nobody i with edge := if i = 4 then fun _ => ⟨2, 600⟩ else sample_edge i }

/-- A server over `loop_track`, every switch at `'s'`. -/
def loop_server : TrackServer :=
  { sample_server nobody 's' with track := loop_track }

/-- Once round the loop, then out through the curved leg. -/
def loop_route : Nat → Nat
  | 0 => 2
  | 1 => 4
  | 2 => 2
  | _ => 8

/-- Train 71 holds the branch `2` and its reverse, the merge `3`. -/
def train71_on_2 : Nat → Int := fun i => if i = 2 ∨ i = 3 then 71 else -1

/-- A one-entry path `[2]` whose array continues with the straight destination `4`. -/
def branch_then_4 : Nat → Nat := fun i => if i = 0 then 2 else 4

/-- A one-entry path `[2]` whose array continues with `2` again. -/
def branch_then_2 : Nat → Nat := fun _ => 2

/-- A track laid out around the central junction: the branches 153..156 sit at
the positions 116, 118, 120 and 122, each with its merge at the next position;
every other node is a sensor. From node `i` the straight (and ahead) edge leads
to `i + 2` and the curved edge to `i + 4`, each 100 long. -/
def central_track (owner : Nat → Int) : Nat → track_node := fun i =>
  { index := i,
    type :=
      if 116 ≤ i ∧ i ≤ 123 then
        (if i % 2 = 0 then node_type.NODE_BRANCH else node_type.NODE_MERGE)
      else node_type.NODE_SENSOR,
    num := if 116 ≤ i ∧ i ≤ 123 then 153 + ((i - 116) / 2 : Nat) else 0,
    reverse := mate i,
    edge := fun d => if d = 0 then ⟨i + 2, 100⟩ else ⟨i + 4, 100⟩,
    reserved_by := owner i, reserve_dir := -1 }

/-- Train 71 holds the pair `(124, 125)`, the curved destination of branch 155. -/
def train71_on_124 : Nat → Int := fun i => if i = 124 ∨ i = 125 then 71 else -1

/-- A server over `central_track`, every switch at `'s'`. -/
def central_server (owner : Nat → Int) : TrackServer :=
  { track := central_track owner, train_wanted_nodes := fun _ => [],
    switch_state := fun _ => 's', switch_subscriber := [], courier_requests := [],
    subscriber_replies := [] }
end Track


/-!
# abyssOS: message passing in the kernel

A shallow embedding of the rendezvous handlers of `src/kernel/kernel.cc`.

* The kernel's members are the fields of `Kernel`; a handler is a function from
  the kernel state and the argument registers of the request to the next
  state, `none` when it dereferences a null task pointer.
* A message is passed as the bytes found at the `msg` pointer together with the
  length given by the caller; what the kernel copies into a task's memory is
  recorded in that task's descriptor (`copied`, `copied_to`, `from_value`).
* The class `TaskDescriptor`, the implementation of `Scheduler` and the
  exception codes of `Message` are not part of the sources; they are modelled
  from the specification, respectively taken as the parameter `KernelConsts`.
-/

namespace Abyss

/-- States of a task, as listed by the specification. -/
inductive TaskState where
  | READY
  | ACTIVE
  | RECEIVE_BLOCK
  | SEND_BLOCK
  | REPLY_BLOCK
  | EVENT_BLOCK
  | ZOMBIE
deriving DecidableEq, Repr

/-- A queued message: sender id (`from`), bytes and length. -/
structure Message where
  sender : Nat
  data : List Nat
  len : Nat
deriving DecidableEq, Repr

/-- A buffer of a user task: address and capacity in bytes. -/
structure Buffer where
  addr : Nat
  cap : Nat
deriving DecidableEq, Repr

/-- Modelled from the spec: the class `TaskDescriptor` (absent from the
sources). A task has an id, a parent id, a priority, a state, an interrupted
flag, an inbox of pending messages and a slot recording the destination buffer
of the transfer it waits for (with the `from` pointer of a `Receive`).
`response` is the value the task's pending system call returns; `copied`,
`copied_to` and `from_value` record the last transfer into the task's memory. -/
structure TaskDescriptor where
  task_id : Nat
  parent_id : Int
  priority : Nat
  state : TaskState
  interrupted : Bool
  inbox : List Message
  response : Int
  slot : Buffer
  slot_from : Option Nat
  copied : List Nat
  copied_to : Nat
  from_value : Option Nat
deriving DecidableEq, Repr

/-- Source: `class Scheduler` of `scheduler.h`, one queue of task ids per priority. -/
structure Scheduler where
  ready_queue : Nat → List Nat

/-- Exception codes of `Message::Send` and `Message::Reply`, declared in a
header that is not among the sources. -/
structure KernelConsts where
  SEND_NO_SUCH_TASK : Int
  REPLY_NO_SUCH_TASK : Int
  NOT_WAITING_FOR_REPLY : Int

/-- The members of `class Kernel` that the handlers read and write. -/
structure Kernel where
  tasks : Nat → Option TaskDescriptor
  scheduler : Scheduler
  active_task : Nat
  p_id_counter : Nat
  clock_notifier_tid : Int

/-- Modelled from the spec: `Scheduler::add_task` appends the id to the FIFO of
its priority level. -/
def add_task (sch : Scheduler) (priority : Nat) (task_id : Nat) : Scheduler :=
  { ready_queue := Function.update sch.ready_queue priority (sch.ready_queue priority ++ [task_id]) }

/-- Modelled from the spec: `TaskDescriptor::to_ready(value, &scheduler)` makes
the task `READY` with `value` as the return value of its system call and
re-queues it at the tail of its priority level. -/
def to_ready (t : TaskDescriptor) (value : Int) (sch : Scheduler) : TaskDescriptor × Scheduler :=
  ({ t with state := TaskState.READY, response := value }, add_task sch t.priority t.task_id)

/-- Modelled from the spec: `TaskDescriptor::is_receive_block`. -/
def is_receive_block (t : TaskDescriptor) : Bool := decide (t.state = TaskState.RECEIVE_BLOCK)

/-- Modelled from the spec: `TaskDescriptor::is_reply_block`. -/
def is_reply_block (t : TaskDescriptor) : Bool := decide (t.state = TaskState.REPLY_BLOCK)

/-- Modelled from the spec: `TaskDescriptor::have_message`, the inbox is not empty. -/
def have_message (t : TaskDescriptor) : Bool := !t.inbox.isEmpty

/-- Modelled from the spec: `TaskDescriptor::fill_response(from, msg, msglen)`
copies the message into the buffer recorded in the slot, truncated to the
smaller of the two lengths, writes the sender through the recorded `from`
pointer if there is one, and returns the copied length. -/
def fill_response (t : TaskDescriptor) (sender : Nat) (msg : List Nat) (msglen : Nat) :
    TaskDescriptor × Nat :=
  ({ t with
      copied := msg.take (min msglen t.slot.cap)
      copied_to := t.slot.addr
      from_value := if t.slot_from.isSome then some sender else t.from_value },
    min msglen t.slot.cap)

/-- Modelled from the spec: `TaskDescriptor::queue_message(from, msg, msglen)`
appends `(from, msg)` at the tail of the inbox. -/
def queue_message (t : TaskDescriptor) (sender : Nat) (msg : List Nat) (msglen : Nat) :
    TaskDescriptor :=
  { t with inbox := t.inbox ++ [{ sender := sender, data := msg.take msglen, len := msglen }] }

/-- Modelled from the spec: `TaskDescriptor::to_send_block(reply, replylen)`
makes the task `SEND_BLOCK` holding the reply buffer. -/
def to_send_block (t : TaskDescriptor) (reply replylen : Nat) : TaskDescriptor :=
  { t with state := TaskState.SEND_BLOCK, slot := ⟨reply, replylen⟩, slot_from := none }

/-- Modelled from the spec: `TaskDescriptor::to_reply_block(reply, replylen)`
makes the task `REPLY_BLOCK` holding the reply buffer. -/
def to_reply_block_with (t : TaskDescriptor) (reply replylen : Nat) : TaskDescriptor :=
  { t with state := TaskState.REPLY_BLOCK, slot := ⟨reply, replylen⟩, slot_from := none }

/-- Modelled from the spec: `TaskDescriptor::to_reply_block()` moves a sender
whose message has been taken from `SEND_BLOCK` to `REPLY_BLOCK`; the reply
buffer it holds stays recorded. -/
def to_reply_block (t : TaskDescriptor) : TaskDescriptor :=
  { t with state := TaskState.REPLY_BLOCK }

/-- Modelled from the spec: `TaskDescriptor::pop_inbox` removes and returns the
oldest message of the inbox (`none` on an empty inbox). -/
def pop_inbox (t : TaskDescriptor) : Option (Message × TaskDescriptor) :=
  match t.inbox with
  | [] => none
  | m :: rest => some (m, { t with inbox := rest })

/-- Modelled from the spec: `TaskDescriptor::fill_message(incoming, from, msg, msglen)`
copies the message into the buffer `msg` (truncated to `msglen`) and writes the
sender into `*from`. -/
def fill_message (t : TaskDescriptor) (incoming : Message) (msg msglen : Nat) : TaskDescriptor :=
  { t with
    copied := incoming.data.take (min incoming.len msglen)
    copied_to := msg
    from_value := some incoming.sender }

/-- Modelled from the spec: `TaskDescriptor::to_receive_block(from, msg, msglen)`
records `(from, msg)` on the task and makes it `RECEIVE_BLOCK`. -/
def to_receive_block (t : TaskDescriptor) (sender_ptr msg msglen : Nat) : TaskDescriptor :=
  { t with state := TaskState.RECEIVE_BLOCK, slot := ⟨msg, msglen⟩, slot_from := some sender_ptr }

/-- The assignment `*tasks[id] = t`. -/
def set_task (k : Kernel) (id : Nat) (t : TaskDescriptor) : Kernel :=
  { k with tasks := Function.update k.tasks id (some t) }

/-- The call `tasks[id]->to_ready(value, &scheduler)`. -/
def ready_task (k : Kernel) (id : Nat) (value : Int) : Option Kernel :=
  match k.tasks id with
  | none => none
  | some t => some { set_task k id (to_ready t value k.scheduler).1 with
                      scheduler := (to_ready t value k.scheduler).2 }

/-- Source: `Kernel::handle_send`; `rid`, `msg`, `msglen`, `reply`, `replylen`
are the registers `x1 .. x5` of the request, `msg` being the bytes at that pointer. -/
def handle_send (c : KernelConsts) (k : Kernel) (rid : Nat) (msg : List Nat) (msglen : Nat)
    (reply replylen : Nat) : Option Kernel :=
  match k.tasks rid with
  | none => ready_task k k.active_task c.SEND_NO_SUCH_TASK
  | some r =>
    if is_receive_block r = true then
      let k1 := set_task k rid (fill_response r k.active_task msg msglen).1
      match ready_task k1 rid msglen with
      | none => none
      | some k2 =>
        match k2.tasks k2.active_task with
        | none => none
        | some a => some (set_task k2 k2.active_task (to_reply_block_with a reply replylen))
    else
      let k1 := set_task k rid (queue_message r k.active_task msg msglen)
      match k1.tasks k1.active_task with
      | none => none
      | some a => some (set_task k1 k1.active_task (to_send_block a reply replylen))

/-- Source: `Kernel::handle_receive`; `sender_ptr`, `msg`, `msglen` are the
registers `x1 .. x3` of the request (`from`, the buffer and its length). -/
def handle_receive (k : Kernel) (sender_ptr msg msglen : Nat) : Option Kernel :=
  match k.tasks k.active_task with
  | none => none
  | some a =>
    if have_message a = true then
      match pop_inbox a with
      | none => none
      | some (incoming_msg, a1) =>
        let k1 := set_task k k.active_task a1
        match k1.tasks incoming_msg.sender with
        | none => none
        | some st =>
          let k2 := set_task k1 incoming_msg.sender (to_reply_block st)
          match k2.tasks k2.active_task with
          | none => none
          | some a2 =>
            let k3 := set_task k2 k2.active_task (fill_message a2 incoming_msg msg msglen)
            ready_task k3 k3.active_task incoming_msg.len
    else some (set_task k k.active_task (to_receive_block a sender_ptr msg msglen))

/-- Source: `Kernel::handle_reply`; `target` (`to` in the source), `msg`,
`msglen` are the registers `x1 .. x3` of the request. -/
def handle_reply (c : KernelConsts) (k : Kernel) (target : Nat) (msg : List Nat) (msglen : Nat) :
    Option Kernel :=
  match k.tasks target with
  | none => ready_task k k.active_task c.REPLY_NO_SUCH_TASK
  | some t =>
    if ¬ is_reply_block t = true then ready_task k k.active_task c.NOT_WAITING_FOR_REPLY
    else
      let k1 := set_task k target (fill_response t k.active_task msg msglen).1
      let min_len := (fill_response t k.active_task msg msglen).2
      match ready_task k1 target min_len with
      | none => none
      | some k2 => ready_task k2 k2.active_task min_len

/-! ## Vocabulary and sample states of the kernel -/

/-- The kernel makes `tid` the running task: the scheduler's choice followed by
`Kernel::activate`. -/
def run_as (k : Kernel) (tid : Nat) : Option Kernel :=
  match k.tasks tid with
  | none => none
  | some t => some { set_task k tid { t with state := TaskState.ACTIVE } with active_task := tid }

/-- Values for the exception codes, used by the concrete instances. -/
def sample_codes : KernelConsts :=
  { SEND_NO_SUCH_TASK := -1, REPLY_NO_SUCH_TASK := -1, NOT_WAITING_FOR_REPLY := -2 }

/-- A fresh descriptor of priority 1 in the given state. -/
def sample_task (id : Nat) (st : TaskState) : TaskDescriptor :=
  { task_id := id, parent_id := 0, priority := 1, state := st, interrupted := false, inbox := [],
    response := 0, slot := ⟨0, 0⟩, slot_from := none, copied := [], copied_to := 0,
    from_value := none }

/-- The bytes of `"hello"`. -/
def hello : List Nat := [104, 101, 108, 108, 111]

/-- Three tasks: task 0 is running, tasks 1 and 2 are ready; the ids above are
not allocated. -/
def sample_kernel : Kernel :=
  { tasks := fun i =>
      if i = 0 then some (sample_task 0 TaskState.ACTIVE)
      else if i ≤ 2 then some (sample_task i TaskState.READY)
      else none
    scheduler := { ready_queue := fun p => if p = 1 then [1, 2] else [] }
    active_task := 0, p_id_counter := 3, clock_notifier_tid := -1 }

/-- Task 1 waits in `Receive` with the 3-byte buffer at address 800 while task 0 runs. -/
def receiver_waiting : Kernel :=
  { sample_kernel with
    tasks := Function.update sample_kernel.tasks 1
      (some (to_receive_block (sample_task 1 TaskState.ACTIVE) 700 800 3))
    scheduler := { ready_queue := fun p => if p = 1 then [2] else [] } }

/-- Task 1 runs; task 0 has sent it `"hello"` and waits in `SEND_BLOCK`. -/
def message_queued : Kernel :=
  { sample_kernel with
    tasks := Function.update
      (Function.update sample_kernel.tasks 0
        (some (to_send_block (sample_task 0 TaskState.ACTIVE) 900 4)))
      1 (some (queue_message (sample_task 1 TaskState.ACTIVE) 0 hello 5))
    scheduler := { ready_queue := fun p => if p = 1 then [2] else [] }
    active_task := 1 }

end Abyss

/-!
# abyssOS: the kernel loop

The rest of `src/kernel/kernel.cc`: task creation, the system-call and
interrupt dispatch, and `schedule → activate → handle`.

* The state of the task allocator is not kept: the pool hands out one slot per
  successful call and never gets one back, so the number of slots in use is the
  id counter.
* A handler that prints a diagnostic and spins forever, and the scheduling loop
  when no task is ready, produce no next state (`none`).
-/

namespace Abyss

/-- Constants of the headers that are not among the sources (`Task::MAIDENLESS`,
`Task::CLOCK_QUEUE_EMPTY`, `Clock::TIMER_INTERRUPT_ID`) and the capacity of the
descriptor pool. -/
structure TaskConsts where
  MAIDENLESS : Int
  CLOCK_QUEUE_EMPTY : Int
  TIMER_INTERRUPT_ID : Int
  pool_size : Nat

/-- Source: `NUM_PRIORITIES` of `scheduler.h`. -/
def NUM_PRIORITIES : Nat := 4

/-- Source: `NO_TASKS` of `scheduler.h`. -/
def NO_TASKS : Int := -1

/-- Modelled from the spec: `Scheduler::get_next` returns the id at the head of
the highest-priority (numerically lowest) non-empty queue and removes it, or
the sentinel `NO_TASKS` if all queues are empty. -/
def get_next (sch : Scheduler) : Int × Scheduler :=
  match (List.range NUM_PRIORITIES).find? (fun p => !(sch.ready_queue p).isEmpty) with
  | none => (NO_TASKS, sch)
  | some p =>
    match sch.ready_queue p with
    | [] => (NO_TASKS, sch)
    | id :: rest => ((id : Int), { ready_queue := Function.update sch.ready_queue p rest })

/-- Modelled from the spec: `TaskDescriptor::kill` marks the slot as `ZOMBIE`;
the id stays retired and the kernel's table entry stays in place. -/
def kill (t : TaskDescriptor) : TaskDescriptor := { t with state := TaskState.ZOMBIE }

/-- Modelled from the spec: `TaskDescriptor::to_active` makes the task `ACTIVE`
(its result, the saved request of the task, is the `entry` given to `handle`). -/
def to_active (t : TaskDescriptor) : TaskDescriptor := { t with state := TaskState.ACTIVE }

/-- Modelled from the spec: `TaskDescriptor::set_interrupted`. -/
def set_interrupted (t : TaskDescriptor) (b : Bool) : TaskDescriptor := { t with interrupted := b }

/-- Modelled from the spec: `TaskDescriptor::to_event_block` makes the task `EVENT_BLOCK`. -/
def to_event_block (t : TaskDescriptor) : TaskDescriptor :=
  { t with state := TaskState.EVENT_BLOCK }

/-- Modelled from the spec: `task_allocator.get(id, parent_id, priority, pc)`
returns a fresh descriptor with the given id, parent id and priority, or null
when the fixed-capacity pool has no free slot. -/
def task_allocator_get (tc : TaskConsts) (id : Nat) (parent_id : Int) (priority : Nat) :
    Option TaskDescriptor :=
  if id < tc.pool_size then
    some { task_id := id, parent_id := parent_id, priority := priority, state := TaskState.READY,
           interrupted := false, inbox := [], response := 0, slot := ⟨0, 0⟩, slot_from := none,
           copied := [], copied_to := 0, from_value := none }
  else none

/-- Source: `Kernel::allocate_new_task` (the entry point `pc` is not kept). -/
def allocate_new_task (tc : TaskConsts) (k : Kernel) (parent_id : Int) (priority : Nat) : Kernel :=
  match task_allocator_get tc k.p_id_counter parent_id priority with
  | some task_ptr =>
    { k with
      tasks := Function.update k.tasks k.p_id_counter (some task_ptr)
      scheduler := add_task k.scheduler priority k.p_id_counter
      p_id_counter := k.p_id_counter + 1 }
  | none => k

/-- Modelled from the spec: the members of `Kernel` as its header initialises
them: no task, empty ready queues, id counter 0, empty clock-notifier slot. -/
def fresh_kernel (tc : TaskConsts) : Kernel :=
  { tasks := fun _ => none, scheduler := { ready_queue := fun _ => [] }, active_task := 0,
    p_id_counter := 0, clock_notifier_tid := tc.CLOCK_QUEUE_EMPTY }

/-- Source: the constructor `Kernel::Kernel`. -/
def boot (tc : TaskConsts) : Kernel := allocate_new_task tc (fresh_kernel tc) tc.MAIDENLESS 0

/-- Source: `Kernel::schedule_next_task` (idle-time accounting left out). With
no ready task the loop polls the unchanged scheduler forever. -/
def schedule_next_task (k : Kernel) : Option Kernel :=
  if (get_next k.scheduler).1 = NO_TASKS then none
  else some { k with active_task := (get_next k.scheduler).1.toNat,
                     scheduler := (get_next k.scheduler).2 }

/-- Source: `Kernel::activate`. -/
def activate (k : Kernel) : Option Kernel :=
  match k.tasks k.active_task with
  | none => none
  | some t => some (set_task k k.active_task (to_active t))

/-- A system call as the kernel finds it in the registers of the request:
the code in `x0` and the arguments in `x1 .. x5`. -/
inductive Request where
  | SEND (rid : Nat) (msg : List Nat) (msglen reply replylen : Nat)
  | RECEIVE (sender_ptr msg msglen : Nat)
  | REPLY (target : Nat) (msg : List Nat) (msglen : Nat)
  | CREATE (priority : Nat)
  | MY_TID
  | MY_PARENT_ID
  | YIELD
  | PRINT
  | EXIT
  | AWAIT_EVENT (eventId : Int)
  | UNKNOWN

/-- Source: `Kernel::handle_await_event`. -/
def handle_await_event (tc : TaskConsts) (k : Kernel) (eventId : Int) : Option Kernel :=
  if eventId = tc.TIMER_INTERRUPT_ID then
    let k1 := { k with clock_notifier_tid := (k.active_task : Int) }
    match k1.tasks k1.active_task with
    | none => none
    | some a => some (set_task k1 k1.active_task (to_event_block a))
  else some k

/-- Source: `Kernel::handle_syscall`. -/
def handle_syscall (c : KernelConsts) (tc : TaskConsts) (k : Kernel) : Request → Option Kernel
  | Request.SEND rid msg msglen reply replylen => handle_send c k rid msg msglen reply replylen
  | Request.RECEIVE sender_ptr msg msglen => handle_receive k sender_ptr msg msglen
  | Request.REPLY target msg msglen => handle_reply c k target msg msglen
  | Request.CREATE priority =>
    match ready_task k k.active_task k.p_id_counter with
    | none => none
    | some k1 =>
      match k1.tasks k1.active_task with
      | none => none
      | some a => some (allocate_new_task tc k1 a.task_id priority)
  | Request.MY_TID =>
    match k.tasks k.active_task with
    | none => none
    | some a => ready_task k k.active_task a.task_id
  | Request.MY_PARENT_ID =>
    match k.tasks k.active_task with
    | none => none
    | some a => ready_task k k.active_task a.parent_id
  | Request.YIELD => ready_task k k.active_task 0
  | Request.PRINT => ready_task k k.active_task 0
  | Request.EXIT =>
    match k.tasks k.active_task with
    | none => none
    | some a => some (set_task k k.active_task (kill a))
  | Request.AWAIT_EVENT eventId => handle_await_event tc k eventId
  | Request.UNKNOWN => none

/-- The interrupt id read from the controller: the timer, or anything else. -/
inductive InterruptCode where
  | TIMER
  | OTHER

/-- Source: `Kernel::handle_interrupt`. -/
def handle_interrupt (tc : TaskConsts) (k : Kernel) : InterruptCode → Option Kernel
  | InterruptCode.TIMER =>
    match ready_task k k.active_task 0 with
    | none => none
    | some k1 =>
      if k1.clock_notifier_tid ≠ tc.CLOCK_QUEUE_EMPTY then
        ready_task k1 k1.clock_notifier_tid.toNat 0
      else some k1
  | InterruptCode.OTHER => none

/-- The cause for which the running task re-enters the kernel. -/
inductive KernelEntry where
  | SYSCALL (request : Request)
  | INTERRUPT (icode : InterruptCode)
  | UNKNOWN

/-- Source: `Kernel::handle`. -/
def handle (c : KernelConsts) (tc : TaskConsts) (k : Kernel) : KernelEntry → Option Kernel
  | KernelEntry.SYSCALL request => handle_syscall c tc k request
  | KernelEntry.INTERRUPT icode =>
    match k.tasks k.active_task with
    | none => none
    | some a => handle_interrupt tc (set_task k k.active_task (set_interrupted a true)) icode
  | KernelEntry.UNKNOWN => none

/-- One turn of the kernel loop `schedule → activate → handle`; `entry` is the
cause for which the activated task comes back. -/
def kernel_turn (c : KernelConsts) (tc : TaskConsts) (k : Kernel) (entry : KernelEntry) :
    Option Kernel :=
  match schedule_next_task k with
  | none => none
  | some k1 =>
    match activate k1 with
    | none => none
    | some k2 => handle c tc k2 entry

/-- A kernel execution: the turns of the loop for a sequence of entries. -/
def run (c : KernelConsts) (tc : TaskConsts) : Kernel → List KernelEntry → Option Kernel
  | k, [] => some k
  | k, entry :: rest =>
    match kernel_turn c tc k entry with
    | none => none
    | some k1 => run c tc k1 rest

/-- Values for the task constants, used by the concrete instances: a pool of 16
descriptors. -/
def sample_tasks : TaskConsts :=
  { MAIDENLESS := -1, CLOCK_QUEUE_EMPTY := -1, TIMER_INTERRUPT_ID := 97, pool_size := 16 }

/-- The same constants with a pool of 3 descriptors, all in use in `sample_kernel`. -/
def full_pool : TaskConsts := { sample_tasks with pool_size := 3 }

/-- Task 1 runs after it has received a message of task 0, which waits in
`REPLY_BLOCK` with the 4-byte reply buffer at address 900. -/
def reply_pending : Kernel :=
  { sample_kernel with
    tasks := Function.update
      (Function.update sample_kernel.tasks 0
        (some (to_reply_block_with (sample_task 0 TaskState.ACTIVE) 900 4)))
      1 (some (sample_task 1 TaskState.ACTIVE))
    scheduler := { ready_queue := fun p => if p = 1 then [2] else [] }
    active_task := 1 }

/-- The constants with a pool of a single descriptor, taken by the first user task. -/
def single_slot_pool : TaskConsts := { sample_tasks with pool_size := 1 }

/-- The projection of a descriptor that never changes: id, parent id, priority. -/
def ids (t : TaskDescriptor) : Nat × Int × Nat := (t.task_id, t.parent_id, t.priority)

/-- The task table as far as ids are concerned. -/
def ids_of (tasks : Nat → Option TaskDescriptor) : Nat → Option (Nat × Int × Nat) :=
  fun i => (tasks i).map ids

/-- The allocated slots are exactly those below the id counter, and each
descriptor carries the id of its slot. -/
def table_ok (k : Kernel) : Prop :=
  ∀ i, (i < k.p_id_counter → ∃ x, ids_of k.tasks i = some x ∧ x.1 = i) ∧
    (k.p_id_counter ≤ i → ids_of k.tasks i = none)

/-- From `k` to `k1` the id counter does not decrease, the tasks allocated in
`k` keep their id, parent id and priority, and `table_ok` is kept. -/
def grows (k k1 : Kernel) : Prop :=
  k.p_id_counter ≤ k1.p_id_counter ∧
  (∀ i, i < k.p_id_counter → ids_of k1.tasks i = ids_of k.tasks i) ∧
  (table_ok k → table_ok k1)

end Abyss

/-!
# abyssOS: the clock interface

The user-side wrappers `Clock::Time`, `Clock::Delay` and `Clock::DelayUntil` of
`src/kernel/kernel.cc`. A call yields the value returned and the messages it
handed to `Send`; `reply_of` is the integer the clock server leaves in the reply
buffer of a message.
-/

namespace Abyss

/-- Constants of the clock interface, declared in a header that is not among
the sources. -/
structure ClockConsts where
  CLOCK_SERVER_ID : Int
  NEGATIVE_DELAY : Int
  INVALID_ID : Int

/-- Source: the values of `Clock::RequestHeader` used by the wrappers. -/
inductive ClockHeader where
  | TIME
  | DELAY
  | DELAY_UNTIL
deriving DecidableEq, Repr

/-- A `Clock::ClockServerReq` handed to `Send`: the target, the header, the ticks. -/
structure ClockSend where
  tid : Int
  header : ClockHeader
  ticks : Nat
deriving DecidableEq, Repr

/-- Source: `timer_server_interface_helper` (the build without `OUR_DEBUG`). -/
def timer_server_interface_helper (cc : ClockConsts) (reply_of : ClockSend → Int) (tid : Int)
    (header : ClockHeader) (ticks : Nat) : Int × List ClockSend :=
  if tid ≠ cc.CLOCK_SERVER_ID then (cc.INVALID_ID, [])
  else (reply_of ⟨tid, header, ticks⟩, [⟨tid, header, ticks⟩])

namespace Clock

/-- Source: `Clock::Time`. -/
def Time (cc : ClockConsts) (reply_of : ClockSend → Int) (tid : Int) : Int × List ClockSend :=
  timer_server_interface_helper cc reply_of tid ClockHeader.TIME 0

/-- Source: `Clock::Delay`; `(uint32_t)ticks` of a non-negative `int`. -/
def Delay (cc : ClockConsts) (reply_of : ClockSend → Int) (tid ticks : Int) :
    Int × List ClockSend :=
  if ticks < 0 then (cc.NEGATIVE_DELAY, [])
  else timer_server_interface_helper cc reply_of tid ClockHeader.DELAY (ticks.toNat % 2 ^ 32)

/-- Source: `Clock::DelayUntil`. -/
def DelayUntil (cc : ClockConsts) (reply_of : ClockSend → Int) (tid ticks : Int) :
    Int × List ClockSend :=
  if ticks < 0 then (cc.NEGATIVE_DELAY, [])
  else timer_server_interface_helper cc reply_of tid ClockHeader.DELAY_UNTIL (ticks.toNat % 2 ^ 32)

end Clock

/-- Values for the clock constants, used by the concrete instances. -/
def sample_clock : ClockConsts := { CLOCK_SERVER_ID := 2, NEGATIVE_DELAY := -1, INVALID_ID := -2 }

end Abyss
namespace Track

/-! ## Theorems -/

/-! ### Frame: what the checks of a request may touch -/

theorem only_wanted_differs_refl (slot : Int) (s : TrackServer) : only_wanted_differs slot s s :=
  ⟨rfl, rfl, rfl, rfl, rfl, fun _ _ => rfl⟩

theorem only_wanted_differs_trans {slot : Int} {s s1 s2 : TrackServer}
    (h1 : only_wanted_differs slot s s1) (h2 : only_wanted_differs slot s1 s2) :
    only_wanted_differs slot s s2 :=
  ⟨h2.1.trans h1.1, h2.2.1.trans h1.2.1, h2.2.2.1.trans h1.2.2.1,
    h2.2.2.2.1.trans h1.2.2.2.1, h2.2.2.2.2.1.trans h1.2.2.2.2.1,
    fun slot1 hne => (h2.2.2.2.2.2 slot1 hne).trans (h1.2.2.2.2.2 slot1 hne)⟩

theorem wanted_insert_differs (s : TrackServer) (slot : Int) (n : Nat) :
    only_wanted_differs slot s (wanted_insert s slot n) := by
  refine ⟨rfl, rfl, rfl, rfl, rfl, ?_⟩
  intro other ho
  simp [wanted_insert, Function.update_noteq ho]

theorem wanted_clear_differs (s : TrackServer) (slot : Int) :
    only_wanted_differs slot s (wanted_clear s slot) := by
  refine ⟨rfl, rfl, rfl, rfl, rfl, ?_⟩
  intro other ho
  simp [wanted_clear, Function.update_noteq ho]

theorem fail_with_probe_ok {cfg : TrackConsts} {s s1 : TrackServer} {res res1 : ReservationStatus}
    {culprit : track_node} {id : Int} {b : Bool}
    (h : fail_with_probe cfg s res culprit id = .ok (s1, res1, b)) :
    s1 = s ∧ b = true ∧ res1.successful = false ∧ res1.res_dist = res.res_dist := by
  unfold fail_with_probe at h
  split at h
  · cases h
  · simp only [Except.ok.injEq, Prod.mk.injEq] at h
    obtain ⟨rfl, rfl, rfl⟩ := h
    refine ⟨rfl, rfl, rfl, ?_⟩
    split <;> rfl

theorem wanted_insert_differs_of {slot : Int} {s s1 : TrackServer} (n : Nat)
    (h : only_wanted_differs slot s s1) : only_wanted_differs slot s (wanted_insert s1 slot n) :=
  only_wanted_differs_trans h (wanted_insert_differs s1 slot n)

theorem evaluate_differs {cfg : TrackConsts} {s s1 : TrackServer} {res res1 : ReservationStatus}
    {node : track_node} {id : Int} {b : Bool}
    (h : evaluate_robustness_failed cfg s res node id = .ok (s1, res1, b)) :
    only_wanted_differs (cfg.train_num_to_index id) s s1 ∧
      (b = true → res1.successful = false) ∧ (b = false → res1 = res) := by
  unfold evaluate_robustness_failed at h
  simp only at h
  repeat' split at h
  all_goals first
    | (obtain ⟨rfl, rfl, h3, _⟩ := fail_with_probe_ok h
       refine ⟨?_, fun _ => h3, fun hb => by cases hb⟩
       repeat first
         | exact only_wanted_differs_refl _ _
         | apply wanted_insert_differs_of)
    | (simp only [Except.ok.injEq, Prod.mk.injEq] at h
       obtain ⟨rfl, rfl, rfl⟩ := h
       exact ⟨wanted_insert_differs _ _ _, fun hb => (by cases hb), fun _ => rfl⟩)

theorem check_loop_differs {cfg : TrackConsts} {path : Nat → Nat} {id : Int} :
    ∀ (k i : Nat) (s : TrackServer) (res : ReservationStatus) (s1 : TrackServer)
      (res1 : ReservationStatus),
      check_loop cfg path id k i s res = .ok (s1, res1) →
      only_wanted_differs (cfg.train_num_to_index id) s s1 := by
  intro k
  induction k with
  | zero =>
    intro i s res s1 res1 h
    simp only [check_loop, Except.ok.injEq, Prod.mk.injEq] at h
    obtain ⟨rfl, rfl⟩ := h
    exact only_wanted_differs_refl _ _
  | succ k ih =>
    intro i s res s1 res1 h
    unfold check_loop at h
    split at h
    · cases h
    · rename_i sa resa failed he
      have hd := (evaluate_differs he).1
      split at h
      · simp only [Except.ok.injEq, Prod.mk.injEq] at h
        obtain ⟨rfl, rfl⟩ := h
        exact hd
      · exact only_wanted_differs_trans hd (ih _ _ _ _ _ h)

theorem lookahead_loop_differs {cfg : TrackConsts} {id : Int} :
    ∀ (fuel : Nat) (s : TrackServer) (res : ReservationStatus) (sd next : Nat) (s1 : TrackServer)
      (res1 : ReservationStatus),
      lookahead_loop cfg id fuel s res sd next = .ok (s1, res1) →
      only_wanted_differs (cfg.train_num_to_index id) s s1 := by
  intro fuel
  induction fuel with
  | zero =>
    intro s res sd next s1 res1 h
    unfold lookahead_loop at h
    split at h
    · cases h
    · simp only [Except.ok.injEq, Prod.mk.injEq] at h
      obtain ⟨rfl, rfl⟩ := h
      exact only_wanted_differs_refl _ _
  | succ fuel ih =>
    intro s res sd next s1 res1 h
    unfold lookahead_loop at h
    split at h
    · split at h
      · cases h
      · simp only [Except.ok.injEq, Prod.mk.injEq] at h
        obtain ⟨rfl, rfl⟩ := h
        exact only_wanted_differs_refl _ _
      · split at h
        · cases h
        · rename_i sa resa failed he
          have hd := (evaluate_differs he).1
          split at h
          · simp only [Except.ok.injEq, Prod.mk.injEq] at h
            obtain ⟨rfl, rfl⟩ := h
            exact hd
          · exact only_wanted_differs_trans hd (ih _ _ _ _ _ _ h)
    · simp only [Except.ok.injEq, Prod.mk.injEq] at h
      obtain ⟨rfl, rfl⟩ := h
      exact only_wanted_differs_refl _ _

theorem grant_loop_flags {cfg : TrackConsts} {path : Nat → Nat} {len : Nat} {id : Int} :
    ∀ (k i : Nat) (s : TrackServer) (res : ReservationStatus) (s1 : TrackServer)
      (res1 : ReservationStatus),
      grant_loop cfg path len id k i s res = .ok (s1, res1) →
      res1.successful = res.successful ∧ res1.dead_lock_detected = res.dead_lock_detected := by
  intro k
  induction k with
  | zero =>
    intro i s res s1 res1 h
    simp only [grant_loop, Except.ok.injEq, Prod.mk.injEq] at h
    obtain ⟨rfl, rfl⟩ := h
    exact ⟨rfl, rfl⟩
  | succ k ih =>
    intro i s res s1 res1 h
    unfold grant_loop at h
    simp only at h
    repeat' split at h
    all_goals first
      | cases h
      | (have hh := ih _ _ _ _ _ h
         exact hh)

/-- Up to the point where the grant is decided, a `TRACK_TRY_RESERVE` request
has touched nothing but the requester's wait-for set. -/
theorem try_reserve_failed_differs {cfg : TrackConsts} {fuel : Nat} {s s1 : TrackServer}
    {req : Reservation} {res : ReservationStatus}
    (h : TRACK_TRY_RESERVE cfg fuel s req = .ok (s1, res)) (hf : res.successful = false) :
    only_wanted_differs (cfg.train_num_to_index req.train_id) s s1 := by
  unfold TRACK_TRY_RESERVE at h
  simp only at h
  split at h
  · cases h
  · rename_i sa resa hc
    split at h
    · cases h
    · split at h
      · cases h
      · rename_i sb resb hl
        have h1 := wanted_clear_differs s (cfg.train_num_to_index req.train_id)
        have h2 := check_loop_differs _ _ _ _ _ _ hc
        have h3 := lookahead_loop_differs _ _ _ _ _ _ _ hl
        split at h
        · rename_i hs
          split at h
          · cases h
          · rename_i sc resc hg
            simp only [Except.ok.injEq, Prod.mk.injEq] at h
            obtain ⟨rfl, rfl⟩ := h
            have hk := (grant_loop_flags _ _ _ _ _ _ hg).1
            rw [hs] at hk
            rw [hk] at hf
            cases hf
        · simp only [Except.ok.injEq, Prod.mk.injEq] at h
          obtain ⟨rfl, rfl⟩ := h
          exact only_wanted_differs_trans h1 (only_wanted_differs_trans h2 h3)


/-! ### The writes of `reserve` and `cancel_reserve` -/

theorem reserve_eq_write_pair (cfg : TrackConsts) (t : Nat → track_node) (n : Nat) (id : Int) :
    reserve cfg t n id = write_pair t n id cfg.DIRECT_RESERVE cfg.REVERSE_RESERVE := rfl

theorem set_reservation_apply (t : Nat → track_node) (i : Nat) (o d : Int) (m : Nat) :
    set_reservation t i o d m =
      if m = i then { t i with reserved_by := o, reserve_dir := d } else t m := by
  unfold set_reservation
  by_cases h : m = i
  · subst h; simp
  · simp [h, Function.update_noteq h]

theorem write_pair_apply (t : Nat → track_node) (n : Nat) (o d1 d2 : Int) (m : Nat) :
    write_pair t n o d1 d2 m =
      if m = (t n).reverse then { t m with reserved_by := o, reserve_dir := d2 }
      else if m = n then { t n with reserved_by := o, reserve_dir := d1 }
      else t m := by
  unfold write_pair
  simp only [set_reservation_apply, if_true]
  by_cases h1 : m = (t n).reverse
  · subst h1
    simp only [if_true]
    by_cases h2 : (t n).reverse = n
    · simp [h2]
    · simp [h2]
  · simp only [h1, if_false]

theorem write_pair_layout (t : Nat → track_node) (n : Nat) (o d1 d2 : Int) (m : Nat) :
    (write_pair t n o d1 d2 m).reverse = (t m).reverse ∧
    (write_pair t n o d1 d2 m).index = (t m).index ∧
    (write_pair t n o d1 d2 m).type = (t m).type ∧
    (write_pair t n o d1 d2 m).num = (t m).num ∧
    (write_pair t n o d1 d2 m).edge = (t m).edge := by
  rw [write_pair_apply]
  split
  · exact ⟨rfl, rfl, rfl, rfl, rfl⟩
  · split
    · rename_i h; subst h; exact ⟨rfl, rfl, rfl, rfl, rfl⟩
    · exact ⟨rfl, rfl, rfl, rfl, rfl⟩

theorem write_pair_other (t : Nat → track_node) (n : Nat) (o d1 d2 : Int) (m : Nat)
    (h1 : m ≠ n) (h2 : m ≠ (t n).reverse) : write_pair t n o d1 d2 m = t m := by
  rw [write_pair_apply]; simp [h1, h2]

theorem write_pair_owner_self (t : Nat → track_node) (n : Nat) (o d1 d2 : Int) :
    (write_pair t n o d1 d2 n).reserved_by = o := by
  rw [write_pair_apply]; split <;> simp

theorem write_pair_owner_rev (t : Nat → track_node) (n : Nat) (o d1 d2 : Int) :
    (write_pair t n o d1 d2 (t n).reverse).reserved_by = o := by
  rw [write_pair_apply]; simp

theorem write_pair_owner_keep (t : Nat → track_node) (n : Nat) (o d1 d2 : Int) (m : Nat)
    (h : (t m).reserved_by = o) : (write_pair t n o d1 d2 m).reserved_by = o := by
  rw [write_pair_apply]
  split
  · rfl
  · split
    · rfl
    · exact h

theorem write_pairs_layout (path : Nat → Nat) (o d1 d2 : Int) :
    ∀ (k i : Nat) (t : Nat → track_node) (m : Nat),
      (write_pairs path o d1 d2 k i t m).reverse = (t m).reverse ∧
      (write_pairs path o d1 d2 k i t m).index = (t m).index ∧
      (write_pairs path o d1 d2 k i t m).type = (t m).type ∧
      (write_pairs path o d1 d2 k i t m).num = (t m).num ∧
      (write_pairs path o d1 d2 k i t m).edge = (t m).edge := by
  intro k
  induction k with
  | zero => intro i t m; exact ⟨rfl, rfl, rfl, rfl, rfl⟩
  | succ k ih =>
    intro i t m
    obtain ⟨a1, a2, a3, a4, a5⟩ := ih (i + 1) (write_pair t (path i) o d1 d2) m
    obtain ⟨b1, b2, b3, b4, b5⟩ := write_pair_layout t (path i) o d1 d2 m
    exact ⟨a1.trans b1, a2.trans b2, a3.trans b3, a4.trans b4, a5.trans b5⟩

theorem write_pairs_other (path : Nat → Nat) (o d1 d2 : Int) :
    ∀ (k i : Nat) (t : Nat → track_node) (m : Nat),
      (∀ j, j < k → m ≠ path (i + j) ∧ m ≠ (t (path (i + j))).reverse) →
      write_pairs path o d1 d2 k i t m = t m := by
  intro k
  induction k with
  | zero => intro i t m _; rfl
  | succ k ih =>
    intro i t m h
    have h0 := h 0 (Nat.succ_pos k)
    simp only [Nat.add_zero] at h0
    show write_pairs path o d1 d2 k (i + 1) (write_pair t (path i) o d1 d2) m = t m
    rw [ih (i + 1) _ m, write_pair_other t (path i) o d1 d2 m h0.1 h0.2]
    intro j hj
    have hj1 := h (j + 1) (Nat.succ_lt_succ hj)
    rw [(write_pair_layout t (path i) o d1 d2 _).1]
    have e : i + (j + 1) = i + 1 + j := by omega
    rw [e] at hj1
    exact hj1

theorem write_pairs_owner_keep (path : Nat → Nat) (o d1 d2 : Int) :
    ∀ (k i : Nat) (t : Nat → track_node) (m : Nat),
      (t m).reserved_by = o → (write_pairs path o d1 d2 k i t m).reserved_by = o := by
  intro k
  induction k with
  | zero => intro i t m h; exact h
  | succ k ih =>
    intro i t m h
    exact ih (i + 1) _ m (write_pair_owner_keep t (path i) o d1 d2 m h)

theorem write_pairs_owner (path : Nat → Nat) (o d1 d2 : Int) :
    ∀ (k i : Nat) (t : Nat → track_node) (j : Nat), j < k →
      (write_pairs path o d1 d2 k i t (path (i + j))).reserved_by = o ∧
      (write_pairs path o d1 d2 k i t (t (path (i + j))).reverse).reserved_by = o := by
  intro k
  induction k with
  | zero => intro i t j hj; omega
  | succ k ih =>
    intro i t j hj
    cases j with
    | zero =>
      simp only [Nat.add_zero]
      exact ⟨write_pairs_owner_keep path o d1 d2 k (i + 1) _ _ (write_pair_owner_self _ _ _ _ _),
        write_pairs_owner_keep path o d1 d2 k (i + 1) _ _ (write_pair_owner_rev _ _ _ _ _)⟩
    | succ j =>
      have h := ih (i + 1) (write_pair t (path i) o d1 d2) j (Nat.lt_of_succ_lt_succ hj)
      rw [(write_pair_layout t (path i) o d1 d2 _).1] at h
      have e : i + (j + 1) = i + 1 + j := by omega
      rw [e]
      exact h

theorem can_reserve_iff (cfg : TrackConsts) (track : Nat → track_node) (id : Int) (n : Nat) :
    can_reserve cfg (track n) id = true ↔ reservable cfg track id n := by
  unfold can_reserve reservable
  split <;> simp_all

theorem branch_safety_eq_neg_one (cfg : TrackConsts) (track : Nat → track_node) (id : Int)
    (b : Nat) : branch_safety cfg track (track b) id = -1 ↔ branch_clear cfg track id b := by
  unfold branch_safety branch_clear
  rw [← can_reserve_iff, ← can_reserve_iff]
  split
  · rename_i h
    constructor
    · intro h1; omega
    · intro h1; exact absurd h1.2 h
  · split
    · rename_i h
      constructor
      · intro h1; omega
      · intro h1; exact absurd h1.1 h
    · rename_i h1 h2
      simp only [not_not] at h1 h2
      exact ⟨fun _ => ⟨h2, h1⟩, fun _ => rfl⟩

theorem branch_safety_culprit (cfg : TrackConsts) (track : Nat → track_node) (id : Int)
    (node : track_node) (hidx : ∀ n, (track n).index = n)
    (h : branch_safety cfg track node id ≠ -1) :
    ¬ reservable cfg track id (branch_safety cfg track node id).toNat := by
  unfold branch_safety at h ⊢
  split
  · rename_i h1
    rw [hidx, Int.toNat_ofNat, ← can_reserve_iff]; exact h1
  · split
    · rename_i h1 h2
      rw [hidx, Int.toNat_ofNat, ← can_reserve_iff]; exact h2
    · rename_i h1 h2
      simp [h1, h2] at h

theorem central_branch_safety_eq_neg_one (cfg : TrackConsts) (track : Nat → track_node)
    (id : Int) :
    central_branch_safety cfg track id = -1 ↔
      branch_clear cfg track id 116 ∧ branch_clear cfg track id 118 ∧
      branch_clear cfg track id 120 ∧ branch_clear cfg track id 122 := by
  simp only [← branch_safety_eq_neg_one]
  unfold central_branch_safety
  repeat' split
  all_goals simp_all

theorem central_branch_safety_culprit (cfg : TrackConsts) (track : Nat → track_node) (id : Int)
    (hidx : ∀ n, (track n).index = n) (h : central_branch_safety cfg track id ≠ -1) :
    ¬ reservable cfg track id (central_branch_safety cfg track id).toNat := by
  unfold central_branch_safety at h ⊢
  repeat' split
  all_goals first
    | (apply branch_safety_culprit cfg track id _ hidx; assumption)
    | simp_all

theorem culprit_eq_none (cfg : TrackConsts) (track : Nat → track_node) (id : Int) (n : Nat) :
    culprit cfg track id n = none ↔ passes_checks cfg track id n := by
  unfold culprit passes_checks side_index
  rw [← can_reserve_iff, ← central_branch_safety_eq_neg_one, ← branch_safety_eq_neg_one,
    ← branch_safety_eq_neg_one]
  have hnum : ((track n).num = 154 ∨ (track n).num = 153 ∨ (track n).num = 155 ∨
      (track n).num = 156) ↔ (153 ≤ (track n).num ∧ (track n).num ≤ 156) := by omega
  by_cases h1 : can_reserve cfg (track n) id = true
  · by_cases h2 : (track n).type = node_type.NODE_BRANCH
    · by_cases h3 : branch_safety cfg track (track n) id = -1
      · by_cases h4 : central_branch_safety cfg track id = -1
        · simp [h1, h2, h3, h4, hnum]
        · simp [h1, h2, h3, h4, hnum]
      · simp [h1, h2, h3, hnum]
    · by_cases h2m : (track n).type = node_type.NODE_MERGE
      · by_cases h3 : branch_safety cfg track (track (track n).reverse) id = -1
        · by_cases h4 : central_branch_safety cfg track id = -1
          · simp [h1, h2, h2m, h3, h4, hnum]
          · simp [h1, h2, h2m, h3, h4, hnum]
        · simp [h1, h2, h2m, h3, hnum]
      · by_cases h4 : central_branch_safety cfg track id = -1
        · simp [h1, h2, h2m, h4, hnum]
        · simp [h1, h2, h2m, h4, hnum]
  · simp [h1, hnum]

theorem culprit_not_reservable (cfg : TrackConsts) (track : Nat → track_node) (id : Int)
    (n x : Nat) (hidx : ∀ n, (track n).index = n) (h : culprit cfg track id n = some x) :
    ¬ reservable cfg track id x := by
  unfold culprit at h
  split at h
  · rename_i h1
    cases h
    rw [← can_reserve_iff]; exact h1
  · split at h
    · rename_i h2
      cases h
      unfold side_index at h2 ⊢
      split
      · rename_i h3; rw [if_pos h3] at h2
        exact branch_safety_culprit cfg track id _ hidx h2
      · rename_i h3; rw [if_neg h3] at h2
        split
        · rename_i h4; rw [if_pos h4] at h2
          exact branch_safety_culprit cfg track id _ hidx h2
        · rename_i h4; rw [if_neg h4] at h2
          exact absurd rfl h2
    · split at h
      · rename_i h3
        cases h
        exact central_branch_safety_culprit cfg track id hidx h3.2
      · cases h

theorem wanted_insert_track (s : TrackServer) (slot : Int) (n : Nat) :
    (wanted_insert s slot n).track = s.track := rfl

theorem fail_with_probe_spec {cfg : TrackConsts} {s s1 : TrackServer}
    {res res1 : ReservationStatus} {culprit : track_node} {id : Int} {b : Bool}
    (h : fail_with_probe cfg s res culprit id = .ok (s1, res1, b)) :
    s1 = s ∧ b = true ∧ res1.successful = false ∧ res1.res_dist = res.res_dist ∧
    culprit.reserved_by ≠ cfg.RESERVED_BY_NO_ONE ∧
    res1.dead_lock_detected =
      (res.dead_lock_detected ||
        (decide (culprit.reserved_by ≠ -1) && probe_hit cfg s culprit.reserved_by id)) := by
  unfold fail_with_probe detect_deadlock at h
  unfold probe_hit
  by_cases hn : culprit.reserved_by = cfg.RESERVED_BY_NO_ONE
  · simp [hn] at h
  · simp only [hn, if_false] at h
    by_cases hp : (s.train_wanted_nodes (cfg.train_num_to_index culprit.reserved_by)).any
        (holds_wanted s.track id) = true
    · simp only [hp, if_true] at h
      simp only [Except.ok.injEq, Prod.mk.injEq] at h
      obtain ⟨rfl, rfl, rfl⟩ := h
      refine ⟨rfl, rfl, rfl, ?_, hn, ?_⟩
      · split <;> rfl
      · by_cases hm : culprit.reserved_by = -1
        · simp [hm]
        · simp [hm, hp]
    · rw [if_neg hp] at h
      simp only [Except.ok.injEq, Prod.mk.injEq] at h
      obtain ⟨rfl, rfl, rfl⟩ := h
      refine ⟨rfl, rfl, rfl, rfl, hn, ?_⟩
      simp [hp]

/-- What one run of `evaluate_robustness_failed` on `track[n]` returns. -/
theorem evaluate_spec {cfg : TrackConsts} {s s1 : TrackServer} {res res1 : ReservationStatus}
    {n : Nat} {id : Int} {b : Bool}
    (h : evaluate_robustness_failed cfg s res (s.track n) id = .ok (s1, res1, b)) :
    (culprit cfg s.track id n = none ∧ b = false ∧ res1 = res) ∨
    (∃ x, culprit cfg s.track id n = some x ∧ b = true ∧ res1.successful = false ∧
      res1.res_dist = res.res_dist ∧
      (s.track x).reserved_by ≠ cfg.RESERVED_BY_NO_ONE ∧
      res1.dead_lock_detected =
        (res.dead_lock_detected ||
          (decide ((s.track x).reserved_by ≠ -1) &&
            probe_hit cfg s1 (s.track x).reserved_by id))) := by
  unfold evaluate_robustness_failed at h
  simp only [wanted_insert_track] at h
  unfold culprit
  by_cases h1 : can_reserve cfg (s.track n) id = true
  · simp only [h1, not_true_eq_false, if_false] at h ⊢
    change (if side_index cfg s.track id n ≠ -1 then _ else _) = _ at h
    by_cases h2 : side_index cfg s.track id n = -1
    · simp only [h2, ne_eq, not_true_eq_false, if_false] at h ⊢
      by_cases h3 : (s.track n).num = 154 ∨ (s.track n).num = 153 ∨ (s.track n).num = 155 ∨
          (s.track n).num = 156
      · simp only [h3, if_true, true_and] at h ⊢
        by_cases h4 : central_branch_safety cfg s.track id = -1
        · simp only [h4, ne_eq, not_true_eq_false, if_false] at h ⊢
          simp only [Except.ok.injEq, Prod.mk.injEq] at h
          obtain ⟨rfl, rfl, rfl⟩ := h
          first | exact Or.inl ⟨rfl, rfl, rfl⟩ | exact Or.inl ⟨trivial, rfl, rfl⟩
        · simp only [ne_eq, h4, not_false_eq_true, if_true] at h ⊢
          obtain ⟨rfl, rfl, h5, h6, h7, h8⟩ := fail_with_probe_spec h
          exact Or.inr ⟨_, rfl, rfl, h5, h6, h7, h8⟩
      · simp only [h3, if_false, false_and] at h ⊢
        simp only [Except.ok.injEq, Prod.mk.injEq] at h
        obtain ⟨rfl, rfl, rfl⟩ := h
        first | exact Or.inl ⟨rfl, rfl, rfl⟩ | exact Or.inl ⟨trivial, rfl, rfl⟩
    · simp only [ne_eq, h2, not_false_eq_true, if_true] at h ⊢
      obtain ⟨rfl, rfl, h5, h6, h7, h8⟩ := fail_with_probe_spec h
      exact Or.inr ⟨_, rfl, rfl, h5, h6, h7, h8⟩
  · simp only [h1, not_false_eq_true, if_true] at h ⊢
    obtain ⟨rfl, rfl, h5, h6, h7, h8⟩ := fail_with_probe_spec h
    exact Or.inr ⟨_, rfl, rfl, h5, h6, h7, h8⟩

/-! ### The loops of `TRACK_TRY_RESERVE` -/

theorem path_nodes_succ (path : Nat → Nat) (k i : Nat) :
    path_nodes path (k + 1) i = path i :: path_nodes path k (i + 1) := by
  simp [path_nodes, List.range'_succ]

theorem mem_path_nodes (path : Nat → Nat) (k i n : Nat) :
    n ∈ path_nodes path k i ↔ ∃ j, j < k ∧ n = path (i + j) := by
  simp only [path_nodes, List.mem_map, List.mem_range'_1]
  constructor
  · rintro ⟨a, ⟨h1, h2⟩, rfl⟩
    exact ⟨a - i, by omega, by congr 1; omega⟩
  · rintro ⟨j, hj, rfl⟩
    exact ⟨i + j, ⟨by omega, by omega⟩, rfl⟩

theorem check_loop_spec {cfg : TrackConsts} {path : Nat → Nat} {id : Int} :
    ∀ (k i : Nat) (s : TrackServer) (res : ReservationStatus) (s1 : TrackServer)
      (res1 : ReservationStatus),
      check_loop cfg path id k i s res = .ok (s1, res1) →
      (first_culprit cfg s.track id (path_nodes path k i) = none ∧ res1 = res) ∨
      (∃ x, first_culprit cfg s.track id (path_nodes path k i) = some x ∧
        failed_on cfg s.track s1 id res res1 x) := by
  intro k
  induction k with
  | zero =>
    intro i s res s1 res1 h
    simp only [check_loop, Except.ok.injEq, Prod.mk.injEq] at h
    obtain ⟨rfl, rfl⟩ := h
    exact Or.inl ⟨rfl, rfl⟩
  | succ k ih =>
    intro i s res s1 res1 h
    unfold check_loop at h
    rw [path_nodes_succ]
    unfold first_culprit
    rw [List.findSome?_cons]
    split at h
    · cases h
    · rename_i sa resa failed he
      have hd := (evaluate_differs he).1
      rcases evaluate_spec he with ⟨hc, rfl, rfl⟩ | ⟨x, hc, rfl, h1, h2, h3, h4⟩
      · simp only [Bool.false_eq_true, if_false] at h
        rw [hc]
        have := ih _ _ _ _ _ h
        rw [hd.1] at this
        exact this
      · simp only [if_true, Except.ok.injEq, Prod.mk.injEq] at h
        obtain ⟨rfl, rfl⟩ := h
        rw [hc]
        exact Or.inr ⟨x, rfl, h1, h2, h3, h4⟩

theorem lookahead_advance_congr {cfg : TrackConsts} {s s1 : TrackServer}
    (ht : s1.track = s.track) (hs : s1.switch_state = s.switch_state) (sd next : Nat) :
    lookahead_advance cfg s1 sd next = lookahead_advance cfg s sd next := by
  unfold lookahead_advance
  rw [ht, hs]

/-- The walk of the specification takes the steps of the look-ahead loop: one
step of `lookahead_walk` is the step `lookahead_advance` of the handler. -/
theorem lookahead_walk_step (cfg : TrackConsts) (s : TrackServer) (fuel sd next : Nat) :
    lookahead_walk cfg s (fuel + 1) sd next =
      if sd < cfg.SAFETY_DISTANCE then
        match lookahead_advance cfg s sd next with
        | .ok (some (sd1, next1)) => next1 :: lookahead_walk cfg s fuel sd1 next1
        | _ => []
      else [] := by
  rw [lookahead_walk]
  by_cases hsd : sd < cfg.SAFETY_DISTANCE
  · rw [if_neg (Nat.not_le.2 hsd), if_pos hsd]
    unfold walk_edge lookahead_advance
    simp only
    have hcs : ¬ ('c' : Char) = 's' := by decide
    have hsc : ¬ ('s' : Char) = 'c' := by decide
    by_cases hc : s.switch_state (get_switch_id_to_index (s.track next).num) = 'c'
    · have hs : ¬ s.switch_state (get_switch_id_to_index (s.track next).num) = 's' := by
        rw [hc]; decide
      cases hty : (s.track next).type <;>
        simp only [hc, hs, hcs, hsc, reduceCtorEq, or_false, false_or, or_self, if_true, if_false]
    · by_cases hs : s.switch_state (get_switch_id_to_index (s.track next).num) = 's'
      · cases hty : (s.track next).type <;>
          simp only [hc, hs, hcs, hsc, reduceCtorEq, or_false, false_or, or_self, if_true, if_false]
      · cases hty : (s.track next).type <;>
          simp only [hc, hs, hcs, hsc, reduceCtorEq, or_false, false_or, or_self, if_true, if_false]
  · rw [if_pos (Nat.not_lt.1 hsd), if_neg hsd]

theorem lookahead_walk_congr {cfg : TrackConsts} {s s1 : TrackServer}
    (ht : s1.track = s.track) (hs : s1.switch_state = s.switch_state) :
    ∀ (fuel sd next : Nat),
      lookahead_walk cfg s1 fuel sd next = lookahead_walk cfg s fuel sd next := by
  intro fuel
  induction fuel with
  | zero => intro sd next; rfl
  | succ fuel ih =>
    intro sd next
    rw [lookahead_walk_step, lookahead_walk_step]
    rw [lookahead_advance_congr ht hs]
    split
    · split
      · rw [ih]
      · rfl
    · rfl

theorem lookahead_loop_spec {cfg : TrackConsts} {id : Int} :
    ∀ (fuel : Nat) (s : TrackServer) (res : ReservationStatus) (sd next : Nat)
      (s1 : TrackServer) (res1 : ReservationStatus),
      lookahead_loop cfg id fuel s res sd next = .ok (s1, res1) → res.successful = true →
      (first_culprit cfg s.track id (lookahead_walk cfg s fuel sd next) = none ∧ res1 = res) ∨
      (∃ x, first_culprit cfg s.track id (lookahead_walk cfg s fuel sd next) = some x ∧
        failed_on cfg s.track s1 id res res1 x) := by
  intro fuel
  induction fuel with
  | zero =>
    intro s res sd next s1 res1 h _
    unfold lookahead_loop at h
    split at h
    · cases h
    · simp only [Except.ok.injEq, Prod.mk.injEq] at h
      obtain ⟨rfl, rfl⟩ := h
      exact Or.inl ⟨rfl, rfl⟩
  | succ fuel ih =>
    intro s res sd next s1 res1 h hres
    unfold lookahead_loop at h
    rw [lookahead_walk_step]
    by_cases hsd : sd < cfg.SAFETY_DISTANCE
    · simp only [hres, hsd, and_self, if_true] at h ⊢
      split at h
      · cases h
      · rename_i hadv
        rw [hadv]
        simp only [Except.ok.injEq, Prod.mk.injEq] at h
        obtain ⟨rfl, rfl⟩ := h
        exact Or.inl ⟨rfl, rfl⟩
      · rename_i sd1 next1 hadv
        rw [hadv]
        simp only
        unfold first_culprit
        rw [List.findSome?_cons]
        split at h
        · cases h
        · rename_i sa resa failed he
          have hd := (evaluate_differs he).1
          rcases evaluate_spec he with ⟨hc, rfl, rfl⟩ | ⟨x, hc, rfl, h1, h2, h3, h4⟩
          · simp only [Bool.false_eq_true, if_false] at h
            rw [hc]
            have := ih _ _ _ _ _ _ h hres
            rw [hd.1, lookahead_walk_congr hd.1 hd.2.1] at this
            exact this
          · simp only [if_true, Except.ok.injEq, Prod.mk.injEq] at h
            obtain ⟨rfl, rfl⟩ := h
            rw [hc]
            exact Or.inr ⟨x, rfl, h1, h2, h3, h4⟩
    · simp only [hsd, and_false, if_false] at h ⊢
      simp only [Except.ok.injEq, Prod.mk.injEq] at h
      obtain ⟨rfl, rfl⟩ := h
      exact Or.inl ⟨rfl, rfl⟩

theorem pipe_sw_track {s s1 : TrackServer} {id : Nat} {dir : Char} {b : Bool}
    (h : pipe_sw s id dir = .ok (s1, b)) :
    s1.track = s.track ∧ s1.train_wanted_nodes = s.train_wanted_nodes ∧
      s1.switch_subscriber = s.switch_subscriber := by
  unfold pipe_sw at h
  simp only at h
  repeat' split at h
  all_goals cases h <;> exact ⟨rfl, rfl, rfl⟩

theorem grant_loop_track {cfg : TrackConsts} {path : Nat → Nat} {len : Nat} {id : Int} :
    ∀ (k i : Nat) (s : TrackServer) (res : ReservationStatus) (s1 : TrackServer)
      (res1 : ReservationStatus),
      grant_loop cfg path len id k i s res = .ok (s1, res1) →
      s1.track = write_pairs path id cfg.DIRECT_RESERVE cfg.REVERSE_RESERVE k i s.track ∧
      s1.train_wanted_nodes = s.train_wanted_nodes := by
  intro k
  induction k with
  | zero =>
    intro i s res s1 res1 h
    simp only [grant_loop, Except.ok.injEq, Prod.mk.injEq] at h
    obtain ⟨rfl, rfl⟩ := h
    exact ⟨rfl, rfl⟩
  | succ k ih =>
    intro i s res s1 res1 h
    unfold grant_loop at h
    simp only at h
    unfold write_pairs
    rw [← reserve_eq_write_pair]
    repeat' split at h
    all_goals first
      | cases h
      | (have hh := ih _ _ _ _ _ h
         rename_i hp
         have hq := pipe_sw_track hp
         rw [hq.1, hq.2.1] at hh
         exact hh)
      | (have hh := ih _ _ _ _ _ h
         exact hh)

theorem lookahead_loop_of_failed (cfg : TrackConsts) (id : Int) (fuel : Nat) (s : TrackServer)
    (res : ReservationStatus) (sd next : Nat) (h : res.successful = false) :
    lookahead_loop cfg id fuel s res sd next = .ok (s, res) := by
  cases fuel <;> simp [lookahead_loop, h]

/-- The two ways in which `TRACK_TRY_RESERVE` replies: every examined node
passes and the path is granted, or the first culprit is probed and nothing but
the requester's wait-for set changes. -/
theorem try_reserve_spec {cfg : TrackConsts} {fuel : Nat} {s s1 : TrackServer}
    {req : Reservation} {res : ReservationStatus}
    (h : TRACK_TRY_RESERVE cfg fuel s req = .ok (s1, res)) :
    (first_culprit cfg s.track req.train_id (examined cfg fuel s req) = none ∧
      res.successful = true ∧ res.dead_lock_detected = false ∧
      s1.track = write_pairs req.path req.train_id cfg.DIRECT_RESERVE cfg.REVERSE_RESERVE
        req.len 0 s.track) ∨
    (∃ x, first_culprit cfg s.track req.train_id (examined cfg fuel s req) = some x ∧
      failed_on cfg s.track s1 req.train_id
        { successful := true, dead_lock_detected := false, res_dist := 0 } res x ∧
      only_wanted_differs (cfg.train_num_to_index req.train_id) s s1) := by
  unfold TRACK_TRY_RESERVE at h
  simp only at h
  unfold examined first_culprit
  rw [List.findSome?_append]
  split at h
  · cases h
  · rename_i sa resa hc
    have hd0 := wanted_clear_differs s (cfg.train_num_to_index req.train_id)
    have hda := only_wanted_differs_trans hd0 (check_loop_differs _ _ _ _ _ _ hc)
    split at h
    · cases h
    · rcases check_loop_spec _ _ _ _ _ _ hc with ⟨hnone, rfl⟩ | ⟨x, hx, hfail⟩
      · unfold first_culprit at hnone
        rw [show (wanted_clear s (cfg.train_num_to_index req.train_id)).track = s.track from rfl]
          at hnone
        rw [hnone, Option.none_or]
        split at h
        · cases h
        · rename_i sb resb hl
          have hdb := only_wanted_differs_trans hda (lookahead_loop_differs _ _ _ _ _ _ _ hl)
          rcases lookahead_loop_spec _ _ _ _ _ _ _ hl rfl with ⟨hnone2, rfl⟩ | ⟨y, hy, hfail2⟩
          · unfold first_culprit at hnone2
            rw [hda.1, lookahead_walk_congr hda.1 hda.2.1] at hnone2
            simp only [if_true] at h
            split at h
            · cases h
            · rename_i sc resc hg
              simp only [Except.ok.injEq, Prod.mk.injEq] at h
              obtain ⟨rfl, rfl⟩ := h
              have hf := grant_loop_flags _ _ _ _ _ _ hg
              have ht := (grant_loop_track _ _ _ _ _ _ hg).1
              refine Or.inl ⟨hnone2, hf.1, hf.2, ?_⟩
              show sc.track = _
              rw [ht]
              show write_pairs _ _ _ _ _ _ sb.track = _
              rw [hdb.1]
          · unfold first_culprit at hy
            rw [hda.1, lookahead_walk_congr hda.1 hda.2.1] at hy
            rw [hda.1] at hfail2
            have hs : resb.successful = false := hfail2.1
            simp only [hs, Bool.false_eq_true, if_false, Except.ok.injEq, Prod.mk.injEq] at h
            obtain ⟨rfl, rfl⟩ := h
            exact Or.inr ⟨y, hy, hfail2, hdb⟩
      · unfold first_culprit at hx
        rw [show (wanted_clear s (cfg.train_num_to_index req.train_id)).track = s.track from rfl]
          at hx hfail
        rw [hx, Option.or_some]
        have hs : resa.successful = false := hfail.1
        rw [lookahead_loop_of_failed _ _ _ _ _ _ _ hs] at h
        simp only [hs, Bool.false_eq_true, if_false, Except.ok.injEq, Prod.mk.injEq] at h
        obtain ⟨rfl, rfl⟩ := h
        exact Or.inr ⟨x, rfl, hfail, hda⟩

/-! ### The mirror invariant under pair writes -/

theorem mirror_paired_symm {cfg : TrackConsts} {a b : Int} (h : mirror_paired cfg a b) :
    mirror_paired cfg b a := by
  rcases h with ⟨h1, h2⟩ | ⟨h1, h2⟩ | ⟨h1, h2⟩
  · exact Or.inr (Or.inl ⟨h2, h1⟩)
  · exact Or.inl ⟨h2, h1⟩
  · exact Or.inr (Or.inr ⟨h2, h1⟩)

theorem write_pair_mirror (cfg : TrackConsts) (t : Nat → track_node) (n : Nat) (o d1 d2 : Int)
    (hinv : mirror_invariant cfg t) (hrev : reverse_involution t)
    (hp : mirror_paired cfg d1 d2) (hfix : (t n).reverse = n → mirror_paired cfg d2 d2) :
    mirror_invariant cfg (write_pair t n o d1 d2) := by
  intro m
  rw [(write_pair_layout t n o d1 d2 m).1]
  by_cases h1 : m = (t n).reverse
  · have hm : (t m).reverse = n := by rw [h1]; exact hrev n
    rw [hm]
    by_cases h2 : n = (t n).reverse
    · have e : m = n := by rw [h1]; exact h2.symm
      subst e
      rw [write_pair_apply, if_pos h2]
      exact ⟨rfl, hfix h2.symm⟩
    · rw [write_pair_apply, if_pos h1, write_pair_apply, if_neg h2, if_pos rfl]
      exact ⟨rfl, mirror_paired_symm hp⟩
  · by_cases h2 : m = n
    · subst h2
      rw [write_pair_apply, if_neg h1, if_pos rfl, write_pair_apply, if_pos rfl]
      exact ⟨rfl, hp⟩
    · have h3 : (t m).reverse ≠ (t n).reverse := by
        intro e
        have := congrArg (fun x => (t x).reverse) e
        beta_reduce at this
        rw [hrev m, hrev n] at this
        exact h2 this
      have h4 : (t m).reverse ≠ n := by
        intro e
        have := congrArg (fun x => (t x).reverse) e
        beta_reduce at this
        rw [hrev m] at this
        exact h1 this
      rw [write_pair_other t n o d1 d2 m h2 h1, write_pair_other t n o d1 d2 _ h4 h3]
      exact hinv m

theorem write_pair_involution (t : Nat → track_node) (n : Nat) (o d1 d2 : Int)
    (hrev : reverse_involution t) : reverse_involution (write_pair t n o d1 d2) := by
  intro m
  rw [(write_pair_layout t n o d1 d2 _).1, (write_pair_layout t n o d1 d2 _).1]
  exact hrev m

theorem write_pairs_mirror (cfg : TrackConsts) (path : Nat → Nat) (o d1 d2 : Int)
    (hp : mirror_paired cfg d1 d2) :
    ∀ (k i : Nat) (t : Nat → track_node),
      mirror_invariant cfg t → reverse_involution t →
      (∀ j, j < k → (t (path (i + j))).reverse = path (i + j) → mirror_paired cfg d2 d2) →
      mirror_invariant cfg (write_pairs path o d1 d2 k i t) := by
  intro k
  induction k with
  | zero => intro i t hinv _ _; exact hinv
  | succ k ih =>
    intro i t hinv hrev hfix
    refine ih (i + 1) _ (write_pair_mirror cfg t (path i) o d1 d2 hinv hrev hp ?_)
      (write_pair_involution t (path i) o d1 d2 hrev) ?_
    · have := hfix 0 (Nat.succ_pos k)
      simpa using this
    · intro j hj
      rw [(write_pair_layout t (path i) o d1 d2 _).1]
      have := hfix (j + 1) (Nat.succ_lt_succ hj)
      have e : i + (j + 1) = i + 1 + j := by omega
      rw [e] at this
      exact this

/-! ### `TRACK_UNRESERVE` -/

theorem cancel_reserve_spec (cfg : TrackConsts) (t : Nat → track_node) (n : Nat) (id : Int) :
    (not_owned cfg t id n ∧ cancel_reserve cfg t n id = .error Halt.crash) ∨
    (¬ not_owned cfg t id n ∧
      cancel_reserve cfg t n id = .ok (write_pair t n cfg.RESERVED_BY_NO_ONE
        cfg.RESERVED_BY_NO_ONE cfg.RESERVED_BY_NO_ONE)) := by
  unfold cancel_reserve not_owned
  split
  · rename_i h; exact Or.inl ⟨h, rfl⟩
  · rename_i h; exact Or.inr ⟨h, rfl⟩

theorem unreserve_loop_spec (cfg : TrackConsts) (path : Nat → Nat) (id : Int) :
    ∀ (k i : Nat) (t : Nat → track_node),
      (unreserve_loop cfg path id k i t = .error Halt.crash ∧
        ∃ j, j < k ∧ not_owned cfg
          (write_pairs path cfg.RESERVED_BY_NO_ONE cfg.RESERVED_BY_NO_ONE
            cfg.RESERVED_BY_NO_ONE j i t) id (path (i + j))) ∨
      (unreserve_loop cfg path id k i t =
          .ok (write_pairs path cfg.RESERVED_BY_NO_ONE cfg.RESERVED_BY_NO_ONE
            cfg.RESERVED_BY_NO_ONE k i t) ∧
        ∀ j, j < k → ¬ not_owned cfg
          (write_pairs path cfg.RESERVED_BY_NO_ONE cfg.RESERVED_BY_NO_ONE
            cfg.RESERVED_BY_NO_ONE j i t) id (path (i + j))) := by
  intro k
  induction k with
  | zero =>
    intro i t
    exact Or.inr ⟨rfl, fun j hj => by omega⟩
  | succ k ih =>
    intro i t
    unfold unreserve_loop
    rcases cancel_reserve_spec cfg t (path i) id with ⟨hb, he⟩ | ⟨hb, he⟩
    · rw [he]
      exact Or.inl ⟨rfl, 0, Nat.succ_pos k, hb⟩
    · rw [he]
      simp only
      rcases ih (i + 1) (write_pair t (path i) cfg.RESERVED_BY_NO_ONE cfg.RESERVED_BY_NO_ONE
        cfg.RESERVED_BY_NO_ONE) with ⟨h1, j, hj, hbad⟩ | ⟨h1, hgood⟩
      · refine Or.inl ⟨h1, j + 1, Nat.succ_lt_succ hj, ?_⟩
        have e : i + (j + 1) = i + 1 + j := by omega
        rw [e]
        exact hbad
      · refine Or.inr ⟨h1, ?_⟩
        intro j hj
        cases j with
        | zero => exact hb
        | succ j =>
          have e : i + (j + 1) = i + 1 + j := by omega
          rw [e]
          exact hgood j (Nat.lt_of_succ_lt_succ hj)

theorem first_culprit_none_passes {cfg : TrackConsts} {track : Nat → track_node} {id : Int}
    {nodes : List Nat} (h : first_culprit cfg track id nodes = none) :
    ∀ n, n ∈ nodes → passes_checks cfg track id n := by
  unfold first_culprit at h
  rw [List.findSome?_eq_none_iff] at h
  intro n hn
  exact (culprit_eq_none cfg track id n).1 (h n hn)

theorem first_culprit_some_fails {cfg : TrackConsts} {track : Nat → track_node} {id : Int}
    {nodes : List Nat} {x : Nat} (h : first_culprit cfg track id nodes = some x) :
    ∃ n, n ∈ nodes ∧ culprit cfg track id n = some x := by
  unfold first_culprit at h
  exact List.exists_of_findSome?_eq_some h

theorem path_mem_examined (cfg : TrackConsts) (fuel : Nat) (s : TrackServer) (req : Reservation)
    (j : Nat) (hj : j < req.len) : req.path j ∈ examined cfg fuel s req := by
  unfold examined
  refine List.mem_append_left _ ((mem_path_nodes _ _ _ _).2 ⟨j, hj, ?_⟩)
  rw [Nat.zero_add]

theorem unreserve_ok_track {cfg : TrackConsts} {s s1 : TrackServer} {req : Reservation}
    (h : TRACK_UNRESERVE cfg s req = .ok s1) :
    s1.track = released cfg req.path req.len s.track ∧
    (∀ j, j < req.len → ¬ not_owned cfg (released cfg req.path j s.track) req.train_id
      (req.path j)) ∧
    s1.train_wanted_nodes = s.train_wanted_nodes ∧ s1.switch_state = s.switch_state ∧
    s1.switch_subscriber = s.switch_subscriber ∧ s1.courier_requests = s.courier_requests ∧
    s1.subscriber_replies = s.subscriber_replies := by
  unfold TRACK_UNRESERVE at h
  rcases unreserve_loop_spec cfg req.path req.train_id req.len 0 s.track with
    ⟨he, _⟩ | ⟨he, hgood⟩
  · rw [he] at h; cases h
  · rw [he] at h
    simp only [Except.ok.injEq] at h
    subst h
    refine ⟨rfl, ?_, rfl, rfl, rfl, rfl, rfl⟩
    intro j hj
    have := hgood j hj
    rw [Nat.zero_add] at this
    exact this

theorem all_pass_first_culprit_none {cfg : TrackConsts} {track : Nat → track_node} {id : Int}
    {nodes : List Nat} (h : ∀ n, n ∈ nodes → passes_checks cfg track id n) :
    first_culprit cfg track id nodes = none := by
  unfold first_culprit
  rw [List.findSome?_eq_none_iff]
  intro n hn
  exact (culprit_eq_none cfg track id n).2 (h n hn)

theorem probe_hit_iff (cfg : TrackConsts) (s : TrackServer) (owner id : Int) :
    probe_hit cfg s owner id = true ↔
      ∃ it, it ∈ s.train_wanted_nodes (cfg.train_num_to_index owner) ∧
        ((s.track it).reserved_by = id ∨ (s.track (s.track it).reverse).reserved_by = id) := by
  unfold probe_hit holds_wanted
  simp [List.any_eq_true]

theorem evaluate_blocked (cfg : TrackConsts) (s : TrackServer) (res : ReservationStatus)
    (node : track_node) (id : Int) (h : can_reserve cfg node id = false) :
    ∃ res1,
      evaluate_robustness_failed cfg s res node id =
        .ok (wanted_insert s (cfg.train_num_to_index id) node.index, res1, true) ∧
      res1.successful = false ∧
      res1.dead_lock_detected =
        (res.dead_lock_detected ||
          (decide (node.reserved_by ≠ -1) &&
            probe_hit cfg (wanted_insert s (cfg.train_num_to_index id) node.index)
              node.reserved_by id)) := by
  have hn : node.reserved_by ≠ cfg.RESERVED_BY_NO_ONE := by
    intro e
    unfold can_reserve at h
    simp [e] at h
  unfold evaluate_robustness_failed
  simp only [h, Bool.false_eq_true, not_false_eq_true, if_true]
  unfold fail_with_probe detect_deadlock probe_hit
  simp only [hn, if_false]
  by_cases hp : ((wanted_insert s (cfg.train_num_to_index id) node.index).train_wanted_nodes
      (cfg.train_num_to_index node.reserved_by)).any
        (holds_wanted (wanted_insert s (cfg.train_num_to_index id) node.index).track id) = true
  · rw [if_pos hp]
    by_cases hm : node.reserved_by = -1
    · exact ⟨_, rfl, rfl, by simp [hm]⟩
    · exact ⟨_, rfl, rfl, by simp [hm, hp]⟩
  · rw [if_neg hp]
    exact ⟨_, rfl, rfl, by simp [hp]⟩

/-- A request whose first node is held by another train is refused at once:
the reply is produced whatever the loop budget, and nothing but the
requester's wait-for set (now the index of that first node) has changed. -/
theorem try_reserve_first_blocked (cfg : TrackConsts) (fuel : Nat) (s : TrackServer)
    (T : Int) (len : Nat) (path : Nat → Nat) (hlen : 1 ≤ len)
    (h : can_reserve cfg (s.track (path 0)) T = false) :
    ∃ res1,
      TRACK_TRY_RESERVE cfg fuel s ⟨T, len, path⟩ =
        .ok (wanted_insert (wanted_clear s (cfg.train_num_to_index T))
          (cfg.train_num_to_index T) (s.track (path 0)).index, res1) ∧
      res1.successful = false ∧
      res1.dead_lock_detected =
        (decide ((s.track (path 0)).reserved_by ≠ -1) &&
          probe_hit cfg (wanted_insert (wanted_clear s (cfg.train_num_to_index T))
            (cfg.train_num_to_index T) (s.track (path 0)).index)
            (s.track (path 0)).reserved_by T) := by
  obtain ⟨k, rfl⟩ : ∃ k, len = k + 1 := ⟨len - 1, by omega⟩
  obtain ⟨res1, he, hs, hdl⟩ := evaluate_blocked cfg
    (wanted_clear s (cfg.train_num_to_index T))
    { successful := true, dead_lock_detected := false, res_dist := 0 } (s.track (path 0)) T h
  refine ⟨res1, ?_, hs, ?_⟩
  · unfold TRACK_TRY_RESERVE
    simp only
    unfold check_loop
    rw [show (wanted_clear s (cfg.train_num_to_index T)).track = s.track from rfl, he]
    simp only [if_true, Nat.add_eq_zero, one_ne_zero, and_false, if_false]
    rw [lookahead_loop_of_failed _ _ _ _ _ _ _ hs]
    simp [hs]
  · rw [hdl]; simp

/-! ### Facts about the sample track -/

theorem sample_mirror_nobody : mirror_invariant sample_consts (sample_track nobody) := by
  intro n
  exact ⟨rfl, Or.inr (Or.inr ⟨rfl, rfl⟩)⟩

theorem sample_involution (owner : Nat → Int) : reverse_involution (sample_track owner) := by
  intro n
  simp only [sample_track, mate]
  split <;> split <;> omega

theorem sample_no_self_reverse (owner : Nat → Int) (n : Nat) :
    (sample_track owner n).reverse ≠ n := by
  simp only [sample_track, mate]
  split <;> omega

theorem sample_index (owner : Nat → Int) (n : Nat) : (sample_track owner n).index = n := rfl

theorem sample_mirror_crossing (n : Nat) :
    ((sample_track crossing_trains) ((sample_track crossing_trains) n).reverse).reserved_by
      = ((sample_track crossing_trains) n).reserved_by := by
  simp only [sample_track, crossing_trains, mate]
  repeat' split
  all_goals omega

theorem central_rev_ok {id : Nat} (h : 153 ≤ id ∧ id ≤ 156) :
    get_rev_switch_id id = .ok (paired_id id) ∧
    get_switch_id_to_index (paired_id id) ≠ get_switch_id_to_index id := by
  obtain ⟨h1, h2⟩ := h
  have : id = 153 ∨ id = 154 ∨ id = 155 ∨ id = 156 := by omega
  rcases this with rfl | rfl | rfl | rfl <;> exact ⟨rfl, by decide⟩

/-- What `pipe_sw` does, in one equation: it never halts, and its effect on the
table and on the courier log depends only on the table it finds. -/
theorem pipe_sw_eq (s : TrackServer) (id : Nat) (dir : Char) :
    pipe_sw s id dir =
      .ok ({ s with
              switch_state := pipe_table s.switch_state id dir
              courier_requests := s.courier_requests ++ pipe_commands s.switch_state id dir },
        decide (s.switch_state (get_switch_id_to_index id) ≠ dir)) := by
  unfold pipe_sw pipe_table pipe_commands
  by_cases h1 : s.switch_state (get_switch_id_to_index id) = dir
  · simp [h1]
  · by_cases h2 : 153 ≤ id ∧ id ≤ 156
    · simp only [ne_eq, h1, not_false_eq_true, if_true, h2, and_self, (central_rev_ok h2).1,
        decide_True, List.append_assoc, List.singleton_append]
    · simp only [ne_eq, h1, not_false_eq_true, if_true, h2, if_false, decide_True]

theorem pipe_table_own (f : Nat → Char) (id : Nat) (dir : Char) :
    pipe_table f id dir (get_switch_id_to_index id) = dir := by
  unfold pipe_table
  by_cases h1 : f (get_switch_id_to_index id) = dir
  · simp [h1]
  · by_cases h2 : 153 ≤ id ∧ id ≤ 156
    · simp only [ne_eq, h1, not_false_eq_true, if_true, h2, and_self]
      rw [Function.update_noteq (Ne.symm (central_rev_ok h2).2), Function.update_same]
    · simp only [ne_eq, h1, not_false_eq_true, if_true, h2, if_false, Function.update_same]

theorem pipe_table_other (f : Nat → Char) (id : Nat) (dir : Char) (slot : Nat)
    (h : ¬ writes_slot id slot) : pipe_table f id dir slot = f slot := by
  unfold writes_slot at h
  unfold pipe_table
  have h0 : slot ≠ get_switch_id_to_index id := fun e => h (Or.inl e)
  by_cases h1 : f (get_switch_id_to_index id) = dir
  · simp [h1]
  · by_cases h2 : 153 ≤ id ∧ id ≤ 156
    · have h3 : slot ≠ get_switch_id_to_index (paired_id id) :=
        fun e => h (Or.inr ⟨h2.1, h2.2, e⟩)
      simp only [ne_eq, h1, not_false_eq_true, if_true, h2, and_self]
      rw [Function.update_noteq h3, Function.update_noteq h0]
    · simp only [ne_eq, h1, not_false_eq_true, if_true, h2, if_false]
      rw [Function.update_noteq h0]

theorem pipe_table_paired (f : Nat → Char) (id : Nat) (dir : Char) (h : 153 ≤ id ∧ id ≤ 156) :
    pipe_table f id dir (get_switch_id_to_index (paired_id id)) =
      if f (get_switch_id_to_index id) ≠ dir then get_rev_switch_dir dir
      else f (get_switch_id_to_index (paired_id id)) := by
  unfold pipe_table
  by_cases h1 : f (get_switch_id_to_index id) = dir
  · simp [h1]
  · simp only [ne_eq, h1, not_false_eq_true, if_true, h, and_self, Function.update_same]

/-- Every slot whose content `pipe_sw` changes is named, with its new content,
by one of the commands it emits. -/
theorem pipe_table_changed (f : Nat → Char) (id : Nat) (dir : Char) (slot : Nat)
    (h : pipe_table f id dir slot ≠ f slot) :
    ∃ cmd, cmd ∈ pipe_commands f id dir ∧ get_switch_id_to_index cmd.1 = slot ∧
      cmd.2 = pipe_table f id dir slot := by
  by_cases hw : writes_slot id slot
  · have h1 : f (get_switch_id_to_index id) ≠ dir := by
      intro e
      apply h
      unfold pipe_table
      simp [e]
    rcases hw with rfl | ⟨h2, h3, rfl⟩
    · refine ⟨(id, dir), ?_, rfl, (pipe_table_own f id dir).symm⟩
      unfold pipe_commands
      rw [if_pos h1]
      split <;> simp
    · refine ⟨(paired_id id, get_rev_switch_dir dir), ?_, rfl, ?_⟩
      · unfold pipe_commands
        rw [if_pos h1, if_pos ⟨h2, h3⟩]
        simp
      · rw [pipe_table_paired f id dir ⟨h2, h3⟩, if_pos h1]
  · exact absurd (pipe_table_other f id dir slot hw) h

/-- A granted request, taken apart: the checks touched only the wait-for set,
the grant loop ran from the initial reply, and the subscribers were answered. -/
theorem try_reserve_granted {cfg : TrackConsts} {fuel : Nat} {s s1 : TrackServer}
    {req : Reservation} {res : ReservationStatus}
    (h : TRACK_TRY_RESERVE cfg fuel s req = .ok (s1, res)) (hs : res.successful = true) :
    ∃ s2 s4,
      only_wanted_differs (cfg.train_num_to_index req.train_id) s s2 ∧
      grant_loop cfg req.path req.len req.train_id req.len 0
        (wanted_clear s2 (cfg.train_num_to_index req.train_id))
        { successful := true, dead_lock_detected := false, res_dist := 0 } = .ok (s4, res) ∧
      s1 = reply_to_switch_subs s4 := by
  unfold TRACK_TRY_RESERVE at h
  simp only at h
  split at h
  · cases h
  · rename_i sa resa hc
    have hd0 := wanted_clear_differs s (cfg.train_num_to_index req.train_id)
    have hda := only_wanted_differs_trans hd0 (check_loop_differs _ _ _ _ _ _ hc)
    split at h
    · cases h
    · rcases check_loop_spec _ _ _ _ _ _ hc with ⟨_, rfl⟩ | ⟨x, _, hfail⟩
      · split at h
        · cases h
        · rename_i sb resb hl
          have hdb := only_wanted_differs_trans hda (lookahead_loop_differs _ _ _ _ _ _ _ hl)
          rcases lookahead_loop_spec _ _ _ _ _ _ _ hl rfl with ⟨_, rfl⟩ | ⟨y, _, hfail2⟩
          · simp only [if_true] at h
            split at h
            · cases h
            · rename_i sc resc hg
              simp only [Except.ok.injEq, Prod.mk.injEq] at h
              obtain ⟨rfl, rfl⟩ := h
              exact ⟨sb, sc, hdb, hg, rfl⟩
          · have hsb : resb.successful = false := hfail2.1
            simp only [hsb, Bool.false_eq_true, if_false, Except.ok.injEq, Prod.mk.injEq] at h
            obtain ⟨rfl, rfl⟩ := h
            rw [hsb] at hs; cases hs
      · have hsa : resa.successful = false := hfail.1
        rw [lookahead_loop_of_failed _ _ _ _ _ _ _ hsa] at h
        simp only [hsa, Bool.false_eq_true, if_false, Except.ok.injEq, Prod.mk.injEq] at h
        obtain ⟨rfl, rfl⟩ := h
        rw [hsa] at hs; cases hs

/-- Any property of the switch table and the courier log that every `pipe_sw`
with direction `'s'` or `'c'` maintains is maintained by the grant loop, which
leaves the subscriber queue and the replies alone. -/
theorem grant_loop_switch_inv {cfg : TrackConsts} {path : Nat → Nat} {len : Nat} {id : Int}
    (Q : (Nat → Char) → List (Nat × Char) → Prop)
    (hQ : ∀ f log sw dir, (dir = 's' ∨ dir = 'c') → Q f log →
      Q (pipe_table f sw dir) (log ++ pipe_commands f sw dir)) :
    ∀ (k i : Nat) (s : TrackServer) (res : ReservationStatus) (s1 : TrackServer)
      (res1 : ReservationStatus),
      grant_loop cfg path len id k i s res = .ok (s1, res1) →
      Q s.switch_state s.courier_requests →
      Q s1.switch_state s1.courier_requests ∧
      s1.switch_subscriber = s.switch_subscriber ∧
      s1.subscriber_replies = s.subscriber_replies := by
  intro k
  induction k with
  | zero =>
    intro i s res s1 res1 h hq
    simp only [grant_loop, Except.ok.injEq, Prod.mk.injEq] at h
    obtain ⟨rfl, rfl⟩ := h
    exact ⟨hq, rfl, rfl⟩
  | succ k ih =>
    intro i s res s1 res1 h hq
    unfold grant_loop at h
    simp only [pipe_sw_eq] at h
    repeat' split at h
    all_goals first
      | cases h
      | (have hh := ih _ _ _ _ _ h (hQ _ _ _ _ (Or.inl rfl) hq)
         exact hh)
      | (have hh := ih _ _ _ _ _ h (hQ _ _ _ _ (Or.inr rfl) hq)
         exact hh)
      | (have hh := ih _ _ _ _ _ h hq
         exact hh)

/-- The same for the loop of the initialisation sequences, whose directions come
from a table holding only `'s'` and `'c'`. -/
theorem init_switch_loop_inv (target : Nat → Char)
    (htarget : ∀ i, target i = 's' ∨ target i = 'c')
    (Q : (Nat → Char) → List (Nat × Char) → Prop)
    (hQ : ∀ f log sw dir, (dir = 's' ∨ dir = 'c') → Q f log →
      Q (pipe_table f sw dir) (log ++ pipe_commands f sw dir)) :
    ∀ (k i : Nat) (s : TrackServer),
      Q s.switch_state s.courier_requests →
      ∃ s1, init_switch_loop target k i s = .ok s1 ∧
        Q s1.switch_state s1.courier_requests ∧
        s1.track = s.track ∧ s1.train_wanted_nodes = s.train_wanted_nodes ∧
        s1.switch_subscriber = s.switch_subscriber ∧
        s1.subscriber_replies = s.subscriber_replies := by
  intro k
  induction k with
  | zero =>
    intro i s hq
    exact ⟨s, rfl, hq, rfl, rfl, rfl, rfl⟩
  | succ k ih =>
    intro i s hq
    unfold init_switch_loop
    rw [pipe_sw_eq]
    simp only
    obtain ⟨s1, h1, h2, h3, h4, h5, h6⟩ := ih (i + 1)
      { s with
        switch_state := pipe_table s.switch_state (get_switch_index_to_id i) (target i)
        courier_requests := s.courier_requests ++
          pipe_commands s.switch_state (get_switch_index_to_id i) (target i) }
      (hQ _ _ _ _ (htarget i) hq)
    exact ⟨s1, h1, h2, h3, h4, h5, h6⟩

theorem tracka_target_ok (i : Nat) :
    tracka_new_switch_state i = 's' ∨ tracka_new_switch_state i = 'c' := by
  unfold tracka_new_switch_state
  split
  · exact Or.inl rfl
  · exact Or.inr rfl

theorem trackb_target_ok (i : Nat) :
    trackb_new_switch_state i = 's' ∨ trackb_new_switch_state i = 'c' := by
  unfold trackb_new_switch_state
  split
  · exact Or.inr rfl
  · exact Or.inl rfl

theorem valid_id_round_trip (id : Nat) (h : valid_switch_id id) :
    get_switch_index_to_id (get_switch_id_to_index id) = id := by
  unfold valid_switch_id at h
  have : id ≤ 156 := by omega
  interval_cases id <;> first | rfl | omega

theorem announces_step (f0 f : Nat → Char) (cmds : List (Nat × Char)) (id : Nat) (dir : Char)
    (h : announces f0 f cmds) :
    announces f0 (pipe_table f id dir) (cmds ++ pipe_commands f id dir) := by
  intro slot hs
  by_cases hc : pipe_table f id dir slot = f slot
  · rw [hc] at hs ⊢
    obtain ⟨cmd, h1, h2, h3, h4⟩ := h slot hs
    exact ⟨cmd, List.mem_append_left _ h1, h2, h3, h4⟩
  · obtain ⟨cmd, h1, h2, h3⟩ := pipe_table_changed f id dir slot hc
    refine ⟨cmd, List.mem_append_right _ h1, h2, h3, ?_⟩
    intro hv
    rw [← h2]
    exact valid_id_round_trip cmd.1 hv

theorem non_central_slot (id : Nat) (h : ¬ (153 ≤ id ∧ id ≤ 156)) :
    get_switch_id_to_index id ≤ 17 := by
  unfold get_switch_id_to_index
  split
  · omega
  · split
    · omega
    · omega

theorem pipe_table_pair_ok (f : Nat → Char) (id : Nat) (dir : Char) (a b : Nat)
    (hab : (a = 153 ∧ b = 154) ∨ (a = 155 ∧ b = 156))
    (hdir : dir = 's' ∨ dir = 'c') (h : central_pair_ok f a b) :
    central_pair_ok (pipe_table f id dir) a b := by
  unfold central_pair_ok at h ⊢
  by_cases hc : 153 ≤ id ∧ id ≤ 156
  · have hid : id = 153 ∨ id = 154 ∨ id = 155 ∨ id = 156 := by omega
    by_cases he : f (get_switch_id_to_index id) = dir
    · have : pipe_table f id dir = f := by unfold pipe_table; simp [he]
      rw [this]; exact h
    · have hown := pipe_table_own f id dir
      have hpar := pipe_table_paired f id dir hc
      rw [if_pos he] at hpar
      have hoth := fun slot hw => pipe_table_other f id dir slot hw
      have s153 : get_switch_id_to_index ((153 : Nat) : Int) = 18 := rfl
      have s154 : get_switch_id_to_index ((154 : Nat) : Int) = 19 := rfl
      have s155 : get_switch_id_to_index ((155 : Nat) : Int) = 20 := rfl
      have s156 : get_switch_id_to_index ((156 : Nat) : Int) = 21 := rfl
      have p153 : get_switch_id_to_index ((paired_id 153 : Nat) : Int) = 19 := rfl
      have p154 : get_switch_id_to_index ((paired_id 154 : Nat) : Int) = 18 := rfl
      have p155 : get_switch_id_to_index ((paired_id 155 : Nat) : Int) = 21 := rfl
      have p156 : get_switch_id_to_index ((paired_id 156 : Nat) : Int) = 20 := rfl
      have r1 : get_rev_switch_dir 's' = 'c' := rfl
      have r2 : get_rev_switch_dir 'c' = 's' := rfl
      rcases hab with ⟨rfl, rfl⟩ | ⟨rfl, rfl⟩ <;> rcases hid with rfl | rfl | rfl | rfl <;>
        rcases hdir with rfl | rfl
      all_goals simp only [s153, s154, s155, s156, p153, p154, p155, p156, r1, r2]
        at h hown hpar ⊢
      all_goals first
        | (rw [hown, hpar]
           first
             | exact Or.inr (Or.inl ⟨rfl, rfl⟩)
             | exact Or.inr (Or.inr ⟨rfl, rfl⟩))
        | (rw [hoth _ (by decide), hoth _ (by decide)]; exact h)
  · have hle := non_central_slot id hc
    have hw : ∀ slot, 18 ≤ slot → ¬ writes_slot id slot := by
      intro slot hs hw
      rcases hw with e | ⟨h1, h2, _⟩
      · omega
      · exact hc ⟨h1, h2⟩
    rcases hab with ⟨rfl, rfl⟩ | ⟨rfl, rfl⟩
    · rw [pipe_table_other f id dir _ (hw _ (by decide)),
        pipe_table_other f id dir _ (hw _ (by decide))]
      exact h
    · rw [pipe_table_other f id dir _ (hw _ (by decide)),
        pipe_table_other f id dir _ (hw _ (by decide))]
      exact h

theorem reply_to_switch_subs_fields (s : TrackServer) :
    (reply_to_switch_subs s).switch_state = s.switch_state ∧
    (reply_to_switch_subs s).courier_requests = s.courier_requests ∧
    (reply_to_switch_subs s).track = s.track ∧
    (reply_to_switch_subs s).train_wanted_nodes = s.train_wanted_nodes ∧
    (reply_to_switch_subs s).switch_subscriber = [] ∧
    (reply_to_switch_subs s).subscriber_replies =
      s.subscriber_replies ++ s.switch_subscriber.map (fun tid => (tid, s.switch_state)) :=
  ⟨rfl, rfl, rfl, rfl, rfl, rfl⟩

/-- `TRACK_SWITCH` never halts; written out. -/
theorem track_switch_eq (s : TrackServer) (id : Nat) (dir : Char) :
    TRACK_SWITCH s id dir =
      if s.switch_state (get_switch_id_to_index id) ≠ dir then
        .ok (reply_to_switch_subs
          { s with
            switch_state := pipe_table s.switch_state id dir
            courier_requests := s.courier_requests ++ pipe_commands s.switch_state id dir })
      else .ok s := by
  unfold TRACK_SWITCH
  rw [pipe_sw_eq]
  by_cases h : s.switch_state (get_switch_id_to_index id) = dir
  · simp [h, pipe_table, pipe_commands]
  · simp [h]

/-- Any property of the switch table and the courier log that every `pipe_sw`
with an allowed direction maintains survives a request, provided `'s'` and
`'c'` are allowed and so is the direction of the request if it is a `SWITCH`. -/
theorem serve_switch_inv {cfg : TrackConsts} {tb : TrackTables}
    (D : Char → Prop) (hDs : D 's') (hDc : D 'c')
    (Q : (Nat → Char) → List (Nat × Char) → Prop)
    (hQD : ∀ f log sw dir, D dir → Q f log →
      Q (pipe_table f sw dir) (log ++ pipe_commands f sw dir))
    (s s1 : TrackServer) (r : TrackRequest)
    (hdir : ∀ id dir, r = TrackRequest.SWITCH id dir → D dir)
    (h : serve cfg tb s r = .ok s1) (hq : Q s.switch_state s.courier_requests) :
    Q s1.switch_state s1.courier_requests := by
  have hQ : ∀ f log sw dir, (dir = 's' ∨ dir = 'c') → Q f log →
      Q (pipe_table f sw dir) (log ++ pipe_commands f sw dir) := by
    intro f log sw dir hd
    rcases hd with rfl | rfl
    · exact hQD f log sw _ hDs
    · exact hQD f log sw _ hDc
  cases r with
  | INIT info =>
    simp only [serve, TRACK_INIT] at h
    split at h
    · obtain ⟨s2, h1, h2, _⟩ := init_switch_loop_inv tracka_new_switch_state tracka_target_ok
        Q hQ tb.NUM_SWITCHES 0 { s with track := tb.init_tracka s.track } hq
      unfold tracka_initialization_sequence at h
      rw [h1] at h
      simp only [Except.ok.injEq] at h
      subst h
      exact h2
    · split at h
      · obtain ⟨s2, h1, h2, _⟩ := init_switch_loop_inv trackb_new_switch_state trackb_target_ok
          Q hQ tb.NUM_SWITCHES 0 { s with track := tb.init_trackb s.track } hq
        unfold trackb_initialization_sequence at h
        rw [h1] at h
        simp only [Except.ok.injEq] at h
        subst h
        exact h2
      · cases h
  | SWITCH id dir =>
    simp only [serve] at h
    rw [track_switch_eq] at h
    split at h
    · simp only [Except.ok.injEq] at h
      subst h
      exact hQD _ _ id dir (hdir id dir rfl) hq
    · simp only [Except.ok.injEq] at h
      subst h
      exact hq
  | UNRESERVE req =>
    simp only [serve] at h
    obtain ⟨_, _, _, h4, _, h6, _⟩ := unreserve_ok_track h
    rw [h4, h6]
    exact hq
  | TRY_RESERVE fuel req =>
    simp only [serve] at h
    split at h
    · cases h
    · rename_i s2 res ht
      simp only [Except.ok.injEq] at h
      subst h
      cases hs : res.successful
      · have hd := try_reserve_failed_differs ht hs
        rw [hd.2.1, hd.2.2.2.1]
        exact hq
      · obtain ⟨sa, sb, hd, hg, rfl⟩ := try_reserve_granted ht hs
        have hq2 : Q (wanted_clear sa (cfg.train_num_to_index req.train_id)).switch_state
            (wanted_clear sa (cfg.train_num_to_index req.train_id)).courier_requests := by
          show Q sa.switch_state sa.courier_requests
          rw [hd.2.1, hd.2.2.2.1]
          exact hq
        exact (grant_loop_switch_inv Q hQ _ _ _ _ _ _ hg hq2).1
  | SWITCH_SUBSCRIBE sender =>
    simp only [serve, Except.ok.injEq] at h
    subst h
    exact hq

/-- Whenever a request changed some recorded switch position, by its end every
subscriber parked before it has been replied to with the final table and the
queue is empty. -/
theorem serve_subscribers {cfg : TrackConsts} {tb : TrackTables} (s s1 : TrackServer)
    (r : TrackRequest) (h : serve cfg tb s r = .ok s1)
    (hch : ∃ slot, s1.switch_state slot ≠ s.switch_state slot) :
    s1.switch_subscriber = [] ∧
    s1.subscriber_replies =
      s.subscriber_replies ++ s.switch_subscriber.map (fun tid => (tid, s1.switch_state)) := by
  have htriv : ∀ (f : Nat → Char) (log : List (Nat × Char)) (sw : Nat) (dir : Char),
      (dir = 's' ∨ dir = 'c') → True → True := fun _ _ _ _ _ _ => trivial
  obtain ⟨slot, hslot⟩ := hch
  cases r with
  | INIT info =>
    simp only [serve, TRACK_INIT] at h
    split at h
    · obtain ⟨s2, h1, _, _, _, h5, h6⟩ := init_switch_loop_inv tracka_new_switch_state
        tracka_target_ok (fun _ _ => True) htriv tb.NUM_SWITCHES 0
        { s with track := tb.init_tracka s.track } trivial
      unfold tracka_initialization_sequence at h
      rw [h1] at h
      simp only [Except.ok.injEq] at h
      subst h
      have hf := reply_to_switch_subs_fields s2
      rw [hf.2.2.2.2.1, hf.2.2.2.2.2, hf.1, h5, h6]
      exact ⟨rfl, rfl⟩
    · split at h
      · obtain ⟨s2, h1, _, _, _, h5, h6⟩ := init_switch_loop_inv trackb_new_switch_state
          trackb_target_ok (fun _ _ => True) htriv tb.NUM_SWITCHES 0
          { s with track := tb.init_trackb s.track } trivial
        unfold trackb_initialization_sequence at h
        rw [h1] at h
        simp only [Except.ok.injEq] at h
        subst h
        have hf := reply_to_switch_subs_fields s2
        rw [hf.2.2.2.2.1, hf.2.2.2.2.2, hf.1, h5, h6]
        exact ⟨rfl, rfl⟩
      · cases h
  | SWITCH id dir =>
    simp only [serve] at h
    rw [track_switch_eq] at h
    split at h
    · simp only [Except.ok.injEq] at h
      subst h
      exact ⟨rfl, rfl⟩
    · simp only [Except.ok.injEq] at h
      subst h
      exact absurd rfl hslot
  | UNRESERVE req =>
    simp only [serve] at h
    obtain ⟨_, _, _, h4, _, _, _⟩ := unreserve_ok_track h
    rw [h4] at hslot
    exact absurd rfl hslot
  | TRY_RESERVE fuel req =>
    simp only [serve] at h
    split at h
    · cases h
    · rename_i s2 res ht
      simp only [Except.ok.injEq] at h
      subst h
      cases hs : res.successful
      · have hd := try_reserve_failed_differs ht hs
        rw [hd.2.1] at hslot
        exact absurd rfl hslot
      · obtain ⟨sa, sb, hd, hg, rfl⟩ := try_reserve_granted ht hs
        obtain ⟨_, h5, h6⟩ := grant_loop_switch_inv (fun _ _ => True) htriv _ _ _ _ _ _ hg trivial
        have hf := reply_to_switch_subs_fields sb
        rw [hf.2.2.2.2.1, hf.2.2.2.2.2, hf.1, h5, h6]
        show _ ∧ sa.subscriber_replies ++ sa.switch_subscriber.map _ = _
        rw [hd.2.2.1, hd.2.2.2.2.1]
        exact ⟨rfl, rfl⟩
  | SWITCH_SUBSCRIBE sender =>
    simp only [serve, Except.ok.injEq] at h
    subst h
    exact absurd rfl hslot

theorem index_round_trip (i : Nat) (h : i < 22) :
    get_switch_id_to_index (get_switch_index_to_id i) = i := by
  interval_cases i <;> rfl

/-- The initialisation loop drives every slot below 22 to its target, whatever
the table was, provided the targets of each central pair are complementary. -/
theorem init_switch_loop_table (target : Nat → Char)
    (h18 : get_rev_switch_dir (target 19) = target 18)
    (h20 : get_rev_switch_dir (target 21) = target 20) :
    ∀ (k i : Nat) (s : TrackServer), i + k ≤ 22 →
      (∀ slot, slot < i → s.switch_state slot = target slot) →
      ∃ s1, init_switch_loop target k i s = .ok s1 ∧
        ∀ slot, slot < i + k → s1.switch_state slot = target slot := by
  intro k
  induction k with
  | zero => intro i s _ hs; exact ⟨s, rfl, hs⟩
  | succ k ih =>
    intro i s hik hs
    have hi : i < 22 := by omega
    simp only [init_switch_loop, pipe_sw_eq]
    have hstep : ∀ slot, slot < i + 1 →
        pipe_table s.switch_state (get_switch_index_to_id i) (target i) slot = target slot := by
      intro slot hslot
      by_cases he : slot = i
      · subst he
        have := pipe_table_own s.switch_state (get_switch_index_to_id slot) (target slot)
        rw [index_round_trip slot hi] at this
        exact this
      · have hlt : slot < i := by omega
        by_cases hw : writes_slot (get_switch_index_to_id i) slot
        · rcases hw with hw | ⟨h1, h2, hw⟩
          · rw [index_round_trip i hi] at hw; exact absurd hw he
          · have hp := pipe_table_paired s.switch_state (get_switch_index_to_id i) (target i) ⟨h1, h2⟩
            rw [← hw, index_round_trip i hi] at hp
            rw [hp]
            interval_cases i <;> first
              | (exact absurd h1 (by decide))
              | (exact absurd h2 (by decide))
              | (have hv : slot = 18 := hw
                 subst hv
                 split
                 · exact h18
                 · exact hs 18 hlt)
              | (have hv : slot = 20 := hw
                 subst hv
                 split
                 · exact h20
                 · exact hs 20 hlt)
              | (have hv : slot = 19 := hw
                 omega)
              | (have hv : slot = 21 := hw
                 omega)
        · rw [pipe_table_other _ _ _ _ hw]; exact hs slot hlt
    obtain ⟨s1, h1, h2⟩ := ih (i + 1)
      { s with
        switch_state := pipe_table s.switch_state (get_switch_index_to_id i) (target i)
        courier_requests :=
          s.courier_requests ++ pipe_commands s.switch_state (get_switch_index_to_id i) (target i) }
      (by omega) hstep
    exact ⟨s1, h1, fun slot hslot => h2 slot (by omega)⟩


theorem same_layout_refl (t : Nat → track_node) : same_layout t t :=
  fun _ => ⟨rfl, rfl, rfl⟩

theorem same_layout_reserve {cfg : TrackConsts} {t t0 : Nat → track_node} (n : Nat) (id : Int)
    (h : same_layout t t0) : same_layout (reserve cfg t n id) t0 := by
  intro m
  have hl := write_pair_layout t n id cfg.DIRECT_RESERVE cfg.REVERSE_RESERVE m
  rw [reserve_eq_write_pair]
  exact ⟨hl.2.2.1.trans (h m).1, hl.2.2.2.1.trans (h m).2.1, hl.2.2.2.2.trans (h m).2.2⟩

theorem edge_to_layout {cfg : TrackConsts} {t t0 : Nat → track_node} (h : same_layout t t0)
    (a b : Nat) : edge_to cfg t a b = edge_to cfg t0 a b := by
  unfold edge_to
  rw [(h a).1, (h a).2.2]

/-- One iteration of the granting loop, in terms of the track as it was before
the iteration: the node is reserved, a branch throws its switch towards the
next entry of the path, and the length of the edge followed is added unless the
node is the last of the path and not a branch. -/
theorem grant_loop_step {cfg : TrackConsts} {path : Nat → Nat} {len : Nat} {id : Int}
    (k i : Nat) (s : TrackServer) (res : ReservationStatus) (s1 : TrackServer)
    (res1 : ReservationStatus)
    (h : grant_loop cfg path len id (k + 1) i s res = .ok (s1, res1)) :
    ∃ s2 res2, grant_loop cfg path len id k (i + 1) s2 res2 = .ok (s1, res1) ∧
      s2.track = reserve cfg s.track (path i) id ∧
      s2.switch_state =
        (if (s.track (path i)).type = node_type.NODE_BRANCH then
          pipe_table s.switch_state (to_char (s.track (path i)).num)
            (if path (i + 1) = ((s.track (path i)).edge cfg.DIR_STRAIGHT).dest then 's' else 'c')
        else s.switch_state) ∧
      res2.res_dist = res.res_dist +
        (if (s.track (path i)).type = node_type.NODE_BRANCH ∨ i ≠ len - 1 then
          (edge_to cfg s.track (path i) (path (i + 1))).dist
        else 0) := by
  have hl := write_pair_layout s.track (path i) id cfg.DIRECT_RESERVE cfg.REVERSE_RESERVE (path i)
  unfold grant_loop at h
  simp only [reserve_eq_write_pair, hl.2.2.1, hl.2.2.2.1, hl.2.2.2.2, pipe_sw_eq] at h
  unfold edge_to
  by_cases hb : (s.track (path i)).type = node_type.NODE_BRANCH
  · simp only [hb, if_true, true_or] at h ⊢
    by_cases hst : path (i + 1) = ((s.track (path i)).edge cfg.DIR_STRAIGHT).dest
    · simp only [hst, if_true] at h ⊢
      exact ⟨_, _, h, rfl, rfl, rfl⟩
    · simp only [hst, if_false] at h ⊢
      split at h
      · exact ⟨_, _, h, rfl, rfl, rfl⟩
      · cases h
  · simp only [hb, if_false, false_or] at h ⊢
    split at h
    · rename_i hne
      rw [if_pos hne]
      exact ⟨_, _, h, rfl, rfl, rfl⟩
    · rename_i hne
      rw [if_neg hne]
      exact ⟨_, _, h, rfl, rfl, rfl⟩

/-- The granting loop leaves alone every slot that no branch of the remaining
path writes. -/
theorem grant_loop_keeps_slot {cfg : TrackConsts} {path : Nat → Nat} {len : Nat} {id : Int}
    (t0 : Nat → track_node) (slot : Nat) :
    ∀ (k i0 : Nat) (s : TrackServer) (res : ReservationStatus) (s1 : TrackServer)
      (res1 : ReservationStatus),
      grant_loop cfg path len id k i0 s res = .ok (s1, res1) →
      same_layout s.track t0 →
      (∀ j, j < i0 + k → i0 ≤ j → (t0 (path j)).type = node_type.NODE_BRANCH →
        ¬ writes_slot (to_char (t0 (path j)).num) slot) →
      s1.switch_state slot = s.switch_state slot := by
  intro k
  induction k with
  | zero =>
    intro i0 s res s1 res1 h _ _
    simp only [grant_loop, Except.ok.injEq, Prod.mk.injEq] at h
    rw [← h.1]
  | succ k ih =>
    intro i0 s res s1 res1 h hlay hno
    obtain ⟨s2, res2, hg, ht, hsw, _⟩ := grant_loop_step k i0 s res s1 res1 h
    have hlay2 : same_layout s2.track t0 := by rw [ht]; exact same_layout_reserve _ _ hlay
    rw [ih (i0 + 1) s2 res2 s1 res1 hg hlay2 (fun j h1 h2 => hno j (by omega) (by omega)), hsw]
    split
    · rename_i hb
      rw [(hlay (path i0)).1] at hb
      rw [(hlay (path i0)).2.1]
      exact pipe_table_other _ _ _ _ (hno i0 (by omega) (le_refl _) hb)
    · rfl

/-- After the granting loop, the switch of a branch of the path points towards
the next entry of the path, unless a later branch of the path writes its slot. -/
theorem grant_loop_throws {cfg : TrackConsts} {path : Nat → Nat} {len : Nat} {id : Int}
    (t0 : Nat → track_node) (i : Nat) :
    ∀ (k i0 : Nat) (s : TrackServer) (res : ReservationStatus) (s1 : TrackServer)
      (res1 : ReservationStatus),
      grant_loop cfg path len id k i0 s res = .ok (s1, res1) →
      same_layout s.track t0 →
      i0 ≤ i → i < i0 + k →
      (t0 (path i)).type = node_type.NODE_BRANCH →
      (∀ j, j < i0 + k → i < j → (t0 (path j)).type = node_type.NODE_BRANCH →
        ¬ writes_slot (to_char (t0 (path j)).num) (slot_of t0 (path i))) →
      s1.switch_state (slot_of t0 (path i)) =
        (if path (i + 1) = ((t0 (path i)).edge cfg.DIR_STRAIGHT).dest then 's' else 'c') ∧
      (path (i + 1) = ((t0 (path i)).edge cfg.DIR_STRAIGHT).dest ∨
        path (i + 1) = ((t0 (path i)).edge cfg.DIR_CURVED).dest) := by
  intro k
  induction k with
  | zero => intro i0 s res s1 res1 _ _ h1 h2; omega
  | succ k ih =>
    intro i0 s res s1 res1 h hlay h1 h2 hb hno
    obtain ⟨s2, res2, hg, ht, hsw, _⟩ := grant_loop_step k i0 s res s1 res1 h
    have hlay2 : same_layout s2.track t0 := by rw [ht]; exact same_layout_reserve _ _ hlay
    by_cases he : i = i0
    · subst he
      refine ⟨?_, ?_⟩
      · rw [grant_loop_keeps_slot t0 _ k (i + 1) s2 res2 s1 res1 hg hlay2
          (fun j h3 h4 => hno j (by omega) (by omega)), hsw,
          if_pos ((hlay (path i)).1.trans hb), (hlay (path i)).2.1, (hlay (path i)).2.2]
        exact pipe_table_own _ _ _
      · by_contra hn
        rw [not_or] at hn
        unfold grant_loop at h
        have hl := write_pair_layout s.track (path i) id cfg.DIRECT_RESERVE
          cfg.REVERSE_RESERVE (path i)
        simp only [reserve_eq_write_pair, hl.2.2.1, hl.2.2.2.1, hl.2.2.2.2, pipe_sw_eq,
          (hlay (path i)).1, (hlay (path i)).2.2, hb, if_true, hn.1, hn.2, if_false] at h
        cases h
    · exact ih (i0 + 1) s2 res2 s1 res1 hg hlay2 (by omega) (by omega) hb
        (fun j h3 h4 => hno j (by omega) h4)

/-- The distance accumulated by the granting loop over the last `k` entries of
a path whose last node is not a branch. -/
theorem grant_loop_dist {cfg : TrackConsts} {path : Nat → Nat} {len : Nat} {id : Int}
    (t0 : Nat → track_node) :
    ∀ (k i0 : Nat) (s : TrackServer) (res : ReservationStatus) (s1 : TrackServer)
      (res1 : ReservationStatus),
      grant_loop cfg path len id k i0 s res = .ok (s1, res1) →
      same_layout s.track t0 →
      i0 + k = len →
      (t0 (path (len - 1))).type ≠ node_type.NODE_BRANCH →
      res1.res_dist = res.res_dist +
        ((List.range' i0 (k - 1)).map
          (fun j => (edge_to cfg t0 (path j) (path (j + 1))).dist)).sum := by
  intro k
  induction k with
  | zero =>
    intro i0 s res s1 res1 h _ _ _
    simp only [grant_loop, Except.ok.injEq, Prod.mk.injEq] at h
    rw [← h.2]
    simp
  | succ k ih =>
    intro i0 s res s1 res1 h hlay hlen hlast
    obtain ⟨s2, res2, hg, ht, _, hd⟩ := grant_loop_step k i0 s res s1 res1 h
    have hlay2 : same_layout s2.track t0 := by rw [ht]; exact same_layout_reserve _ _ hlay
    rw [ih (i0 + 1) s2 res2 s1 res1 hg hlay2 (by omega) hlast, hd, edge_to_layout hlay]
    cases k with
    | zero =>
      have he : i0 = len - 1 := by omega
      have hnb : ¬ ((s.track (path i0)).type = node_type.NODE_BRANCH ∨ i0 ≠ len - 1) := by
        rw [(hlay (path i0)).1, he]
        exact fun hc => hc.elim hlast (fun hc => hc rfl)
      rw [if_neg hnb]
      simp
    | succ k =>
      have hne : i0 ≠ len - 1 := by omega
      rw [if_pos (Or.inr hne)]
      simp only [Nat.add_sub_cancel, List.range'_succ, List.map_cons, List.sum_cons]
      omega


theorem edge_to_dest {cfg : TrackConsts} {t : Nat → track_node} {a b : Nat}
    (h : joined cfg t a b) : (edge_to cfg t a b).dest = b := by
  unfold joined at h
  unfold edge_to
  by_cases hb : (t a).type = node_type.NODE_BRANCH
  · rw [if_pos hb] at h ⊢
    by_cases hst : b = ((t a).edge cfg.DIR_STRAIGHT).dest
    · rw [if_pos hst]; exact hst.symm
    · rw [if_neg hst]; exact h.resolve_left (fun hc => hst hc.symm)
  · rw [if_neg hb] at h ⊢
    exact h

/-! ## Claims about the reservation authority -/

/-- C1: a `TRACK_TRY_RESERVE` that replies `successful = false` leaves every
node of the track (so every `reserved_by` and `reserve_dir`), every recorded
switch position and the subscriber queue identical to their values before the
call, hands no switch command to a courier and replies to no subscriber; the
wait-for sets of all slots other than the requesting train's are unchanged. -/
theorem failed_try_reserve_only_touches_wanted (cfg : TrackConsts) (fuel : Nat)
    (s s1 : TrackServer) (req : Reservation) (res : ReservationStatus)
    (h : TRACK_TRY_RESERVE cfg fuel s req = .ok (s1, res)) (hf : res.successful = false) :
    (∀ n, (s1.track n).reserved_by = (s.track n).reserved_by ∧
      (s1.track n).reserve_dir = (s.track n).reserve_dir) ∧
    s1.track = s.track ∧
    s1.switch_state = s.switch_state ∧
    s1.switch_subscriber = s.switch_subscriber ∧
    s1.courier_requests = s.courier_requests ∧
    s1.subscriber_replies = s.subscriber_replies ∧
    ∀ slot : Int, slot ≠ cfg.train_num_to_index req.train_id →
      s1.train_wanted_nodes slot = s.train_wanted_nodes slot := by
  obtain ⟨h1, h2, h3, h4, h5, h6⟩ := try_reserve_failed_differs h hf
  exact ⟨fun n => by rw [h1]; exact ⟨rfl, rfl⟩, h1, h2, h3, h4, h5, h6⟩

/-- Instance of C1: train 58 asks for sensor 0 while train 71 holds sensor 4,
which the look-ahead reaches through branch 2. -/
theorem failed_try_reserve_only_touches_wanted_witness :
    ∃ s1 res,
      TRACK_TRY_RESERVE sample_consts 10 (sample_server train71_on_4 's') ⟨58, 1, fun _ => 0⟩
        = .ok (s1, res) ∧
      res.successful = false ∧
      s1.track = (sample_server train71_on_4 's').track ∧
      s1.switch_state = (sample_server train71_on_4 's').switch_state ∧
      s1.switch_subscriber = [7] ∧ s1.courier_requests = [] :=
  ⟨_, _, rfl, rfl,
    (failed_try_reserve_only_touches_wanted sample_consts 10 (sample_server train71_on_4 's') _
      ⟨58, 1, fun _ => 0⟩ _ rfl rfl).2.1,
    (failed_try_reserve_only_touches_wanted sample_consts 10 (sample_server train71_on_4 's') _
      ⟨58, 1, fun _ => 0⟩ _ rfl rfl).2.2.1,
    (failed_try_reserve_only_touches_wanted sample_consts 10 (sample_server train71_on_4 's') _
      ⟨58, 1, fun _ => 0⟩ _ rfl rfl).2.2.2.1,
    (failed_try_reserve_only_touches_wanted sample_consts 10 (sample_server train71_on_4 's') _
      ⟨58, 1, fun _ => 0⟩ _ rfl rfl).2.2.2.2.1⟩

/-- C3: mirror invariant. In a state where every node has the owner of its
reverse with mirror-paired `reserve_dir`, on a track whose reverse link is an
involution, (1) every `TRACK_TRY_RESERVE` that replies and (2) every
`TRACK_UNRESERVE` that does not halt end in a state where the same holds for
every node, with every reverse link unchanged. For (1) the track table is taken
to pair each listed node with another node: a location is two directed nodes,
so no node is its own reverse. -/
theorem mirror_invariant_preserved (cfg : TrackConsts) (s : TrackServer) (req : Reservation)
    (hinv : mirror_invariant cfg s.track) (hrev : reverse_involution s.track) :
    (∀ fuel s1 res,
      (∀ j, j < req.len → (s.track (req.path j)).reverse ≠ req.path j) →
      TRACK_TRY_RESERVE cfg fuel s req = .ok (s1, res) →
      mirror_invariant cfg s1.track ∧ ∀ n, (s1.track n).reverse = (s.track n).reverse) ∧
    (∀ s1,
      TRACK_UNRESERVE cfg s req = .ok s1 →
      mirror_invariant cfg s1.track ∧ ∀ n, (s1.track n).reverse = (s.track n).reverse) := by
  constructor
  · intro fuel s1 res hfix h
    rcases try_reserve_spec h with ⟨_, _, _, ht⟩ | ⟨x, _, _, hd⟩
    · rw [ht]
      refine ⟨write_pairs_mirror cfg req.path _ _ _ (Or.inl ⟨rfl, rfl⟩) _ _ _ hinv hrev ?_,
        fun n => (write_pairs_layout _ _ _ _ _ _ _ n).1⟩
      intro j hj hself
      rw [Nat.zero_add] at hself
      exact absurd hself (hfix j hj)
    · rw [hd.1]
      exact ⟨hinv, fun _ => rfl⟩
  · intro s1 h
    have ht := (unreserve_ok_track h).1
    rw [ht]
    unfold released
    refine ⟨write_pairs_mirror cfg req.path _ _ _ (Or.inr (Or.inr ⟨rfl, rfl⟩)) _ _ _ hinv hrev ?_,
      fun n => (write_pairs_layout _ _ _ _ _ _ _ n).1⟩
    intro j _ _
    exact Or.inr (Or.inr ⟨rfl, rfl⟩)

/-- Instance of C3: on the sample track, train 58 is granted sensor 0,
branch 2 and sensor 4; the mirror invariant holds afterwards. -/
theorem mirror_invariant_preserved_witness :
    ∃ s1 res,
      TRACK_TRY_RESERVE sample_consts 10 (sample_server nobody 's')
        ⟨58, 3, fun i => [0, 2, 4].getD i 0⟩ = .ok (s1, res) ∧
      res.successful = true ∧ mirror_invariant sample_consts s1.track := by
  refine ⟨_, _, rfl, rfl, ?_⟩
  have key := fun s1 res h => And.left ((mirror_invariant_preserved sample_consts
    (sample_server nobody 's') ⟨58, 3, fun i => [0, 2, 4].getD i 0⟩ sample_mirror_nobody
    (sample_involution nobody)).1 10 s1 res (fun j _ => sample_no_self_reverse nobody _) h)
  exact key _ _ rfl

/-- C5 fails as stated: train 58 is granted sensor 0; the look-ahead walks on
to branch 2 and sensor 4, which are examined but not acquired: they are as
unreserved after the grant as before. -/
theorem lookahead_nodes_not_acquired :
    ∃ s1 res,
      TRACK_TRY_RESERVE sample_consts 10 (sample_server nobody 's') ⟨58, 1, fun _ => 0⟩
        = .ok (s1, res) ∧
      res.successful = true ∧
      lookahead_walk sample_consts (sample_server nobody 's') 10 0 0 = [2, 4] ∧
      (s1.track 2).reserved_by = sample_consts.RESERVED_BY_NO_ONE ∧
      (s1.track 4).reserved_by = sample_consts.RESERVED_BY_NO_ONE ∧
      (s1.track 2).reserved_by ≠ 58 :=
  ⟨_, _, rfl, rfl, by decide, rfl, rfl, by decide⟩

/-- C5, amended: a successful `TRACK_TRY_RESERVE` acquires the path only.
Afterwards every node of the path and its reverse has `reserved_by = T`; every
node that is neither on the path nor the reverse of a path node is unchanged,
so the nodes of the look-ahead walk beyond the path keep their owner; and each
node of that walk passed the reservability checks, hence was unreserved or
already held by `T`. -/
theorem grant_acquires_path_only (cfg : TrackConsts) (fuel : Nat) (s s1 : TrackServer)
    (req : Reservation) (res : ReservationStatus)
    (h : TRACK_TRY_RESERVE cfg fuel s req = .ok (s1, res)) (hs : res.successful = true) :
    (∀ j, j < req.len →
      (s1.track (req.path j)).reserved_by = req.train_id ∧
      (s1.track (s.track (req.path j)).reverse).reserved_by = req.train_id) ∧
    (∀ m, (∀ j, j < req.len → m ≠ req.path j ∧ m ≠ (s.track (req.path j)).reverse) →
      s1.track m = s.track m) ∧
    (∀ m, m ∈ lookahead_walk cfg s fuel 0 (req.path (req.len - 1)) →
      passes_checks cfg s.track req.train_id m ∧
      ((s.track m).reserved_by = cfg.RESERVED_BY_NO_ONE ∨
        (s.track m).reserved_by = req.train_id)) := by
  rcases try_reserve_spec h with ⟨hnone, _, _, ht⟩ | ⟨x, _, hf, _⟩
  · refine ⟨?_, ?_, ?_⟩
    · intro j hj
      have ho := write_pairs_owner req.path req.train_id cfg.DIRECT_RESERVE cfg.REVERSE_RESERVE
        req.len 0 s.track j hj
      rw [Nat.zero_add] at ho
      rw [ht]
      exact ho
    · intro m hm
      rw [ht]
      apply write_pairs_other
      intro j hj
      rw [Nat.zero_add]
      exact hm j hj
    · intro m hm
      have hp := first_culprit_none_passes hnone m (List.mem_append_right _ hm)
      exact ⟨hp, hp.1⟩
  · rw [hf.1] at hs; cases hs

/-- Instance of C5 (amended): train 58 is granted sensor 0 on the free sample
track; branch 2, reached by the look-ahead, is untouched. -/
theorem grant_acquires_path_only_witness :
    ∃ s1 res,
      TRACK_TRY_RESERVE sample_consts 10 (sample_server nobody 's') ⟨58, 1, fun _ => 0⟩
        = .ok (s1, res) ∧
      res.successful = true ∧
      s1.track 2 = (sample_server nobody 's').track 2 := by
  refine ⟨_, _, rfl, rfl, ?_⟩
  have key := fun s1 res h hs =>
    (grant_acquires_path_only sample_consts 10 (sample_server nobody 's') s1
      ⟨58, 1, fun _ => 0⟩ res h hs).2.1 2
  exact key _ _ rfl rfl (by decide)

/-- C6 fails as stated: before any `TRACK_INIT`, train 58 asks for sensor 0 on the
free sample track. Sensor 0 and branch 2, the only node the look-ahead reaches,
pass every check, yet there is no reply `successful = true`: the look-ahead
meets the unknown position of switch 1 and the server halts. -/
theorem all_checks_pass_but_server_halts :
    TRACK_TRY_RESERVE sample_consts 10 uninitialised_server ⟨58, 1, fun _ => 0⟩
      = .error Halt.crash ∧
    passes_checks sample_consts uninitialised_server.track 58 0 ∧
    lookahead_walk sample_consts uninitialised_server 10 0 0 = [2] ∧
    passes_checks sample_consts uninitialised_server.track 58 2 ∧
    (∀ fuel s1 res,
      TRACK_TRY_RESERVE sample_consts fuel uninitialised_server ⟨58, 1, fun _ => 0⟩
        ≠ .ok (s1, res)) := by
  refine ⟨rfl, by decide, by decide, by decide, ?_⟩
  intro fuel s1 res h
  match fuel, h with
  | 0, h => exact absurd h (by rw [show TRACK_TRY_RESERVE sample_consts 0 uninitialised_server
      ⟨58, 1, fun _ => 0⟩ = .error Halt.spin from rfl]; intro e; cases e)
  | 1, h => exact absurd h (by rw [show TRACK_TRY_RESERVE sample_consts 1 uninitialised_server
      ⟨58, 1, fun _ => 0⟩ = .error Halt.spin from rfl]; intro e; cases e)
  | n + 2, h => exact absurd h (by rw [show TRACK_TRY_RESERVE sample_consts (n + 2)
      uninitialised_server ⟨58, 1, fun _ => 0⟩ = .error Halt.crash from rfl]; intro e; cases e)

/-- C6, amended: whenever `TRACK_TRY_RESERVE` replies (it neither halts nor
loops), the reply has `successful = true` if and only if every node of the path
and every node reached by the look-ahead walk passes all the checks: the node is
unreserved or held by `T`; for a branch, so are both its destinations; for a
merge, so are both destinations of its reverse; for a node numbered 153..156,
so are both destinations of the central branch nodes 116, 118, 120, 122. -/
theorem success_iff_all_checks_pass (cfg : TrackConsts) (fuel : Nat) (s s1 : TrackServer)
    (req : Reservation) (res : ReservationStatus)
    (h : TRACK_TRY_RESERVE cfg fuel s req = .ok (s1, res)) :
    res.successful = true ↔
      (∀ j, j < req.len → passes_checks cfg s.track req.train_id (req.path j)) ∧
      (∀ n, n ∈ lookahead_walk cfg s fuel 0 (req.path (req.len - 1)) →
        passes_checks cfg s.track req.train_id n) := by
  rcases try_reserve_spec h with ⟨hnone, hs, _, _⟩ | ⟨x, hx, hf, _⟩
  · have hp := first_culprit_none_passes hnone
    refine ⟨fun _ => ⟨fun j hj => hp _ (path_mem_examined cfg fuel s req j hj),
      fun n hn => hp n (List.mem_append_right _ hn)⟩, fun _ => hs⟩
  · constructor
    · intro hs
      rw [hf.1] at hs; cases hs
    · rintro ⟨h1, h2⟩
      have : first_culprit cfg s.track req.train_id (examined cfg fuel s req) = none := by
        apply all_pass_first_culprit_none
        intro n hn
        rcases List.mem_append.1 hn with hn | hn
        · obtain ⟨j, hj, rfl⟩ := (mem_path_nodes _ _ _ _).1 hn
          rw [Nat.zero_add]
          exact h1 j hj
        · exact h2 n hn
      rw [this] at hx
      cases hx

/-- Instance of C6 (amended): train 58 asks for sensor 0 while train 71 holds
sensor 4, a destination of branch 2 which the look-ahead reaches. -/
theorem success_iff_all_checks_pass_witness :
    ∃ s1 res,
      TRACK_TRY_RESERVE sample_consts 10 (sample_server train71_on_4 's') ⟨58, 1, fun _ => 0⟩
        = .ok (s1, res) ∧
      res.successful = false ∧
      ¬ passes_checks sample_consts (sample_server train71_on_4 's').track 58 2 ∧
      (res.successful = true ↔
        (∀ j, j < 1 → passes_checks sample_consts (sample_server train71_on_4 's').track 58 0) ∧
        (∀ n, n ∈ lookahead_walk sample_consts (sample_server train71_on_4 's') 10 0 0 →
          passes_checks sample_consts (sample_server train71_on_4 's').track 58 n)) := by
  refine ⟨_, _, rfl, rfl, by decide, ?_⟩
  have key := fun s1 res h =>
    success_iff_all_checks_pass sample_consts 10 (sample_server train71_on_4 's') s1
      ⟨58, 1, fun _ => 0⟩ res h
  exact key _ _ rfl

/-- C7: the deadlock probe. When `TRACK_TRY_RESERVE` by train `T` replies
`successful = false`, the probe was run on the first culprit `x` among the
examined nodes; `x` is held by a train `O` other than `T`, and (train numbers
are never `-1`, the value `detect_deadlock` returns for "no deadlock") the reply
has `dead_lock_detected = true` if and only if some index in `wanted[O]` names a
node whose `reserved_by`, or whose reverse's `reserved_by`, equals `T`. The
wait-for set of `O` is the one from before the request unless `O` shares the
slot of `T`; in particular if it was empty the flag is false. -/
theorem deadlock_probe_verdict (cfg : TrackConsts) (fuel : Nat) (s s1 : TrackServer)
    (req : Reservation) (res : ReservationStatus)
    (hidx : ∀ n, (s.track n).index = n)
    (h : TRACK_TRY_RESERVE cfg fuel s req = .ok (s1, res)) (hf : res.successful = false) :
    ∃ x, first_culprit cfg s.track req.train_id (examined cfg fuel s req) = some x ∧
      (s.track x).reserved_by ≠ cfg.RESERVED_BY_NO_ONE ∧
      (s.track x).reserved_by ≠ req.train_id ∧
      ((s.track x).reserved_by ≠ -1 →
        (res.dead_lock_detected = true ↔
          ∃ it, it ∈ s1.train_wanted_nodes (cfg.train_num_to_index (s.track x).reserved_by) ∧
            ((s.track it).reserved_by = req.train_id ∨
              (s.track (s.track it).reverse).reserved_by = req.train_id))) ∧
      (cfg.train_num_to_index (s.track x).reserved_by ≠ cfg.train_num_to_index req.train_id →
        s1.train_wanted_nodes (cfg.train_num_to_index (s.track x).reserved_by) =
          s.train_wanted_nodes (cfg.train_num_to_index (s.track x).reserved_by)) ∧
      (cfg.train_num_to_index (s.track x).reserved_by ≠ cfg.train_num_to_index req.train_id →
        s.train_wanted_nodes (cfg.train_num_to_index (s.track x).reserved_by) = [] →
        res.dead_lock_detected = false) := by
  rcases try_reserve_spec h with ⟨_, hs, _, _⟩ | ⟨x, hx, ⟨_, _, hheld, hflag⟩, hd⟩
  · rw [hs] at hf; cases hf
  · obtain ⟨n, _, hc⟩ := first_culprit_some_fails hx
    have hnr := culprit_not_reservable cfg s.track req.train_id n x hidx hc
    have hother : (s.track x).reserved_by ≠ req.train_id := fun e => hnr (Or.inr e)
    have hprobe := probe_hit_iff cfg s1 (s.track x).reserved_by req.train_id
    rw [hd.1] at hprobe
    simp only [Bool.false_or] at hflag
    refine ⟨x, hx, hheld, hother, ?_, hd.2.2.2.2.2 _, ?_⟩
    · intro hne
      rw [hflag, ← hprobe]
      simp [hne]
    · intro hslot hempty
      rw [hflag]
      have : probe_hit cfg s1 (s.track x).reserved_by req.train_id = false := by
        unfold probe_hit
        rw [hd.2.2.2.2.2 _ hslot, hempty]
        rfl
      rw [this, Bool.and_false]

/-- Instance of C7: train 58 asks for sensor 0 while train 71, which wants
nothing, holds sensor 4: the culprit is node 4 and no deadlock is reported. -/
theorem deadlock_probe_verdict_witness :
    ∃ s1 res,
      TRACK_TRY_RESERVE sample_consts 10 (sample_server train71_on_4 's') ⟨58, 1, fun _ => 0⟩
        = .ok (s1, res) ∧
      res.successful = false ∧ res.dead_lock_detected = false ∧
      ∃ x, first_culprit sample_consts (sample_server train71_on_4 's').track 58
          (examined sample_consts 10 (sample_server train71_on_4 's') ⟨58, 1, fun _ => 0⟩)
            = some x ∧
        ((sample_server train71_on_4 's').track x).reserved_by ≠ 58 := by
  refine ⟨_, _, rfl, rfl, rfl, ?_⟩
  have key := fun s1 res h hf =>
    deadlock_probe_verdict sample_consts 10 (sample_server train71_on_4 's') s1
      ⟨58, 1, fun _ => 0⟩ res (sample_index train71_on_4) h hf
  obtain ⟨x, h1, _, h3, _⟩ := key _ _ rfl rfl
  exact ⟨x, h1, h3⟩

/-- C8: two-train deadlock is reported. Distinct trains `T1`, `T2` (with
distinct wait-for slots, and `T2` not numbered `-1`); `T1` holds node `X`, `T2`
holds node `Y`, every node has the owner of its reverse. `T2` asks for a path
starting at the reverse of `X`: a reply is produced and it is a refusal. `T1`
then asks for a path starting at the reverse of `Y`: a reply is produced, and it
is `successful = false` with `dead_lock_detected = true`. -/
theorem crossing_requests_report_deadlock (cfg : TrackConsts) (fuel2 fuel1 : Nat)
    (s : TrackServer) (T1 T2 : Int) (X Y : Nat) (len2 len1 : Nat) (path2 path1 : Nat → Nat)
    (hT : T1 ≠ T2)
    (hslot : cfg.train_num_to_index T1 ≠ cfg.train_num_to_index T2)
    (hT1 : T1 ≠ cfg.RESERVED_BY_NO_ONE) (hT2 : T2 ≠ cfg.RESERVED_BY_NO_ONE)
    (hT2num : T2 ≠ -1)
    (hX : (s.track X).reserved_by = T1) (hY : (s.track Y).reserved_by = T2)
    (hmirror : ∀ n, (s.track (s.track n).reverse).reserved_by = (s.track n).reserved_by)
    (hidx : ∀ n, (s.track n).index = n)
    (hlen2 : 1 ≤ len2) (hlen1 : 1 ≤ len1)
    (hp2 : path2 0 = (s.track X).reverse) (hp1 : path1 0 = (s.track Y).reverse) :
    ∃ sA resA,
      TRACK_TRY_RESERVE cfg fuel2 s ⟨T2, len2, path2⟩ = .ok (sA, resA) ∧
      resA.successful = false ∧
      ∃ sB resB,
        TRACK_TRY_RESERVE cfg fuel1 sA ⟨T1, len1, path1⟩ = .ok (sB, resB) ∧
        resB.successful = false ∧ resB.dead_lock_detected = true := by
  have hXr : (s.track (path2 0)).reserved_by = T1 := by rw [hp2, hmirror, hX]
  have hYr : (s.track (path1 0)).reserved_by = T2 := by rw [hp1, hmirror, hY]
  have hb2 : can_reserve cfg (s.track (path2 0)) T2 = false := by
    unfold can_reserve
    rw [hXr]
    simp [hT1, hT]
  obtain ⟨resA, hA, hsA, _⟩ := try_reserve_first_blocked cfg fuel2 s T2 len2 path2 hlen2 hb2
  refine ⟨_, resA, hA, hsA, ?_⟩
  have hb1 : can_reserve cfg
      ((wanted_insert (wanted_clear s (cfg.train_num_to_index T2))
        (cfg.train_num_to_index T2) (s.track (path2 0)).index).track (path1 0)) T1 = false := by
    show can_reserve cfg (s.track (path1 0)) T1 = false
    unfold can_reserve
    rw [hYr]
    simp [hT2, Ne.symm hT]
  obtain ⟨resB, hB, hsB, hdB⟩ := try_reserve_first_blocked cfg fuel1 _ T1 len1 path1 hlen1 hb1
  refine ⟨_, resB, hB, hsB, ?_⟩
  rw [hdB]
  show (decide ((s.track (path1 0)).reserved_by ≠ -1) && probe_hit cfg _
    (s.track (path1 0)).reserved_by T1) = true
  rw [hYr]
  have hprobe : probe_hit cfg
      (wanted_insert (wanted_clear (wanted_insert (wanted_clear s (cfg.train_num_to_index T2))
        (cfg.train_num_to_index T2) (s.track (path2 0)).index) (cfg.train_num_to_index T1))
        (cfg.train_num_to_index T1)
        ((wanted_insert (wanted_clear s (cfg.train_num_to_index T2))
          (cfg.train_num_to_index T2) (s.track (path2 0)).index).track (path1 0)).index)
      T2 T1 = true := by
    rw [probe_hit_iff]
    refine ⟨path2 0, ?_, Or.inl hXr⟩
    simp [wanted_insert, wanted_clear, Function.update_noteq (Ne.symm hslot), hidx]
  rw [hprobe]
  simp [hT2num]

/-- Instance of C8: train 58 holds sensor 0, train 71 holds sensor 4; train 71
asks for sensor 1 (the reverse of 0), then train 58 asks for sensor 5 (the
reverse of 4). -/
theorem crossing_requests_report_deadlock_witness :
    ∃ sA resA,
      TRACK_TRY_RESERVE sample_consts 10 (sample_server crossing_trains 's')
        ⟨71, 1, fun _ => 1⟩ = .ok (sA, resA) ∧
      resA.successful = false ∧
      ∃ sB resB,
        TRACK_TRY_RESERVE sample_consts 10 sA ⟨58, 1, fun _ => 5⟩ = .ok (sB, resB) ∧
        resB.successful = false ∧ resB.dead_lock_detected = true :=
  crossing_requests_report_deadlock sample_consts 10 10 (sample_server crossing_trains 's')
    58 71 0 4 1 1 (fun _ => 1) (fun _ => 5) (by decide) (by decide) (by decide) (by decide)
    (by decide) rfl rfl sample_mirror_crossing (sample_index crossing_trains) (by decide)
    (by decide) rfl rfl

/-- C9: `TRACK_UNRESERVE` halts fatally if and only if, processing the path in
order, some listed node is unreserved or held by somebody other than `T` at the
moment it is reached (after the entries before it have been released).
Otherwise it returns, and afterwards every listed node and its reverse are
unreserved while every node that is neither listed nor the reverse of a listed
node is unchanged, as is the rest of the server state. -/
theorem unreserve_halts_iff_not_owned (cfg : TrackConsts) (s : TrackServer) (req : Reservation) :
    (TRACK_UNRESERVE cfg s req = .error Halt.crash ↔
      ∃ j, j < req.len ∧
        ((released cfg req.path j s.track (req.path j)).reserved_by = cfg.RESERVED_BY_NO_ONE ∨
          (released cfg req.path j s.track (req.path j)).reserved_by ≠ req.train_id)) ∧
    (TRACK_UNRESERVE cfg s req = .error Halt.crash ∨
      ∃ s1, TRACK_UNRESERVE cfg s req = .ok s1 ∧
        (∀ j, j < req.len →
          (s1.track (req.path j)).reserved_by = cfg.RESERVED_BY_NO_ONE ∧
          (s1.track (s.track (req.path j)).reverse).reserved_by = cfg.RESERVED_BY_NO_ONE) ∧
        (∀ m, (∀ j, j < req.len → m ≠ req.path j ∧ m ≠ (s.track (req.path j)).reverse) →
          s1.track m = s.track m) ∧
        s1.train_wanted_nodes = s.train_wanted_nodes ∧ s1.switch_state = s.switch_state ∧
        s1.switch_subscriber = s.switch_subscriber ∧
        s1.courier_requests = s.courier_requests ∧
        s1.subscriber_replies = s.subscriber_replies) := by
  have hspec := unreserve_loop_spec cfg req.path req.train_id req.len 0 s.track
  simp only [Nat.zero_add] at hspec
  unfold TRACK_UNRESERVE released
  rcases hspec with ⟨he, j, hj, hbad⟩ | ⟨he, hgood⟩
  · rw [he]
    exact ⟨⟨fun _ => ⟨j, hj, hbad⟩, fun _ => rfl⟩, Or.inl rfl⟩
  · rw [he]
    refine ⟨⟨fun hc => (by cases hc), ?_⟩, Or.inr ⟨_, rfl, ?_, ?_, rfl, rfl, rfl, rfl, rfl⟩⟩
    · rintro ⟨j, hj, hbad⟩
      exact absurd hbad (hgood j hj)
    · intro j hj
      have ho := write_pairs_owner req.path cfg.RESERVED_BY_NO_ONE cfg.RESERVED_BY_NO_ONE
        cfg.RESERVED_BY_NO_ONE req.len 0 s.track j hj
      rw [Nat.zero_add] at ho
      exact ho
    · intro m hm
      apply write_pairs_other
      intro j hj
      rw [Nat.zero_add]
      exact hm j hj

/-- C10 fails as stated: from the free sample track, train 58 is granted
sensor 0 followed by its reverse, sensor 1; the `TRACK_UNRESERVE` of the same
path then halts, because releasing node 0 already released node 1. -/
theorem release_of_granted_path_halts :
    (∀ j, j < 2 →
      ((sample_server nobody 's').track j).reserved_by = sample_consts.RESERVED_BY_NO_ONE) ∧
    ∃ s1 res,
      TRACK_TRY_RESERVE sample_consts 10 (sample_server nobody 's') ⟨58, 2, fun i => i⟩
        = .ok (s1, res) ∧
      res.successful = true ∧
      TRACK_UNRESERVE sample_consts s1 ⟨58, 2, fun i => i⟩ = .error Halt.crash :=
  ⟨fun _ _ => rfl, _, _, rfl, rfl, rfl⟩

/-- C10, amended: grant then release is a round trip for a train `T` (not the
"no one" value) and a path that lists no node twice and no node together with
its reverse, granted from a state in which the nodes of the path and their
reverses are unreserved: the `TRACK_UNRESERVE` of the same path issued next
does not halt and restores every node's `reserved_by`. -/
theorem grant_then_release_round_trip (cfg : TrackConsts) (fuel : Nat) (s s1 : TrackServer)
    (req : Reservation) (res : ReservationStatus)
    (hT : req.train_id ≠ cfg.RESERVED_BY_NO_ONE)
    (hfree : ∀ j, j < req.len →
      (s.track (req.path j)).reserved_by = cfg.RESERVED_BY_NO_ONE ∧
      (s.track (s.track (req.path j)).reverse).reserved_by = cfg.RESERVED_BY_NO_ONE)
    (hdistinct : ∀ j, j < req.len → ∀ i, i < j →
      req.path j ≠ req.path i ∧ req.path j ≠ (s.track (req.path i)).reverse)
    (h : TRACK_TRY_RESERVE cfg fuel s req = .ok (s1, res)) (hs : res.successful = true) :
    ∃ s2, TRACK_UNRESERVE cfg s1 req = .ok s2 ∧
      ∀ m, (s2.track m).reserved_by = (s.track m).reserved_by := by
  rcases try_reserve_spec h with ⟨_, _, _, ht⟩ | ⟨x, _, hf, _⟩
  · have hrevs : ∀ m, (s1.track m).reverse = (s.track m).reverse := by
      intro m; rw [ht]; exact (write_pairs_layout _ _ _ _ _ _ _ m).1
    have hspec := unreserve_loop_spec cfg req.path req.train_id req.len 0 s1.track
    simp only [Nat.zero_add] at hspec
    unfold TRACK_UNRESERVE
    rcases hspec with ⟨_, j, hj, hbad⟩ | ⟨he, _⟩
    · exfalso
      unfold not_owned at hbad
      rw [write_pairs_other] at hbad
      · have ho := (write_pairs_owner req.path req.train_id cfg.DIRECT_RESERVE
          cfg.REVERSE_RESERVE req.len 0 s.track j hj).1
        rw [Nat.zero_add, ← ht] at ho
        rw [ho] at hbad
        rcases hbad with hbad | hbad
        · exact hT hbad
        · exact hbad rfl
      · intro i hi
        rw [Nat.zero_add, hrevs]
        exact hdistinct j hj i hi
    · rw [he]
      refine ⟨_, rfl, ?_⟩
      intro m
      show (write_pairs req.path cfg.RESERVED_BY_NO_ONE cfg.RESERVED_BY_NO_ONE
        cfg.RESERVED_BY_NO_ONE req.len 0 s1.track m).reserved_by = _
      by_cases hm : ∃ j, j < req.len ∧ (m = req.path j ∨ m = (s.track (req.path j)).reverse)
      · obtain ⟨j, hj, hm⟩ := hm
        have ho := write_pairs_owner req.path cfg.RESERVED_BY_NO_ONE cfg.RESERVED_BY_NO_ONE
          cfg.RESERVED_BY_NO_ONE req.len 0 s1.track j hj
        rw [Nat.zero_add, hrevs] at ho
        rcases hm with rfl | rfl
        · rw [ho.1, (hfree j hj).1]
        · rw [ho.2, (hfree j hj).2]
      · have hm1 : ∀ j, j < req.len →
            m ≠ req.path j ∧ m ≠ (s.track (req.path j)).reverse := by
          intro j hj
          exact ⟨fun e => hm ⟨j, hj, Or.inl e⟩, fun e => hm ⟨j, hj, Or.inr e⟩⟩
        rw [write_pairs_other, ht, write_pairs_other]
        · intro j hj; rw [Nat.zero_add]; exact hm1 j hj
        · intro j hj; rw [Nat.zero_add, hrevs]; exact hm1 j hj
  · rw [hf.1] at hs; cases hs

/-- Instance of C10 (amended): train 58 is granted, then releases, sensor 0,
branch 2 and sensor 4 of the free sample track. -/
theorem grant_then_release_round_trip_witness :
    ∃ s1 res,
      TRACK_TRY_RESERVE sample_consts 10 (sample_server nobody 's')
        ⟨58, 3, fun i => [0, 2, 4].getD i 0⟩ = .ok (s1, res) ∧
      res.successful = true ∧
      ∃ s2, TRACK_UNRESERVE sample_consts s1 ⟨58, 3, fun i => [0, 2, 4].getD i 0⟩ = .ok s2 ∧
        ∀ m, (s2.track m).reserved_by = ((sample_server nobody 's').track m).reserved_by := by
  refine ⟨_, _, rfl, rfl, ?_⟩
  have key := fun s1 res h hs =>
    grant_then_release_round_trip sample_consts 10 (sample_server nobody 's') s1
      ⟨58, 3, fun i => [0, 2, 4].getD i 0⟩ res (by decide) (fun _ _ => ⟨rfl, rfl⟩)
      (by decide) h hs
  exact key _ _ rfl rfl

/-- C11, as stated, fails on a route that passes the same branch twice: on the
loop track the route `2 → 4 → 2 → 8` follows track edges, is granted to train
58, its position 0 is the branch followed by its STRAIGHT destination, and yet
the recorded position of that branch's switch is `'c'` afterwards. -/
theorem branch_passed_twice_ends_curved :
    ∃ s1 res, TRACK_TRY_RESERVE sample_consts 10 loop_server
        { train_id := 58, len := 4, path := loop_route } = .ok (s1, res) ∧
      res.successful = true ∧
      (∀ i, i < 4 - 1 → joined sample_consts loop_track (loop_route i) (loop_route (i + 1))) ∧
      (loop_track (loop_route 0)).type = node_type.NODE_BRANCH ∧
      loop_route 1 = ((loop_track (loop_route 0)).edge sample_consts.DIR_STRAIGHT).dest ∧
      slot_of loop_track (loop_route 0) = 0 ∧
      s1.switch_state 0 = 'c' ∧ s1.switch_state 0 ≠ 's' :=
  ⟨_, _, rfl, rfl, by decide, rfl, rfl, rfl, rfl, by decide⟩

/-- C11, amended: after a successful `TRY_RESERVE(T, P)`, for every position
`i < len - 1` at which `P[i]` is a branch whose switch slot is written by no
branch at a later position of `P`, the recorded position of the switch of
`P[i]` is `'s'` if `P[i+1]` is the STRAIGHT destination of `P[i]`, and `'c'` if
`P[i+1]` is its CURVED destination and not its STRAIGHT one. -/
theorem grant_sets_switches_along_path (cfg : TrackConsts) (fuel : Nat) (s s1 : TrackServer)
    (req : Reservation) (res : ReservationStatus)
    (h : TRACK_TRY_RESERVE cfg fuel s req = .ok (s1, res)) (hs : res.successful = true)
    (i : Nat) (hi : i < req.len - 1)
    (hb : (s.track (req.path i)).type = node_type.NODE_BRANCH)
    (hlater : ∀ j, j < req.len → i < j → (s.track (req.path j)).type = node_type.NODE_BRANCH →
      ¬ writes_slot (to_char (s.track (req.path j)).num) (slot_of s.track (req.path i))) :
    (req.path (i + 1) = ((s.track (req.path i)).edge cfg.DIR_STRAIGHT).dest →
      s1.switch_state (slot_of s.track (req.path i)) = 's') ∧
    (req.path (i + 1) = ((s.track (req.path i)).edge cfg.DIR_CURVED).dest →
      req.path (i + 1) ≠ ((s.track (req.path i)).edge cfg.DIR_STRAIGHT).dest →
      s1.switch_state (slot_of s.track (req.path i)) = 'c') := by
  obtain ⟨s2, s4, hd, hg, rfl⟩ := try_reserve_granted h hs
  have hlay : same_layout (wanted_clear s2 (cfg.train_num_to_index req.train_id)).track s.track := by
    show same_layout s2.track s.track
    rw [hd.1]
    exact same_layout_refl _
  have key := (grant_loop_throws s.track i req.len 0 _ _ _ _ hg hlay (Nat.zero_le _) (by omega) hb
    (fun j h1 h2 => hlater j (by omega) h2)).1
  show (_ → s4.switch_state _ = _) ∧ (_ → _ → s4.switch_state _ = _)
  constructor
  · intro he; rw [key, if_pos he]
  · intro _ hne; rw [key, if_neg hne]

/-- Instance of C11: on the sample track with every switch at `'s'`, the route
`0 → 2 → 8` is granted to train 58; position 1 is the branch, followed by its
CURVED destination, and the switch of the branch is recorded as `'c'`. -/
theorem grant_sets_switches_along_path_witness :
    ∃ s1 res, TRACK_TRY_RESERVE sample_consts 10 (sample_server nobody 's')
        { train_id := 58, len := 3, path := fun i => if i = 0 then 0 else if i = 1 then 2 else 8 }
          = .ok (s1, res) ∧
      res.successful = true ∧
      (sample_server nobody 's').switch_state 0 = 's' ∧
      s1.switch_state (slot_of (sample_track nobody) 2) = 'c' := by
  refine ⟨_, _, rfl, rfl, rfl, ?_⟩
  have key := fun s1 res h hs =>
    (grant_sets_switches_along_path sample_consts 10 (sample_server nobody 's') s1
      { train_id := 58, len := 3, path := fun i => if i = 0 then 0 else if i = 1 then 2 else 8 }
      res h hs 1 (by decide) rfl (by decide)).2
  exact key _ _ rfl rfl rfl (by decide)

/-- C12: the `res_dist` of a `TRY_RESERVE` reply is 0 when the request is
refused. When it is granted, the consecutive nodes of the path are joined by
track edges and the last node is not a branch, `res_dist` is the sum over
`i < len - 1` of the distance of `edge_to P[i] P[i+1]`, which is an edge of
`P[i]` that leads to `P[i+1]`. -/
theorem reply_distance_is_path_length (cfg : TrackConsts) (fuel : Nat) (s s1 : TrackServer)
    (req : Reservation) (res : ReservationStatus)
    (h : TRACK_TRY_RESERVE cfg fuel s req = .ok (s1, res)) :
    (res.successful = false → res.res_dist = 0) ∧
    (res.successful = true →
      (∀ i, i < req.len - 1 → joined cfg s.track (req.path i) (req.path (i + 1))) →
      (s.track (req.path (req.len - 1))).type ≠ node_type.NODE_BRANCH →
      res.res_dist =
        ((List.range (req.len - 1)).map
          (fun i => (edge_to cfg s.track (req.path i) (req.path (i + 1))).dist)).sum ∧
      ∀ i, i < req.len - 1 →
        (edge_to cfg s.track (req.path i) (req.path (i + 1))).dest = req.path (i + 1)) := by
  constructor
  · intro hf
    rcases try_reserve_spec h with ⟨_, hs, _⟩ | ⟨x, _, hx, _⟩
    · rw [hf] at hs; cases hs
    · exact hx.2.1
  · intro hs hjoin hlast
    obtain ⟨s2, s4, hd, hg, _⟩ := try_reserve_granted h hs
    have hlay : same_layout (wanted_clear s2 (cfg.train_num_to_index req.train_id)).track
        s.track := by
      show same_layout s2.track s.track
      rw [hd.1]
      exact same_layout_refl _
    have key := grant_loop_dist s.track req.len 0 _ _ _ _ hg hlay (Nat.zero_add _) hlast
    refine ⟨?_, fun i hi => edge_to_dest (hjoin i hi)⟩
    rw [key, List.range_eq_range']
    simp

/-- Instance of C12: the route `0 → 2 → 4` of the sample track is granted with
`res_dist = 200 + 400`, and refused with `res_dist = 0` when train 71 holds node 4. -/
theorem reply_distance_is_path_length_witness :
    (∃ s1 res, TRACK_TRY_RESERVE sample_consts 10 (sample_server nobody 's')
        { train_id := 58, len := 3, path := fun i => 2 * i } = .ok (s1, res) ∧
      res.successful = true ∧ res.res_dist = 200 + 400 ∧
      res.res_dist =
        ((List.range (3 - 1)).map
          (fun i => (edge_to sample_consts (sample_track nobody) (2 * i) (2 * (i + 1))).dist)).sum) ∧
    (∃ s1 res, TRACK_TRY_RESERVE sample_consts 10 (sample_server train71_on_4 's')
        { train_id := 58, len := 3, path := fun i => 2 * i } = .ok (s1, res) ∧
      res.successful = false ∧ res.res_dist = 0) := by
  refine ⟨⟨_, _, rfl, rfl, rfl, ?_⟩, ⟨_, _, rfl, rfl, ?_⟩⟩
  · have key := fun s1 res h hs =>
      ((reply_distance_is_path_length sample_consts 10 (sample_server nobody 's') s1
        { train_id := 58, len := 3, path := fun i => 2 * i } res h).2 hs (by decide)
        (by decide)).1
    exact key _ _ rfl rfl
  · have key := fun s1 res h =>
      (reply_distance_is_path_length sample_consts 10 (sample_server train71_on_4 's') s1
        { train_id := 58, len := 3, path := fun i => 2 * i } res h).1
    exact key _ _ rfl rfl

/-- C13: `SWITCH(id, dir)`. If the recorded position of `id` already equals
`dir` the request changes nothing: the state, the courier log and the
subscriber queue are as before. Otherwise the recorded position of `id` becomes
`dir`, the command `(id, dir)` is the next one handed to a courier, and every
parked subscriber is replied to with the new table and leaves the queue. In
both cases the same request issued again changes nothing. (For a valid id the
slot `get_switch_id_to_index id` is the slot of `id`; the statement holds for
every byte `id`.) -/
theorem switch_request_effect (s : TrackServer) (id : Nat) (dir : Char) :
    (s.switch_state (get_switch_id_to_index id) = dir → TRACK_SWITCH s id dir = .ok s) ∧
    (s.switch_state (get_switch_id_to_index id) ≠ dir →
      ∃ s1 rest, TRACK_SWITCH s id dir = .ok s1 ∧
        s1.switch_state (get_switch_id_to_index id) = dir ∧
        s1.courier_requests = s.courier_requests ++ (id, dir) :: rest ∧
        s1.switch_subscriber = [] ∧
        s1.subscriber_replies =
          s.subscriber_replies ++ s.switch_subscriber.map (fun tid => (tid, s1.switch_state))) ∧
    (∃ s1, TRACK_SWITCH s id dir = .ok s1 ∧ TRACK_SWITCH s1 id dir = .ok s1) := by
  refine ⟨?_, ?_, ?_⟩
  · intro h
    rw [track_switch_eq, if_neg (not_not.2 h)]
  · intro h
    rw [track_switch_eq, if_pos h]
    refine ⟨_, (pipe_commands s.switch_state id dir).tail, rfl, pipe_table_own _ _ _, ?_, rfl, rfl⟩
    show s.courier_requests ++ pipe_commands s.switch_state id dir = _
    unfold pipe_commands
    rw [if_pos h]
    split <;> rfl
  · by_cases h : s.switch_state (get_switch_id_to_index id) = dir
    · refine ⟨s, ?_, ?_⟩ <;> rw [track_switch_eq, if_neg (not_not.2 h)]
    · refine ⟨_, by rw [track_switch_eq, if_pos h], ?_⟩
      rw [track_switch_eq, if_neg]
      rw [not_not]
      exact pipe_table_own _ _ _

/-- C14: the central-pair invariant. Starting from a switch table that is
unknown everywhere, after any sequence of requests in which every `SWITCH`
carries direction `'s'` or `'c'`, the recorded positions of the central pair
(153, 154), and likewise of (155, 156), are both unknown or one is `'s'` and
the other `'c'`. -/
theorem central_pairs_complementary (cfg : TrackConsts) (tb : TrackTables)
    (s0 s : TrackServer) (reqs : List TrackRequest)
    (hinit : ∀ slot, s0.switch_state slot = Char.ofNat 0)
    (hdirs : ∀ id dir, TrackRequest.SWITCH id dir ∈ reqs → dir = 's' ∨ dir = 'c')
    (h : serve_all cfg tb s0 reqs = .ok s) :
    central_pair_ok s.switch_state 153 154 ∧ central_pair_ok s.switch_state 155 156 := by
  have key : ∀ (reqs : List TrackRequest) (s0 s : TrackServer),
      (∀ id dir, TrackRequest.SWITCH id dir ∈ reqs → dir = 's' ∨ dir = 'c') →
      serve_all cfg tb s0 reqs = .ok s →
      central_pair_ok s0.switch_state 153 154 ∧ central_pair_ok s0.switch_state 155 156 →
      central_pair_ok s.switch_state 153 154 ∧ central_pair_ok s.switch_state 155 156 := by
    intro reqs
    induction reqs with
    | nil =>
      intro s0 s _ h hq
      simp only [serve_all, Except.ok.injEq] at h
      subst h
      exact hq
    | cons r rest ih =>
      intro s0 s hd h hq
      simp only [serve_all] at h
      split at h
      · cases h
      · rename_i s1 hr
        refine ih s1 s (fun id dir hm => hd id dir (List.mem_cons_of_mem _ hm)) h ?_
        exact serve_switch_inv (fun dir => dir = 's' ∨ dir = 'c') (Or.inl rfl) (Or.inr rfl)
          (fun f _ => central_pair_ok f 153 154 ∧ central_pair_ok f 155 156)
          (fun f _ sw dir hdir hp =>
            ⟨pipe_table_pair_ok f sw dir 153 154 (Or.inl ⟨rfl, rfl⟩) hdir hp.1,
              pipe_table_pair_ok f sw dir 155 156 (Or.inr ⟨rfl, rfl⟩) hdir hp.2⟩)
          s0 s1 r (fun id dir e => hd id dir (by rw [e]; exact List.mem_cons_self _ _)) hr hq
  exact key reqs s0 s hdirs h
    ⟨Or.inl ⟨hinit _, hinit _⟩, Or.inl ⟨hinit _, hinit _⟩⟩

/-- Instance of C14: before any initialisation, switch 154 is thrown to `'s'`,
then switch 153 to `'s'`. -/
theorem central_pairs_complementary_witness :
    ∃ s, serve_all sample_consts sample_tables uninitialised_server
        [TrackRequest.SWITCH 154 's', TrackRequest.SWITCH 153 's'] = .ok s ∧
      s.switch_state 18 = 's' ∧ s.switch_state 19 = 'c' ∧
      central_pair_ok s.switch_state 153 154 ∧ central_pair_ok s.switch_state 155 156 := by
  refine ⟨_, rfl, rfl, rfl, ?_⟩
  have key := fun s h =>
    central_pairs_complementary sample_consts sample_tables uninitialised_server s
      [TrackRequest.SWITCH 154 's', TrackRequest.SWITCH 153 's'] (fun _ => rfl)
      (by
        intro id dir hm
        simp only [List.mem_cons, TrackRequest.SWITCH.injEq, List.mem_singleton,
          List.not_mem_nil, or_false] at hm
        rcases hm with ⟨_, rfl⟩ | ⟨_, rfl⟩ <;> exact Or.inl rfl) h
  exact key _ rfl

/-- C15: with 22 switch slots and distinct track identifiers, `INIT` is served
for both tracks whatever the switch table was. After `INIT(track A)` every slot
holds `'c'` except slots 18 and 20, which hold `'s'`; after `INIT(track B)`
every slot holds `'s'` except slots 4, 6, 18 and 20, which hold `'c'`. -/
theorem init_resets_switch_table (tb : TrackTables) (s : TrackServer)
    (hnum : tb.NUM_SWITCHES = 22) (hid : tb.TRACK_A_ID ≠ tb.TRACK_B_ID) :
    (∃ s1, TRACK_INIT tb s tb.TRACK_A_ID = .ok s1 ∧
      ∀ slot, slot < 22 →
        s1.switch_state slot = if slot = 18 ∨ slot = 20 then 's' else 'c') ∧
    (∃ s1, TRACK_INIT tb s tb.TRACK_B_ID = .ok s1 ∧
      ∀ slot, slot < 22 →
        s1.switch_state slot =
          if slot = 4 ∨ slot = 6 ∨ slot = 18 ∨ slot = 20 then 'c' else 's') := by
  constructor
  · obtain ⟨s1, h1, h2⟩ := init_switch_loop_table tracka_new_switch_state rfl rfl 22 0
      { s with track := tb.init_tracka s.track } (le_refl _) (fun _ h => absurd h (Nat.not_lt_zero _))
    refine ⟨reply_to_switch_subs s1, ?_, fun slot hslot => h2 slot (by omega)⟩
    simp only [TRACK_INIT, if_true, tracka_initialization_sequence, hnum, h1]
  · obtain ⟨s1, h1, h2⟩ := init_switch_loop_table trackb_new_switch_state rfl rfl 22 0
      { s with track := tb.init_trackb s.track } (le_refl _) (fun _ h => absurd h (Nat.not_lt_zero _))
    refine ⟨reply_to_switch_subs s1, ?_, fun slot hslot => h2 slot (by omega)⟩
    simp only [TRACK_INIT, if_neg (Ne.symm hid), if_true, trackb_initialization_sequence, hnum, h1]

/-- Instance of C15: from a table with every switch at `'s'`, `INIT(track A)`
leaves slot 0 at `'c'`, slot 18 at `'s'` and slot 19 at `'c'`, and
`INIT(track B)` from the unknown table leaves slot 4 at `'c'` and slot 19 at `'s'`. -/
theorem init_resets_switch_table_witness :
    sample_tables.NUM_SWITCHES = 22 ∧ sample_tables.TRACK_A_ID ≠ sample_tables.TRACK_B_ID ∧
    (∃ s1, TRACK_INIT sample_tables (sample_server nobody 's') sample_tables.TRACK_A_ID = .ok s1 ∧
      ∀ slot, slot < 22 →
        s1.switch_state slot = if slot = 18 ∨ slot = 20 then 's' else 'c') ∧
    (∃ s1, TRACK_INIT sample_tables (sample_server nobody 's') sample_tables.TRACK_B_ID = .ok s1 ∧
      ∀ slot, slot < 22 →
        s1.switch_state slot =
          if slot = 4 ∨ slot = 6 ∨ slot = 18 ∨ slot = 20 then 'c' else 's') :=
  ⟨rfl, by decide, init_resets_switch_table sample_tables (sample_server nobody 's') rfl (by decide)⟩

/-- What holds of every request, whatever the ids it carries. (1) Each call
of `pipe_sw` appends to the courier log one command for every slot it changes,
naming the slot (through `get_switch_id_to_index`, and by the slot's own id
when the id is a valid one) and carrying its new direction. (2) For a whole
request, every slot whose recorded position differs at the end is named by a
command emitted during the request that carries the final position, and then
every subscriber parked before the request has been replied to with the final
switch table and the subscriber queue is empty. -/
theorem switch_changes_are_announced (cfg : TrackConsts) (tb : TrackTables)
    (s s1 : TrackServer) (r : TrackRequest) (h : serve cfg tb s r = .ok s1) :
    (∀ (s2 : TrackServer) (id : Nat) (dir : Char),
      ∃ s3 changed cmds, pipe_sw s2 id dir = .ok (s3, changed) ∧
        s3.courier_requests = s2.courier_requests ++ cmds ∧
        announces s2.switch_state s3.switch_state cmds) ∧
    (∃ cmds, s1.courier_requests = s.courier_requests ++ cmds ∧
      announces s.switch_state s1.switch_state cmds) ∧
    ((∃ slot, s1.switch_state slot ≠ s.switch_state slot) →
      s1.switch_subscriber = [] ∧
      s1.subscriber_replies =
        s.subscriber_replies ++ s.switch_subscriber.map (fun tid => (tid, s1.switch_state))) := by
  have hrefl : ∀ f : Nat → Char, announces f f [] := fun f slot hne => absurd rfl hne
  refine ⟨?_, ?_, serve_subscribers s s1 r h⟩
  · intro s2 id dir
    refine ⟨_, _, pipe_commands s2.switch_state id dir, pipe_sw_eq s2 id dir, rfl, ?_⟩
    have := announces_step s2.switch_state s2.switch_state [] id dir (hrefl _)
    simpa using this
  · refine serve_switch_inv (fun _ => True) trivial trivial
      (fun f log => ∃ cmds, log = s.courier_requests ++ cmds ∧ announces s.switch_state f cmds)
      ?_ s s1 r (fun _ _ _ => trivial) h ⟨[], by simp, hrefl _⟩
    rintro f log sw dir _ ⟨cmds, rfl, ha⟩
    exact ⟨cmds ++ pipe_commands f sw dir, by simp, announces_step _ _ _ _ _ ha⟩

/-- An instance: with task 7 subscribed and every switch at `'s'`,
`SWITCH(153, 'c')` changes slots 18 and 19, emits a command for each, and
replies to task 7. -/
theorem switch_changes_are_announced_witness :
    ∃ s1, serve sample_consts sample_tables (sample_server nobody 's')
        (TrackRequest.SWITCH 153 'c') = .ok s1 ∧
      s1.courier_requests = [(153, 'c'), (154, 's')] ∧
      s1.switch_state 18 = 'c' ∧ s1.switch_state 19 = 's' ∧
      s1.switch_subscriber = [] ∧
      s1.subscriber_replies = [(7, s1.switch_state)] := by
  refine ⟨_, rfl, rfl, rfl, rfl, ?_⟩
  have key := fun s1 h =>
    (switch_changes_are_announced sample_consts sample_tables (sample_server nobody 's') s1
      (TrackRequest.SWITCH 153 'c') h).2.2
  exact key _ rfl ⟨18, by decide⟩

/-- C16, evaluated: with every switch at `s` and task 7 subscribed,
`SWITCH(19, 'c')` changes the recorded position of switch 1 (slot 0) from `s`
to `c` and no other slot; the one command handed to a courier carries the id
19, so no command carries the id of the switch whose recorded position
changed. Task 7 is replied to and the subscriber queue is emptied. -/
theorem change_of_switch_1_is_announced_as_19 :
    ∃ s1, serve sample_consts sample_tables (sample_server nobody 's')
        (TrackRequest.SWITCH 19 'c') = .ok s1 ∧
      (sample_server nobody 's').switch_state 0 = 's' ∧ s1.switch_state 0 = 'c' ∧
      (∀ slot, slot ≠ 0 → s1.switch_state slot = 's') ∧
      get_switch_index_to_id 0 = 1 ∧
      s1.courier_requests = [(19, 'c')] ∧
      (∀ cmd, cmd ∈ s1.courier_requests → cmd.1 ≠ get_switch_index_to_id 0) ∧
      s1.switch_subscriber = [] ∧ s1.subscriber_replies = [(7, s1.switch_state)] := by
  refine ⟨_, rfl, rfl, rfl, fun slot hs => ?_, rfl, rfl, fun cmd hc => ?_, rfl, rfl⟩
  · show Function.update (fun _ => 's') 0 'c' slot = 's'
    rw [Function.update_noteq hs]
  · have : cmd = (19, 'c') := List.mem_singleton.1 hc
    rw [this]
    decide

/-- C17, evaluated: the slots a `SWITCH(id, dir)` can change are
`get_switch_id_to_index id` and, for a central switch, the slot of its partner.
For an id the track does not have, such as 19, that slot is slot 0, which
belongs to switch 1: `SWITCH(19, 'c')` with every switch at `'s'` rewrites the
recorded position of switch 1 and hands a command for switch 19 to a courier. -/
theorem switch_of_unknown_id_rewrites_switch_1 :
    (∀ (s s1 : TrackServer) (id : Nat) (dir : Char) (slot : Nat),
      TRACK_SWITCH s id dir = .ok s1 → s1.switch_state slot ≠ s.switch_state slot →
      writes_slot id slot) ∧
    ¬ valid_switch_id 19 ∧
    get_switch_id_to_index (19 : Nat) = 0 ∧
    get_switch_index_to_id 0 = 1 ∧
    (sample_server nobody 's').switch_state 0 = 's' ∧
    ∃ s1, TRACK_SWITCH (sample_server nobody 's') 19 'c' = .ok s1 ∧
      s1.switch_state 0 = 'c' ∧ s1.courier_requests = [(19, 'c')] := by
  refine ⟨?_, by decide, rfl, rfl, rfl, _, rfl, rfl, rfl⟩
  intro s s1 id dir slot h hne
  rw [track_switch_eq] at h
  by_contra hw
  split at h
  · simp only [Except.ok.injEq] at h
    subst h
    exact hne (pipe_table_other _ _ _ _ hw)
  · simp only [Except.ok.injEq] at h
    subst h
    exact hne rfl

end Track

namespace Abyss

/-! ## Theorems on the kernel -/

/-- `Send` to an existing task that is not receive-blocked and is not the
caller: the resulting kernel state. -/
theorem handle_send_queues (c : KernelConsts) (k : Kernel) (rid : Nat) (msg : List Nat)
    (msglen reply replylen : Nat) (r a : TaskDescriptor)
    (hr : k.tasks rid = some r) (hrs : r.state ≠ TaskState.RECEIVE_BLOCK)
    (ha : k.tasks k.active_task = some a) (hne : rid ≠ k.active_task) :
    ∃ k1, handle_send c k rid msg msglen reply replylen = some k1 ∧
      k1.tasks rid = some (queue_message r k.active_task msg msglen) ∧
      k1.tasks k.active_task = some (to_send_block a reply replylen) ∧
      (∀ t, t ≠ rid → t ≠ k.active_task → k1.tasks t = k.tasks t) ∧
      k1.scheduler = k.scheduler ∧ k1.active_task = k.active_task := by
  have hb : is_receive_block r = false := by
    unfold is_receive_block; exact decide_eq_false hrs
  simp only [handle_send, hr, hb, Bool.false_eq_true, if_false, set_task,
    Function.update_noteq (Ne.symm hne), ha]
  refine ⟨_, rfl, ?_, ?_, ?_, rfl, rfl⟩
  · simp only [Function.update_noteq hne, Function.update_same]
  · simp only [Function.update_same]
  · intro t h1 h2
    simp only [Function.update_noteq h1, Function.update_noteq h2]

/-- `Receive` with a queued message whose sender is another existing task: the
resulting kernel state. -/
theorem handle_receive_takes (k : Kernel) (sender_ptr msg msglen : Nat) (a st : TaskDescriptor)
    (m : Message) (rest : List Message)
    (ha : k.tasks k.active_task = some a) (hin : a.inbox = m :: rest)
    (hs : k.tasks m.sender = some st) (hne : m.sender ≠ k.active_task) :
    ∃ k1, handle_receive k sender_ptr msg msglen = some k1 ∧
      k1.tasks k.active_task =
        some { fill_message { a with inbox := rest } m msg msglen with
                state := TaskState.READY, response := m.len } ∧
      k1.tasks m.sender = some (to_reply_block st) ∧
      (∀ t, t ≠ m.sender → t ≠ k.active_task → k1.tasks t = k.tasks t) ∧
      k1.scheduler = add_task k.scheduler a.priority a.task_id ∧
      k1.active_task = k.active_task := by
  have hm : have_message a = true := by unfold have_message; rw [hin]; rfl
  have hp : pop_inbox a = some (m, { a with inbox := rest }) := by unfold pop_inbox; rw [hin]
  simp only [handle_receive, ha, hm, if_true, hp, set_task, Function.update_noteq hne, hs,
    Function.update_same, Function.update_noteq (Ne.symm hne), ready_task, to_ready]
  refine ⟨_, rfl, ?_, ?_, ?_, rfl, rfl⟩
  · simp only [Function.update_same]
  · simp only [Function.update_noteq hne, Function.update_same]
  · intro t h1 h2
    simp only [Function.update_noteq h1, Function.update_noteq h2]

/-- The state after the kernel has made an existing task the running one. -/
theorem run_as_spec (k : Kernel) (tid : Nat) (t : TaskDescriptor) (ht : k.tasks tid = some t) :
    ∃ k1, run_as k tid = some k1 ∧
      k1.tasks tid = some { t with state := TaskState.ACTIVE } ∧
      (∀ u, u ≠ tid → k1.tasks u = k.tasks u) ∧
      k1.scheduler = k.scheduler ∧ k1.active_task = tid := by
  simp only [run_as, ht, set_task]
  refine ⟨_, rfl, ?_, ?_, rfl, rfl⟩
  · simp only [Function.update_same]
  · intro u hu
    simp only [Function.update_noteq hu]

/-- C18, as stated, fails when the message is longer than the receive buffer:
task 0 sends the 5 bytes of `"hello"` to task 1, which waits in `Receive` with
a 3-byte buffer; task 1 becomes `READY` holding `"hel"`, and the value returned
to it is 5, the length of the original message, not the copied length 3. -/
theorem truncated_send_returns_sent_length :
    ∃ k1 r, handle_send sample_codes receiver_waiting 1 hello 5 900 4 = some k1 ∧
      (receiver_waiting.tasks 1).map (fun t => (t.state, t.slot.cap)) =
        some (TaskState.RECEIVE_BLOCK, 3) ∧
      k1.tasks 1 = some r ∧ r.state = TaskState.READY ∧
      r.copied = [104, 101, 108] ∧ r.copied.length = min 5 3 ∧
      r.response = 5 ∧ r.response ≠ ((min 5 3 : Nat) : Int) :=
  ⟨_, _, rfl, rfl, rfl, rfl, rfl, rfl, rfl, by decide⟩

/-- C18, amended: when the running task `S` calls `Send(R, m, r)` and `R` waits
in `RECEIVE_BLOCK` with a receive buffer of length `n`, the first
`min(msglen, n)` bytes of `m` are copied into that buffer and `S` is written to
`*from`; `R` becomes `READY`, is appended to the ready queue of its priority,
and the value returned to it is `msglen`, the length of the original message;
`S` becomes `REPLY_BLOCK` holding `r`. -/
theorem send_to_receive_blocked (c : KernelConsts) (k : Kernel) (rid : Nat) (msg : List Nat)
    (msglen reply replylen : Nat) (r a : TaskDescriptor)
    (hr : k.tasks rid = some r) (hrs : r.state = TaskState.RECEIVE_BLOCK)
    (ha : k.tasks k.active_task = some a) (has : a.state = TaskState.ACTIVE) :
    ∃ k1 r1 a1, handle_send c k rid msg msglen reply replylen = some k1 ∧
      k1.tasks rid = some r1 ∧
      r1.state = TaskState.READY ∧ r1.response = msglen ∧
      r1.copied = msg.take (min msglen r.slot.cap) ∧ r1.copied_to = r.slot.addr ∧
      (r.slot_from.isSome = true → r1.from_value = some k.active_task) ∧
      k1.scheduler.ready_queue r.priority = k.scheduler.ready_queue r.priority ++ [r.task_id] ∧
      (∀ p, p ≠ r.priority → k1.scheduler.ready_queue p = k.scheduler.ready_queue p) ∧
      k1.tasks k.active_task = some a1 ∧
      a1.state = TaskState.REPLY_BLOCK ∧ a1.slot = ⟨reply, replylen⟩ := by
  have hne : k.active_task ≠ rid := by
    intro he
    rw [he, hr] at ha
    cases ha
    rw [hrs] at has
    cases has
  simp only [handle_send, hr, is_receive_block, hrs, decide_True, if_true, ready_task, set_task,
    Function.update_same, Function.update_noteq hne, ha]
  refine ⟨_, (to_ready (fill_response r k.active_task msg msglen).1 msglen k.scheduler).1,
    to_reply_block_with a reply replylen, rfl, ?_, rfl, rfl, rfl, rfl, ?_, ?_, ?_, ?_, rfl, rfl⟩
  · simp only [Function.update_noteq (Ne.symm hne), Function.update_same]
  · intro h
    simp only [to_ready, fill_response, h, if_true]
  · simp only [to_ready, fill_response, add_task, Function.update_same]
  · intro p hp
    simp only [to_ready, fill_response, add_task, Function.update_noteq hp]
  · simp only [Function.update_same]


/-- Instance of C18: task 0 sends the 5 bytes of `"hello"` to task 1, which
waits in `Receive` with a 3-byte buffer: task 1 is made `READY` with return
value 5 and holds `"hel"`; task 0 is `REPLY_BLOCK`. -/
theorem send_to_receive_blocked_witness :
    ∃ k1 r1 a1, handle_send sample_codes receiver_waiting 1 hello 5 900 4 = some k1 ∧
      k1.tasks 1 = some r1 ∧ r1.state = TaskState.READY ∧ r1.response = 5 ∧
      r1.copied = [104, 101, 108] ∧
      k1.tasks 0 = some a1 ∧ a1.state = TaskState.REPLY_BLOCK ∧ a1.slot = ⟨900, 4⟩ := by
  obtain ⟨k1, r1, a1, h1, h2, h3, h4, h5, _, _, _, _, h10, h11, h12⟩ :=
    send_to_receive_blocked sample_codes receiver_waiting 1 hello 5 900 4
      (to_receive_block (sample_task 1 TaskState.ACTIVE) 700 800 3)
      (sample_task 0 TaskState.ACTIVE) rfl rfl rfl rfl
  exact ⟨k1, r1, a1, h1, h2, h3, h4, h5, h10, h11, h12⟩

/-- C19, as stated, fails when a task sends to itself: task 0 runs, so it
exists and is not in `RECEIVE_BLOCK`; after its `Send` to id 0 the state of the
addressee has changed from `ACTIVE` to `SEND_BLOCK`. -/
theorem send_to_self_blocks_the_addressee :
    ∃ k1, handle_send sample_codes sample_kernel 0 hello 5 900 4 = some k1 ∧
      sample_kernel.active_task = 0 ∧
      (sample_kernel.tasks 0).map (fun t => t.state) = some TaskState.ACTIVE ∧
      (k1.tasks 0).map (fun t => t.state) = some TaskState.SEND_BLOCK ∧
      (k1.tasks 0).map (fun t => t.state) ≠ (sample_kernel.tasks 0).map (fun t => t.state) :=
  ⟨_, rfl, rfl, rfl, rfl, by decide⟩

/-- C19, amended: when the running task `S` calls `Send(R, m, r)` and `R` is
another existing task that is not in `RECEIVE_BLOCK`, `(S, m)` is appended at
the tail of the inbox of `R` and nothing else of `R` changes, `S` becomes
`SEND_BLOCK` holding `r`, every ready queue is unchanged (so `S` joins none),
and every other task is unchanged. -/
theorem send_to_busy_task (c : KernelConsts) (k : Kernel) (rid : Nat) (msg : List Nat)
    (msglen reply replylen : Nat) (r a : TaskDescriptor)
    (hr : k.tasks rid = some r) (hrs : r.state ≠ TaskState.RECEIVE_BLOCK)
    (ha : k.tasks k.active_task = some a) (hne : rid ≠ k.active_task) :
    ∃ k1 a1, handle_send c k rid msg msglen reply replylen = some k1 ∧
      k1.tasks rid =
        some { r with
          inbox := r.inbox ++ [{ sender := k.active_task, data := msg.take msglen, len := msglen }] } ∧
      k1.tasks k.active_task = some a1 ∧
      a1.state = TaskState.SEND_BLOCK ∧ a1.slot = ⟨reply, replylen⟩ ∧ a1.inbox = a.inbox ∧
      k1.scheduler.ready_queue = k.scheduler.ready_queue ∧
      (∀ p, k.active_task ∈ k1.scheduler.ready_queue p → k.active_task ∈ k.scheduler.ready_queue p) ∧
      (∀ t, t ≠ rid → t ≠ k.active_task → k1.tasks t = k.tasks t) := by
  obtain ⟨k1, h1, h2, h3, h4, h5, _⟩ :=
    handle_send_queues c k rid msg msglen reply replylen r a hr hrs ha hne
  refine ⟨k1, to_send_block a reply replylen, h1, h2, h3, rfl, rfl, rfl, ?_, ?_, h4⟩
  · rw [h5]
  · intro p hp; rw [h5] at hp; exact hp

/-- Instance of C19: task 0 sends `"hello"` to the ready task 1; the message is
queued in the inbox of task 1, which stays `READY`, task 0 is `SEND_BLOCK` and
the ready queue of priority 1 is still `[1, 2]`. -/
theorem send_to_busy_task_witness :
    ∃ k1, handle_send sample_codes sample_kernel 1 hello 5 900 4 = some k1 ∧
      k1.tasks 1 = some { sample_task 1 TaskState.READY with inbox := [⟨0, hello, 5⟩] } ∧
      (k1.tasks 0).map (fun t => t.state) = some TaskState.SEND_BLOCK ∧
      k1.scheduler.ready_queue 1 = [1, 2] := by
  obtain ⟨k1, a1, h1, h2, h3, h4, _, _, h7, _⟩ :=
    send_to_busy_task sample_codes sample_kernel 1 hello 5 900 4
      (sample_task 1 TaskState.READY) (sample_task 0 TaskState.ACTIVE) rfl (by decide) rfl
      (by decide)
  refine ⟨k1, h1, h2, ?_, ?_⟩
  · have h3b : k1.tasks 0 = some a1 := h3
    rw [h3b]; exact congrArg some h4
  · rw [h7]; rfl

/-- C20, as stated, fails when the queued message is longer than the receive
buffer: task 1 has the 5 bytes of `"hello"` from task 0 in its inbox and calls
`Receive` with a 3-byte buffer; it is re-queued `READY` holding `"hel"` and
sender 0, and the value returned to it is 5, not the copied length 3. -/
theorem truncated_receive_returns_sent_length :
    ∃ k1 r, handle_receive message_queued 700 800 3 = some k1 ∧
      message_queued.active_task = 1 ∧
      (message_queued.tasks 1).map (fun t => t.inbox) = some [⟨0, hello, 5⟩] ∧
      k1.tasks 1 = some r ∧ r.state = TaskState.READY ∧ r.from_value = some 0 ∧
      r.copied = [104, 101, 108] ∧ r.copied.length = 3 ∧
      r.response = 5 ∧ r.response ≠ (r.copied.length : Int) :=
  ⟨_, _, rfl, rfl, rfl, rfl, rfl, rfl, rfl, rfl, rfl, by decide⟩

/-- C20, amended: `Receive` by the running task `R`. (1) If its inbox is not
empty, the oldest queued message `(S, m)`, `S` another existing task, is
removed, `S` becomes `REPLY_BLOCK` still holding its reply buffer, `*from` is
set to `S`, the first `min(len m, n)` bytes are copied into the buffer, and `R`
is re-queued `READY` with the length of `m` as sent as return value. (2) If the
inbox is empty, `R` becomes `RECEIVE_BLOCK` recording `(from, b)` and no ready
queue changes. (3) If `A` and then `B` send to `R` while `R` has an empty inbox
and is not receive-blocked, the next two `Receive`s of `R` observe `A`, then `B`. -/
theorem receive_takes_oldest_message (c : KernelConsts) (k : Kernel) (sender_ptr msg msglen : Nat)
    (a : TaskDescriptor) (ha : k.tasks k.active_task = some a) :
    (∀ (m : Message) (rest : List Message) (st : TaskDescriptor),
      a.inbox = m :: rest → k.tasks m.sender = some st → m.sender ≠ k.active_task →
      ∃ k1 a1 st1, handle_receive k sender_ptr msg msglen = some k1 ∧
        k1.tasks k.active_task = some a1 ∧
        a1.inbox = rest ∧ a1.state = TaskState.READY ∧ a1.response = m.len ∧
        a1.from_value = some m.sender ∧
        a1.copied = m.data.take (min m.len msglen) ∧ a1.copied_to = msg ∧
        k1.scheduler.ready_queue a.priority = k.scheduler.ready_queue a.priority ++ [a.task_id] ∧
        k1.tasks m.sender = some st1 ∧
        st1.state = TaskState.REPLY_BLOCK ∧ st1.slot = st.slot) ∧
    (a.inbox = [] →
      ∃ k1 a1, handle_receive k sender_ptr msg msglen = some k1 ∧
        k1.tasks k.active_task = some a1 ∧
        a1.state = TaskState.RECEIVE_BLOCK ∧ a1.slot = ⟨msg, msglen⟩ ∧
        a1.slot_from = some sender_ptr ∧
        k1.scheduler.ready_queue = k.scheduler.ready_queue) ∧
    (∀ (A B : Nat) (ta tb : TaskDescriptor) (ma mb : List Nat) (la lb ra rla rb rlb : Nat),
      a.inbox = [] → a.state ≠ TaskState.RECEIVE_BLOCK →
      k.tasks A = some ta → k.tasks B = some tb →
      A ≠ k.active_task → B ≠ k.active_task → A ≠ B →
      ∃ k1 k2 k3 k4 r3 r4,
        (run_as k A).bind (fun ka => handle_send c ka k.active_task ma la ra rla) = some k1 ∧
        (run_as k1 B).bind (fun kb => handle_send c kb k.active_task mb lb rb rlb) = some k2 ∧
        (run_as k2 k.active_task).bind (fun kr => handle_receive kr sender_ptr msg msglen)
          = some k3 ∧
        k3.tasks k.active_task = some r3 ∧ r3.from_value = some A ∧
        (run_as k3 k.active_task).bind (fun kr => handle_receive kr sender_ptr msg msglen)
          = some k4 ∧
        k4.tasks k.active_task = some r4 ∧ r4.from_value = some B) := by
  refine ⟨?_, ?_, ?_⟩
  · intro m rest st hin hs hne
    obtain ⟨k1, h1, h2, h3, _, h5, _⟩ :=
      handle_receive_takes k sender_ptr msg msglen a st m rest ha hin hs hne
    refine ⟨k1, _, to_reply_block st, h1, h2, rfl, rfl, rfl, rfl, rfl, rfl, ?_, h3, rfl, rfl⟩
    rw [h5]
    simp only [add_task, Function.update_same]
  · intro hin
    have hm : have_message a = false := by unfold have_message; rw [hin]; rfl
    simp only [handle_receive, ha, hm, Bool.false_eq_true, if_false, set_task]
    exact ⟨_, to_receive_block a sender_ptr msg msglen, rfl, by simp only [Function.update_same],
      rfl, rfl, rfl, rfl⟩
  · intro A B ta tb ma mb la lb ra rla rb rlb hin hst hA hB hAR hBR hAB
    -- A runs and sends
    obtain ⟨ka, e1, a1, a2, _, a4⟩ := run_as_spec k A ta hA
    have haR : ka.tasks k.active_task = some a := by rw [a2 _ (Ne.symm hAR)]; exact ha
    obtain ⟨k1, e2, b1, b2, b3, _, _⟩ :=
      handle_send_queues c ka k.active_task ma la ra rla a _ haR hst (by rw [a4]; exact a1)
        (by rw [a4]; exact Ne.symm hAR)
    rw [a4] at b1 b2 b3
    -- B runs and sends
    have hB1 : k1.tasks B = some tb := by
      rw [b3 B hBR (Ne.symm hAB), a2 B (Ne.symm hAB)]; exact hB
    obtain ⟨kb, e3, c1, c2, _, c4⟩ := run_as_spec k1 B tb hB1
    have hbR : kb.tasks k.active_task = some (queue_message a A ma la) := by
      rw [c2 _ (Ne.symm hBR)]; exact b1
    obtain ⟨k2, e4, d1, d2, d3, _, _⟩ :=
      handle_send_queues c kb k.active_task mb lb rb rlb _ _ hbR hst (by rw [c4]; exact c1)
        (by rw [c4]; exact Ne.symm hBR)
    rw [c4] at d1 d2 d3
    -- R runs and receives
    obtain ⟨kr, e5, f1, f2, _, f4⟩ := run_as_spec k2 k.active_task _ d1
    have hA2 : kr.tasks A = some (to_send_block { ta with state := TaskState.ACTIVE } ra rla) := by
      rw [f2 A hAR, d3 A hAR hAB, c2 A hAB]; exact b2
    obtain ⟨k3, e6, g1, g2, g3, _, g5⟩ :=
      handle_receive_takes kr sender_ptr msg msglen _ _
        ⟨A, ma.take la, la⟩ [⟨B, mb.take lb, lb⟩] (by rw [f4]; exact f1)
        (by simp only [queue_message, hin, List.nil_append, List.singleton_append])
        hA2 (by rw [f4]; exact hAR)
    rw [f4] at g1 g3
    -- R runs and receives again
    obtain ⟨kr2, e7, i1, i2, _, i4⟩ := run_as_spec k3 k.active_task _ g1
    have hB3 : kr2.tasks B = some (to_send_block { tb with state := TaskState.ACTIVE } rb rlb) := by
      rw [i2 B hBR, g3 B (Ne.symm hAB) hBR, f2 B hBR]; exact d2
    obtain ⟨k4, e8, j1, _⟩ :=
      handle_receive_takes kr2 sender_ptr msg msglen _ _
        ⟨B, mb.take lb, lb⟩ [] (by rw [i4]; exact i1) rfl hB3 (by rw [i4]; exact hBR)
    rw [i4] at j1
    refine ⟨k1, k2, k3, k4, _, _, ?_, ?_, ?_, g1, rfl, ?_, j1, rfl⟩
    · rw [e1]; exact e2
    · rw [e3]; exact e4
    · rw [e5]; exact e6
    · rw [e7]; exact e8

/-- Instance of C20: task 1 receives the queued `"hello"` of task 0 into a
3-byte buffer, and tasks 1 and 2 send to the running task 0, whose next two
`Receive`s observe 1, then 2. -/
theorem receive_takes_oldest_message_witness :
    (∃ k1 a1, handle_receive message_queued 700 800 3 = some k1 ∧
      k1.tasks 1 = some a1 ∧ a1.inbox = [] ∧ a1.response = 5 ∧ a1.from_value = some 0) ∧
    (∃ k1 k2 k3 k4 r3 r4,
      (run_as sample_kernel 1).bind (fun ka => handle_send sample_codes ka 0 hello 5 900 4)
        = some k1 ∧
      (run_as k1 2).bind (fun kb => handle_send sample_codes kb 0 hello 5 900 4) = some k2 ∧
      (run_as k2 0).bind (fun kr => handle_receive kr 700 800 3) = some k3 ∧
      k3.tasks 0 = some r3 ∧ r3.from_value = some 1 ∧
      (run_as k3 0).bind (fun kr => handle_receive kr 700 800 3) = some k4 ∧
      k4.tasks 0 = some r4 ∧ r4.from_value = some 2) := by
  constructor
  · obtain ⟨k1, a1, _, h1, h2, h3, _, h5, h6, _⟩ :=
      (receive_takes_oldest_message sample_codes message_queued 700 800 3
        (queue_message (sample_task 1 TaskState.ACTIVE) 0 hello 5) rfl).1
        ⟨0, hello, 5⟩ [] (to_send_block (sample_task 0 TaskState.ACTIVE) 900 4) rfl rfl
        (by decide)
    exact ⟨k1, a1, h1, h2, h3, h5, h6⟩
  · exact (receive_takes_oldest_message sample_codes sample_kernel 700 800 3
      (sample_task 0 TaskState.ACTIVE) rfl).2.2 1 2
      (sample_task 1 TaskState.READY) (sample_task 2 TaskState.READY) hello hello 5 5 900 4 900 4
      rfl (by decide) rfl rfl (by decide) (by decide) (by decide)

end Abyss

namespace Abyss

/-! ## More theorems on the kernel -/

/-- `Reply` to a task that waits in `REPLY_BLOCK`: the resulting kernel state. -/
theorem handle_reply_delivers (c : KernelConsts) (k : Kernel) (target : Nat) (msg : List Nat)
    (msglen : Nat) (s a : TaskDescriptor)
    (hs : k.tasks target = some s) (hss : s.state = TaskState.REPLY_BLOCK)
    (ha : k.tasks k.active_task = some a) (hne : target ≠ k.active_task) :
    ∃ k1, handle_reply c k target msg msglen = some k1 ∧
      k1.tasks target =
        some { (fill_response s k.active_task msg msglen).1 with
                state := TaskState.READY, response := ((min msglen s.slot.cap : Nat) : Int) } ∧
      k1.tasks k.active_task =
        some { a with state := TaskState.READY, response := ((min msglen s.slot.cap : Nat) : Int) } ∧
      (∀ t, t ≠ target → t ≠ k.active_task → k1.tasks t = k.tasks t) ∧
      k1.scheduler = add_task (add_task k.scheduler s.priority s.task_id) a.priority a.task_id ∧
      k1.active_task = k.active_task ∧ k1.p_id_counter = k.p_id_counter ∧
      k1.clock_notifier_tid = k.clock_notifier_tid := by
  have hb : is_reply_block s = true := by
    unfold is_reply_block; exact decide_eq_true hss
  simp only [handle_reply, hs, hb, not_true_eq_false, if_false, ready_task, set_task,
    Function.update_same, Function.update_noteq (Ne.symm hne), ha, to_ready]
  refine ⟨_, rfl, ?_, ?_, ?_, rfl, rfl, rfl, rfl⟩
  · simp only [Function.update_noteq hne, Function.update_same]
    rfl
  · simp only [Function.update_same]
    rfl
  · intro t h1 h2
    simp only [Function.update_noteq h1, Function.update_noteq h2]

/-- The call `tasks[id]->to_ready(value, &scheduler)` on an existing task. -/
theorem ready_task_eq (k : Kernel) (id : Nat) (value : Int) (t : TaskDescriptor)
    (ht : k.tasks id = some t) :
    ready_task k id value =
      some { k with
        tasks := Function.update k.tasks id (some { t with state := TaskState.READY, response := value })
        scheduler := add_task k.scheduler t.priority t.task_id } := by
  simp only [ready_task, ht, set_task, to_ready]

/-- `Reply` to an existing task that does not wait in `REPLY_BLOCK`: only the
caller is touched. -/
theorem handle_reply_refused (c : KernelConsts) (k : Kernel) (target : Nat) (msg : List Nat)
    (msglen : Nat) (s : TaskDescriptor)
    (hs : k.tasks target = some s) (hss : s.state ≠ TaskState.REPLY_BLOCK) :
    handle_reply c k target msg msglen = ready_task k k.active_task c.NOT_WAITING_FOR_REPLY := by
  have hb : is_reply_block s = false := by
    unfold is_reply_block; exact decide_eq_false hss
  simp only [handle_reply, hs, hb, Bool.false_eq_true, not_false_eq_true, if_true]

/-- The call `tasks[id]->to_ready(value, &scheduler)` on an existing task, by
its effects. -/
theorem ready_task_spec (k : Kernel) (id : Nat) (value : Int) (t : TaskDescriptor)
    (ht : k.tasks id = some t) :
    ∃ k1, ready_task k id value = some k1 ∧
      k1.tasks id = some { t with state := TaskState.READY, response := value } ∧
      (∀ u, u ≠ id → k1.tasks u = k.tasks u) ∧
      k1.scheduler = add_task k.scheduler t.priority t.task_id ∧
      k1.active_task = k.active_task ∧ k1.clock_notifier_tid = k.clock_notifier_tid ∧
      k1.p_id_counter = k.p_id_counter := by
  rw [ready_task_eq k id value t ht]
  refine ⟨_, rfl, ?_, ?_, rfl, rfl, rfl, rfl⟩
  · simp only [Function.update_same]
  · intro u hu; simp only [Function.update_noteq hu]

theorem mem_add_task (sch : Scheduler) (priority id : Nat) :
    id ∈ (add_task sch priority id).ready_queue priority := by
  simp only [add_task, Function.update_same, List.mem_append, List.mem_singleton, or_true]

/-- Nothing about ids changes from `k` to `k1`. -/
theorem grows_of_same {k k1 : Kernel} (hc : k1.p_id_counter = k.p_id_counter)
    (ht : ids_of k1.tasks = ids_of k.tasks) : grows k k1 := by
  refine ⟨by rw [hc], fun i _ => by rw [ht], ?_⟩
  intro h i
  unfold table_ok at h
  rw [hc, ht]
  exact h i

theorem grows_refl (k : Kernel) : grows k k := grows_of_same rfl rfl

theorem grows_trans {k k1 k2 : Kernel} (h1 : grows k k1) (h2 : grows k1 k2) : grows k k2 :=
  ⟨Nat.le_trans h1.1 h2.1,
   fun i hi => (h2.2.1 i (Nat.lt_of_lt_of_le hi h1.1)).trans (h1.2.1 i hi),
   fun h => h2.2.2 (h1.2.2 h)⟩

theorem ids_of_update (tasks : Nat → Option TaskDescriptor) (id : Nat) (t t1 : TaskDescriptor)
    (h : tasks id = some t) (hi : ids t1 = ids t) :
    ids_of (Function.update tasks id (some t1)) = ids_of tasks := by
  funext i
  unfold ids_of
  by_cases he : i = id
  · subst he
    rw [Function.update_same, h, Option.map_some', Option.map_some', hi]
  · rw [Function.update_noteq he]

/-- Rewriting a descriptor without touching its ids. -/
theorem grows_set_task {k : Kernel} {id : Nat} {t : TaskDescriptor} (t1 : TaskDescriptor)
    (h : k.tasks id = some t) (hi : ids t1 = ids t) : grows k (set_task k id t1) :=
  grows_of_same rfl (ids_of_update k.tasks id t t1 h hi)

theorem grows_ready_task {k k1 : Kernel} {id : Nat} {value : Int}
    (h : ready_task k id value = some k1) : grows k k1 := by
  unfold ready_task at h
  split at h
  · cases h
  · rename_i t ht
    cases h
    exact grows_of_same rfl (ids_of_update k.tasks id t _ ht rfl)

theorem grows_handle_send {c : KernelConsts} {k k1 : Kernel} {rid : Nat} {msg : List Nat}
    {msglen reply replylen : Nat}
    (h : handle_send c k rid msg msglen reply replylen = some k1) : grows k k1 := by
  unfold handle_send at h
  split at h
  · exact grows_ready_task h
  · rename_i r hr
    split at h
    · simp only at h
      split at h
      · cases h
      · rename_i k2 h2
        split at h
        · cases h
        · rename_i a ha
          cases h
          exact grows_trans (grows_trans
            (grows_set_task (fill_response r k.active_task msg msglen).1 hr rfl)
            (grows_ready_task h2)) (grows_set_task (to_reply_block_with a reply replylen) ha rfl)
    · simp only at h
      split at h
      · cases h
      · rename_i a ha
        cases h
        exact grows_trans (grows_set_task (queue_message r k.active_task msg msglen) hr rfl)
          (grows_set_task (to_send_block a reply replylen) ha rfl)

theorem grows_handle_receive {k k1 : Kernel} {sender_ptr msg msglen : Nat}
    (h : handle_receive k sender_ptr msg msglen = some k1) : grows k k1 := by
  unfold handle_receive at h
  split at h
  · cases h
  · rename_i a ha
    split at h
    · split at h
      · cases h
      · rename_i incoming a1 hp
        have hi : ids a1 = ids a := by
          unfold pop_inbox at hp
          split at hp
          · cases hp
          · cases hp; rfl
        simp only at h
        split at h
        · cases h
        · rename_i st hst
          split at h
          · cases h
          · rename_i a2 ha2
            exact grows_trans (grows_trans (grows_trans (grows_set_task a1 ha hi)
              (grows_set_task (to_reply_block st) hst rfl))
              (grows_set_task (fill_message a2 incoming msg msglen) ha2 rfl)) (grows_ready_task h)
    · cases h
      exact grows_set_task (to_receive_block a sender_ptr msg msglen) ha rfl

theorem grows_handle_reply {c : KernelConsts} {k k1 : Kernel} {target : Nat} {msg : List Nat}
    {msglen : Nat} (h : handle_reply c k target msg msglen = some k1) : grows k k1 := by
  unfold handle_reply at h
  split at h
  · exact grows_ready_task h
  · rename_i t ht
    split at h
    · exact grows_ready_task h
    · simp only at h
      split at h
      · cases h
      · rename_i k2 h2
        exact grows_trans (grows_trans
          (grows_set_task (fill_response t k.active_task msg msglen).1 ht rfl)
          (grows_ready_task h2)) (grows_ready_task h)

theorem grows_allocate (tc : TaskConsts) (k : Kernel) (parent_id : Int) (priority : Nat) :
    grows k (allocate_new_task tc k parent_id priority) := by
  unfold allocate_new_task task_allocator_get
  by_cases hp : k.p_id_counter < tc.pool_size
  · simp only [hp, if_true]
    refine ⟨Nat.le_succ _, ?_, ?_⟩
    · intro i hi
      unfold ids_of
      simp only [Function.update_noteq (Nat.ne_of_lt hi)]
    · intro h i
      constructor
      · intro hi
        by_cases he : i = k.p_id_counter
        · subst he
          refine ⟨(k.p_id_counter, parent_id, priority), ?_, rfl⟩
          unfold ids_of
          simp only [Function.update_same, Option.map_some']
          rfl
        · have hlt : i < k.p_id_counter := by
            have : i < k.p_id_counter + 1 := hi
            omega
          obtain ⟨x, hx, hx1⟩ := (h i).1 hlt
          refine ⟨x, ?_, hx1⟩
          unfold ids_of at hx ⊢
          simp only [Function.update_noteq he]
          exact hx
      · intro hi
        have hle : k.p_id_counter + 1 ≤ i := hi
        have hne : i ≠ k.p_id_counter := by omega
        have := (h i).2 (by omega)
        unfold ids_of at this ⊢
        simp only [Function.update_noteq hne]
        exact this
  · simp only [hp, if_false]
    exact grows_refl k

theorem grows_handle_syscall {c : KernelConsts} {tc : TaskConsts} {k k1 : Kernel}
    {request : Request} (h : handle_syscall c tc k request = some k1) : grows k k1 := by
  cases request with
  | SEND rid msg msglen reply replylen => exact grows_handle_send h
  | RECEIVE sender_ptr msg msglen => exact grows_handle_receive h
  | REPLY target msg msglen => exact grows_handle_reply h
  | CREATE priority =>
    simp only [handle_syscall] at h
    split at h
    · cases h
    · rename_i k2 h2
      split at h
      · cases h
      · cases h
        exact grows_trans (grows_ready_task h2) (grows_allocate _ _ _ _)
  | MY_TID =>
    simp only [handle_syscall] at h
    split at h
    · cases h
    · exact grows_ready_task h
  | MY_PARENT_ID =>
    simp only [handle_syscall] at h
    split at h
    · cases h
    · exact grows_ready_task h
  | YIELD => exact grows_ready_task h
  | PRINT => exact grows_ready_task h
  | EXIT =>
    simp only [handle_syscall] at h
    split at h
    · cases h
    · rename_i a ha
      cases h
      exact grows_set_task (kill a) ha rfl
  | AWAIT_EVENT eventId =>
    simp only [handle_syscall, handle_await_event] at h
    split at h
    · split at h
      · cases h
      · rename_i a ha
        cases h
        exact grows_of_same rfl (ids_of_update k.tasks k.active_task a (to_event_block a) ha rfl)
    · cases h
      exact grows_refl k
  | UNKNOWN => cases h

theorem grows_handle {c : KernelConsts} {tc : TaskConsts} {k k1 : Kernel} {entry : KernelEntry}
    (h : handle c tc k entry = some k1) : grows k k1 := by
  cases entry with
  | SYSCALL request => exact grows_handle_syscall h
  | INTERRUPT icode =>
    simp only [handle] at h
    split at h
    · cases h
    · rename_i a ha
      have h0 := grows_set_task (set_interrupted a true) ha rfl
      cases icode with
      | TIMER =>
        simp only [handle_interrupt] at h
        split at h
        · cases h
        · rename_i k2 h2
          split at h
          · exact grows_trans (grows_trans h0 (grows_ready_task h2)) (grows_ready_task h)
          · cases h
            exact grows_trans h0 (grows_ready_task h2)
      | OTHER => cases h
  | UNKNOWN => cases h

theorem grows_kernel_turn {c : KernelConsts} {tc : TaskConsts} {k k1 : Kernel}
    {entry : KernelEntry} (h : kernel_turn c tc k entry = some k1) : grows k k1 := by
  unfold kernel_turn at h
  split at h
  · cases h
  · rename_i k2 h2
    split at h
    · cases h
    · rename_i k3 h3
      have g2 : grows k k2 := by
        unfold schedule_next_task at h2
        split at h2
        · cases h2
        · cases h2
          exact grows_of_same rfl rfl
      have g3 : grows k2 k3 := by
        unfold activate at h3
        split at h3
        · cases h3
        · rename_i t ht
          cases h3
          exact grows_set_task (to_active t) ht rfl
      exact grows_trans (grows_trans g2 g3) (grows_handle h)

theorem grows_run {c : KernelConsts} {tc : TaskConsts} :
    ∀ (entries : List KernelEntry) (k k1 : Kernel), run c tc k entries = some k1 → grows k k1 := by
  intro entries
  induction entries with
  | nil =>
    intro k k1 h
    cases h
    exact grows_refl k
  | cons entry rest ih =>
    intro k k1 h
    unfold run at h
    split at h
    · cases h
    · rename_i k2 h2
      exact grows_trans (grows_kernel_turn h2) (ih _ _ h)

theorem table_ok_boot (tc : TaskConsts) : table_ok (boot tc) := by
  refine (grows_allocate tc (fresh_kernel tc) tc.MAIDENLESS 0).2.2 ?_
  intro i
  exact ⟨fun hi => absurd hi (Nat.not_lt_zero _), fun _ => rfl⟩

/-- Under `table_ok` a descriptor sits below the id counter in the slot of its id. -/
theorem table_ok_task {k : Kernel} (h : table_ok k) {i : Nat} {t : TaskDescriptor}
    (ht : k.tasks i = some t) : i < k.p_id_counter ∧ t.task_id = i := by
  have hi : ids_of k.tasks i = some (ids t) := by unfold ids_of; rw [ht]; rfl
  by_cases hlt : i < k.p_id_counter
  · obtain ⟨x, hx, hx1⟩ := (h i).1 hlt
    rw [hi] at hx
    cases hx
    exact ⟨hlt, hx1⟩
  · have := (h i).2 (by omega)
    rw [hi] at this
    cases this

/-- A task allocated in `k` is still there in `k1`, with its id and parent id. -/
theorem grows_task {k k1 : Kernel} (hg : grows k k1) (hk : table_ok k) {i : Nat}
    {t : TaskDescriptor} (ht : k.tasks i = some t) :
    ∃ t1, k1.tasks i = some t1 ∧ t1.task_id = t.task_id ∧ t1.parent_id = t.parent_id := by
  have hlt := (table_ok_task hk ht).1
  have h := hg.2.1 i hlt
  unfold ids_of at h
  rw [ht] at h
  cases h1 : k1.tasks i with
  | none => rw [h1] at h; cases h
  | some t1 =>
    rw [h1] at h
    simp only [Option.map_some', Option.some.injEq, ids, Prod.mk.injEq] at h
    exact ⟨t1, rfl, h.1, h.2.1⟩

/-- `Create` with a free slot in the pool: the resulting kernel state. -/
theorem create_spec (c : KernelConsts) (tc : TaskConsts) (k : Kernel) (a : TaskDescriptor)
    (priority : Nat) (hk : table_ok k) (ha : k.tasks k.active_task = some a)
    (hp : k.p_id_counter < tc.pool_size) :
    ∃ k1 child, handle_syscall c tc k (Request.CREATE priority) = some k1 ∧
      k1.tasks k.active_task =
        some { a with state := TaskState.READY, response := (k.p_id_counter : Int) } ∧
      k1.tasks k.p_id_counter = some child ∧
      child.task_id = k.p_id_counter ∧ child.parent_id = (a.task_id : Int) ∧
      child.priority = priority ∧ child.state = TaskState.READY ∧
      k1.p_id_counter = k.p_id_counter + 1 ∧
      k1.scheduler =
        add_task (add_task k.scheduler a.priority a.task_id) priority k.p_id_counter := by
  have hne : k.active_task ≠ k.p_id_counter := Nat.ne_of_lt (table_ok_task hk ha).1
  simp only [handle_syscall, ready_task_eq k _ _ a ha, Function.update_same, allocate_new_task,
    task_allocator_get, hp, if_true]
  refine ⟨_, (⟨k.p_id_counter, (a.task_id : Int), priority, TaskState.READY, false, [], 0,
      ⟨0, 0⟩, none, [], 0, none⟩ : TaskDescriptor), rfl, ?_, ?_, rfl, rfl, rfl, rfl, rfl, rfl⟩
  · simp only [Function.update_noteq hne, Function.update_same]
  · simp only [Function.update_same]

/-! ## Claims about replies, creation, scheduling and events -/

/-- C21, as stated, fails for a reply that is not empty: task 1 replies the 3
bytes `"hel"` to task 0, which waits in `REPLY_BLOCK` with a 4-byte reply
buffer; both tasks are made `READY` with the copied length 3 as return value,
so the value returned to the replier is 3, not 0. -/
theorem reply_returns_copied_length_to_replier :
    ∃ k1 s1 r1, handle_reply sample_codes reply_pending 0 [104, 101, 108] 3 = some k1 ∧
      reply_pending.active_task = 1 ∧
      (reply_pending.tasks 0).map (fun t => (t.state, t.slot.cap)) =
        some (TaskState.REPLY_BLOCK, 4) ∧
      k1.tasks 0 = some s1 ∧ s1.state = TaskState.READY ∧ s1.response = 3 ∧
      k1.tasks 1 = some r1 ∧ r1.state = TaskState.READY ∧ r1.response = 3 ∧ r1.response ≠ 0 :=
  ⟨_, _, _, rfl, rfl, rfl, rfl, rfl, rfl, rfl, rfl, rfl, by decide⟩

/-- C21, amended: when the running task `R` calls `Reply(S, m)` and `S` waits in
`REPLY_BLOCK`, the first `min(length of m, length of the reply buffer of S)`
bytes of `m` are copied into that buffer, `S` becomes `READY` and its `Send`
returns that copied length, and `R` is re-queued `READY` with the same copied
length as return value; `S` is queued before `R`. -/
theorem reply_to_reply_blocked (c : KernelConsts) (k : Kernel) (target : Nat) (msg : List Nat)
    (msglen : Nat) (s a : TaskDescriptor)
    (hs : k.tasks target = some s) (hss : s.state = TaskState.REPLY_BLOCK)
    (ha : k.tasks k.active_task = some a) (has : a.state = TaskState.ACTIVE) :
    ∃ k1 s1 a1, handle_reply c k target msg msglen = some k1 ∧
      k1.tasks target = some s1 ∧ s1.state = TaskState.READY ∧
      s1.response = ((min msglen s.slot.cap : Nat) : Int) ∧
      s1.copied = msg.take (min msglen s.slot.cap) ∧ s1.copied_to = s.slot.addr ∧
      k1.tasks k.active_task = some a1 ∧ a1.state = TaskState.READY ∧
      a1.response = ((min msglen s.slot.cap : Nat) : Int) ∧
      k1.scheduler =
        add_task (add_task k.scheduler s.priority s.task_id) a.priority a.task_id := by
  have hne : target ≠ k.active_task := by
    intro he
    rw [he, ha] at hs
    cases hs
    rw [has] at hss
    cases hss
  obtain ⟨k1, h1, h2, h3, _, h5, _⟩ := handle_reply_delivers c k target msg msglen s a hs hss ha hne
  exact ⟨k1, _, _, h1, h2, rfl, rfl, rfl, rfl, h3, rfl, rfl, h5⟩

/-- Instance of C21: task 1 replies `"hello"` (5 bytes) to task 0, whose reply
buffer has 4 bytes: both get 4 and task 0 holds `"hell"`. -/
theorem reply_to_reply_blocked_witness :
    ∃ k1 s1 a1, handle_reply sample_codes reply_pending 0 hello 5 = some k1 ∧
      k1.tasks 0 = some s1 ∧ s1.state = TaskState.READY ∧ s1.response = 4 ∧
      s1.copied = [104, 101, 108, 108] ∧
      k1.tasks 1 = some a1 ∧ a1.state = TaskState.READY ∧ a1.response = 4 ∧
      k1.scheduler.ready_queue 1 = [2, 0, 1] := by
  obtain ⟨k1, s1, a1, h1, h2, h3, h4, h5, _, h7, h8, h9, h10⟩ :=
    reply_to_reply_blocked sample_codes reply_pending 0 hello 5
      (to_reply_block_with (sample_task 0 TaskState.ACTIVE) 900 4)
      (sample_task 1 TaskState.ACTIVE) rfl rfl rfl rfl
  refine ⟨k1, s1, a1, h1, h2, h3, h4, h5, h7, h8, h9, ?_⟩
  rw [h10]; rfl

/-- C22, as stated, fails when a task replies to itself: task 0 runs, so it
exists and is not in `REPLY_BLOCK`; its `Reply` to id 0 returns
`NOT_WAITING_FOR_REPLY`, and that changes the state of the addressee from
`ACTIVE` to `READY` and its pending return value. -/
theorem reply_to_self_changes_the_addressee :
    ∃ k1, handle_reply sample_codes sample_kernel 0 hello 5 = some k1 ∧
      sample_kernel.active_task = 0 ∧
      (sample_kernel.tasks 0).map (fun t => (t.state, t.response)) = some (TaskState.ACTIVE, 0) ∧
      (k1.tasks 0).map (fun t => (t.state, t.response)) =
        some (TaskState.READY, sample_codes.NOT_WAITING_FOR_REPLY) ∧
      k1.tasks 0 ≠ sample_kernel.tasks 0 :=
  ⟨_, rfl, rfl, rfl, rfl, by decide⟩

/-- C22, amended: when the running task `R` calls `Reply(S, m)` and `S` is
another existing task, then (1) if `S` is not in `REPLY_BLOCK`, `R` is
re-queued `READY` with return value `NOT_WAITING_FOR_REPLY` and no task other
than `R` changes, `S` in particular; (2) if `S` is in `REPLY_BLOCK`, the reply
succeeds, and a second `Reply` to `S` issued by `R` when it runs next returns
`NOT_WAITING_FOR_REPLY` and leaves `S` as the first reply left it. -/
theorem reply_refused_unless_waiting (c : KernelConsts) (k : Kernel) (target : Nat)
    (msg : List Nat) (msglen : Nat) (s a : TaskDescriptor)
    (hs : k.tasks target = some s) (ha : k.tasks k.active_task = some a)
    (hne : target ≠ k.active_task) :
    (s.state ≠ TaskState.REPLY_BLOCK →
      ∃ k1 a1, handle_reply c k target msg msglen = some k1 ∧
        k1.tasks k.active_task = some a1 ∧ a1.state = TaskState.READY ∧
        a1.response = c.NOT_WAITING_FOR_REPLY ∧
        k1.tasks target = some s ∧
        (∀ t, t ≠ k.active_task → k1.tasks t = k.tasks t)) ∧
    (s.state = TaskState.REPLY_BLOCK →
      ∀ (msg2 : List Nat) (msglen2 : Nat),
      ∃ k1 k2 k3 s1 a3, handle_reply c k target msg msglen = some k1 ∧
        k1.tasks target = some s1 ∧ s1.state = TaskState.READY ∧
        run_as k1 k.active_task = some k2 ∧
        handle_reply c k2 target msg2 msglen2 = some k3 ∧
        k3.tasks k.active_task = some a3 ∧ a3.response = c.NOT_WAITING_FOR_REPLY ∧
        k3.tasks target = some s1) := by
  constructor
  · intro hss
    rw [handle_reply_refused c k target msg msglen s hs hss, ready_task_eq k _ _ a ha]
    refine ⟨_, { a with state := TaskState.READY, response := c.NOT_WAITING_FOR_REPLY }, rfl, ?_,
      rfl, rfl, ?_, ?_⟩
    · simp only [Function.update_same]
    · simp only [Function.update_noteq hne]; exact hs
    · intro t ht
      simp only [Function.update_noteq ht]
  · intro hss msg2 msglen2
    obtain ⟨k1, h1, h2, h3, _, _, h6, _⟩ :=
      handle_reply_delivers c k target msg msglen s a hs hss ha hne
    obtain ⟨k2, e1, _, e3, _, e5⟩ := run_as_spec k1 k.active_task _ h3
    have hs2 : k2.tasks target = some { (fill_response s k.active_task msg msglen).1 with
        state := TaskState.READY, response := ((min msglen s.slot.cap : Nat) : Int) } := by
      rw [e3 target hne]; exact h2
    have hr := handle_reply_refused c k2 target msg2 msglen2 _ hs2 (fun h => by cases h)
    have ha2 : k2.tasks k2.active_task = some
        { ({ a with state := TaskState.READY, response := ((min msglen s.slot.cap : Nat) : Int) } :
            TaskDescriptor) with state := TaskState.ACTIVE } := by
      rw [e5]; assumption
    rw [ready_task_eq k2 _ _ _ ha2] at hr
    refine ⟨k1, k2, _, _, { a with state := TaskState.READY, response := c.NOT_WAITING_FOR_REPLY },
      h1, h2, rfl, e1, hr, ?_, rfl, ?_⟩
    · show Function.update k2.tasks k2.active_task _ k.active_task = _
      rw [e5, Function.update_same]
    · show Function.update k2.tasks k2.active_task _ target = _
      rw [e5, Function.update_noteq hne]
      exact hs2

/-- Instance of C22: task 0 replies to the ready task 1 and gets
`NOT_WAITING_FOR_REPLY`; task 1 is untouched. -/
theorem reply_refused_unless_waiting_witness :
    ∃ k1 a1, handle_reply sample_codes sample_kernel 1 hello 5 = some k1 ∧
      k1.tasks 0 = some a1 ∧ a1.state = TaskState.READY ∧ a1.response = -2 ∧
      k1.tasks 1 = some (sample_task 1 TaskState.READY) := by
  obtain ⟨k1, a1, h1, h2, h3, h4, h5, _⟩ :=
    (reply_refused_unless_waiting sample_codes sample_kernel 1 hello 5
      (sample_task 1 TaskState.READY) (sample_task 0 TaskState.ACTIVE) rfl rfl (by decide)).1
      (by decide)
  exact ⟨k1, a1, h1, h2, h3, h4, h5⟩

/-- C23: `Send` or `Reply` addressed to an id of the task table that holds no
task returns the `NO_SUCH_TASK` code of the call to the caller, which is
re-queued `READY` at the tail of its priority level; no other task changes. -/
theorem unallocated_target_is_reported (c : KernelConsts) (k : Kernel) (rid : Nat)
    (msg : List Nat) (msglen reply replylen : Nat) (a : TaskDescriptor)
    (hnone : k.tasks rid = none) (ha : k.tasks k.active_task = some a) :
    (∃ k1, handle_send c k rid msg msglen reply replylen = some k1 ∧
      k1.tasks k.active_task =
        some { a with state := TaskState.READY, response := c.SEND_NO_SUCH_TASK } ∧
      (∀ t, t ≠ k.active_task → k1.tasks t = k.tasks t) ∧
      k1.scheduler.ready_queue a.priority = k.scheduler.ready_queue a.priority ++ [a.task_id]) ∧
    (∃ k1, handle_reply c k rid msg msglen = some k1 ∧
      k1.tasks k.active_task =
        some { a with state := TaskState.READY, response := c.REPLY_NO_SUCH_TASK } ∧
      (∀ t, t ≠ k.active_task → k1.tasks t = k.tasks t) ∧
      k1.scheduler.ready_queue a.priority = k.scheduler.ready_queue a.priority ++ [a.task_id]) := by
  constructor
  · simp only [handle_send, hnone, ready_task_eq k _ _ a ha]
    refine ⟨_, rfl, ?_, ?_, ?_⟩
    · simp only [Function.update_same]
    · intro t ht; simp only [Function.update_noteq ht]
    · simp only [add_task, Function.update_same]
  · simp only [handle_reply, hnone, ready_task_eq k _ _ a ha]
    refine ⟨_, rfl, ?_, ?_, ?_⟩
    · simp only [Function.update_same]
    · intro t ht; simp only [Function.update_noteq ht]
    · simp only [add_task, Function.update_same]

/-- Instance of C23: task 0 sends to the id 5, which holds no task, and gets
`NO_SUCH_TASK`; it is queued behind tasks 1 and 2, which are untouched. -/
theorem unallocated_target_is_reported_witness :
    ∃ k1, handle_send sample_codes sample_kernel 5 hello 5 900 4 = some k1 ∧
      k1.tasks 0 = some { sample_task 0 TaskState.READY with response := -1 } ∧
      k1.tasks 1 = some (sample_task 1 TaskState.READY) ∧
      k1.scheduler.ready_queue 1 = [1, 2, 0] := by
  obtain ⟨k1, h1, h2, h3, h4⟩ :=
    (unallocated_target_is_reported sample_codes sample_kernel 5 hello 5 900 4
      (sample_task 0 TaskState.ACTIVE) rfl rfl).1
  exact ⟨k1, h1, h2, (h3 1 (by decide)).trans rfl, h4⟩

/-- C24, evaluated: from boot, task 0 creates task 1 and yields, task 1 exits,
and task 0 sends to the id 1. Task 1 is a `ZOMBIE` whose table entry is still
in place, so the message is queued for it: task 0 is left in `SEND_BLOCK`, it
is not given `NO_SUCH_TASK`, every ready queue is empty and the kernel has
nothing left to schedule. -/
theorem send_to_exited_task_blocks_forever :
    ∃ k, run sample_codes sample_tasks (boot sample_tasks)
        [KernelEntry.SYSCALL (Request.CREATE 0), KernelEntry.SYSCALL Request.YIELD,
         KernelEntry.SYSCALL Request.EXIT,
         KernelEntry.SYSCALL (Request.SEND 1 hello 5 900 4)] = some k ∧
      (k.tasks 1).map (fun t => (t.state, t.inbox)) = some (TaskState.ZOMBIE, [⟨0, hello, 5⟩]) ∧
      (k.tasks 0).map (fun t => t.state) = some TaskState.SEND_BLOCK ∧
      (k.tasks 0).map (fun t => t.response) ≠ some sample_codes.SEND_NO_SUCH_TASK ∧
      (∀ p, p < NUM_PRIORITIES → k.scheduler.ready_queue p = []) ∧
      schedule_next_task k = none :=
  ⟨_, rfl, rfl, rfl, by decide, by decide, rfl⟩

/-- C25, evaluated: (1) with a pool of one descriptor, taken by the first user
task, `Create` finds no free slot: no task is added and the id counter stays 1,
but the value returned to the caller is 1, the id the task would have had, not
-1. (2) With room in the pool, `Create` with the priority 7 (there are 4
levels) is not refused: the caller gets the id 1, not -2, the task is
allocated, the counter advances and the id is queued at level 7. -/
theorem create_failure_returns_an_id :
    (∃ k, run sample_codes single_slot_pool (boot single_slot_pool)
        [KernelEntry.SYSCALL (Request.CREATE 0)] = some k ∧
      k.tasks 1 = none ∧ k.p_id_counter = 1 ∧ k.scheduler.ready_queue 0 = [0] ∧
      (k.tasks 0).map (fun t => (t.state, t.response)) = some (TaskState.READY, 1)) ∧
    (∃ k, run sample_codes sample_tasks (boot sample_tasks)
        [KernelEntry.SYSCALL (Request.CREATE 7)] = some k ∧
      (k.tasks 1).map (fun t => t.priority) = some 7 ∧ k.p_id_counter = 2 ∧
      k.scheduler.ready_queue 7 = [1] ∧
      (k.tasks 0).map (fun t => (t.state, t.response)) = some (TaskState.READY, 1)) :=
  ⟨⟨_, rfl, rfl, rfl, rfl, rfl⟩, ⟨_, rfl, rfl, rfl, rfl, rfl⟩⟩

/-- C26: task ids are sequential and never reused. (1) An allocation with a
free slot gives the new task the current value of the id counter as id and
advances the counter by one; without a free slot nothing changes. (2) The first
user task gets id 0. (3) A successful `Create` returns to the caller the id of
the task it created. (4) In every execution from boot the id counter never
decreases, every task keeps its id, the allocated slots are exactly those below
the counter, and no two tasks share an id. -/
theorem task_ids_are_sequential (c : KernelConsts) (tc : TaskConsts) :
    (∀ (k : Kernel) (parent_id : Int) (priority : Nat), k.p_id_counter < tc.pool_size →
      (allocate_new_task tc k parent_id priority).p_id_counter = k.p_id_counter + 1 ∧
      ((allocate_new_task tc k parent_id priority).tasks k.p_id_counter).map
        (fun t => t.task_id) = some k.p_id_counter) ∧
    (∀ (k : Kernel) (parent_id : Int) (priority : Nat), ¬ k.p_id_counter < tc.pool_size →
      allocate_new_task tc k parent_id priority = k) ∧
    (0 < tc.pool_size →
      (boot tc).p_id_counter = 1 ∧ ((boot tc).tasks 0).map (fun t => t.task_id) = some 0) ∧
    (∀ (k : Kernel) (a : TaskDescriptor) (priority : Nat), table_ok k →
      k.tasks k.active_task = some a → k.p_id_counter < tc.pool_size →
      ∃ k1 a1 child, handle_syscall c tc k (Request.CREATE priority) = some k1 ∧
        k1.tasks k.p_id_counter = some child ∧ child.task_id = k.p_id_counter ∧
        k1.tasks k.active_task = some a1 ∧ a1.response = (child.task_id : Int) ∧
        k1.p_id_counter = k.p_id_counter + 1) ∧
    (∀ (entries1 entries2 : List KernelEntry) (k1 k2 : Kernel),
      run c tc (boot tc) entries1 = some k1 → run c tc k1 entries2 = some k2 →
      k1.p_id_counter ≤ k2.p_id_counter ∧
      (∀ i t, k1.tasks i = some t → ∃ t2, k2.tasks i = some t2 ∧ t2.task_id = t.task_id) ∧
      (∀ i, (k2.tasks i).isSome = true ↔ i < k2.p_id_counter) ∧
      (∀ i j t u, k2.tasks i = some t → k2.tasks j = some u → t.task_id = u.task_id → i = j)) := by
  refine ⟨?_, ?_, ?_, ?_, ?_⟩
  · intro k parent_id priority hp
    simp only [allocate_new_task, task_allocator_get, hp, if_true, Function.update_same,
      Option.map_some', and_self]
  · intro k parent_id priority hp
    simp only [allocate_new_task, task_allocator_get, hp, if_false]
  · intro hp
    have hp0 : (fresh_kernel tc).p_id_counter < tc.pool_size := hp
    simp only [boot, allocate_new_task, task_allocator_get, hp0, if_true]
    exact ⟨rfl, rfl⟩
  · intro k a priority hk ha hp
    obtain ⟨k1, child, h1, h2, h3, h4, _, _, _, h8, _⟩ := create_spec c tc k a priority hk ha hp
    exact ⟨k1, _, child, h1, h3, h4, h2, by rw [h4], h8⟩
  · intro entries1 entries2 k1 k2 h1 h2
    have g1 := grows_run entries1 _ _ h1
    have g2 := grows_run entries2 _ _ h2
    have ok1 : table_ok k1 := g1.2.2 (table_ok_boot tc)
    have ok2 : table_ok k2 := g2.2.2 ok1
    refine ⟨g2.1, ?_, ?_, ?_⟩
    · intro i t ht
      obtain ⟨t2, e1, e2, _⟩ := grows_task g2 ok1 ht
      exact ⟨t2, e1, e2⟩
    · intro i
      constructor
      · intro hs
        cases ht : k2.tasks i with
        | none => rw [ht] at hs; cases hs
        | some t => exact (table_ok_task ok2 ht).1
      · intro hi
        obtain ⟨x, hx, _⟩ := (ok2 i).1 hi
        unfold ids_of at hx
        cases ht : k2.tasks i with
        | none => rw [ht] at hx; cases hx
        | some t => rfl
    · intro i j t u ht hu he
      rw [← (table_ok_task ok2 ht).2, ← (table_ok_task ok2 hu).2]
      exact he

/-- C28, evaluated: from boot, task 0 creates task 1 and yields; task 1 awaits
the timer event; a tick wakes it; task 0 yields; task 1 sends to task 0, which
exists and is not receiving, so task 1 is in `SEND_BLOCK` and in no ready
queue; the next tick makes task 1 `READY` again and queues it, although no
`Reply` was ever issued, and the turn after task 0 yields makes it the active task. -/
theorem tick_wakes_a_blocked_sender :
    ∃ k6 k7 k9,
      run sample_codes sample_tasks (boot sample_tasks)
        [KernelEntry.SYSCALL (Request.CREATE 0), KernelEntry.SYSCALL Request.YIELD,
         KernelEntry.SYSCALL (Request.AWAIT_EVENT 97), KernelEntry.INTERRUPT InterruptCode.TIMER,
         KernelEntry.SYSCALL Request.YIELD,
         KernelEntry.SYSCALL (Request.SEND 0 hello 5 900 4)] = some k6 ∧
      (k6.tasks 1).map (fun t => t.state) = some TaskState.SEND_BLOCK ∧
      (k6.tasks 0).map (fun t => t.inbox) = some [⟨1, hello, 5⟩] ∧
      k6.scheduler.ready_queue 0 = [0] ∧
      run sample_codes sample_tasks k6 [KernelEntry.INTERRUPT InterruptCode.TIMER] = some k7 ∧
      (k7.tasks 1).map (fun t => t.state) = some TaskState.READY ∧
      k7.scheduler.ready_queue 0 = [0, 1] ∧
      run sample_codes sample_tasks k7
        [KernelEntry.SYSCALL Request.YIELD, KernelEntry.SYSCALL Request.YIELD] = some k9 ∧
      k9.active_task = 1 :=
  ⟨_, _, _, rfl, rfl, rfl, rfl, rfl, rfl, rfl, rfl, rfl⟩

/-- C29, as stated, fails for every event other than the timer tick: with 97
as the id of the timer event, `AwaitEvent(98)` by the running task 0 leaves the
kernel state as it was: no slot records the caller, and the caller is still
`ACTIVE`, not `EVENT_BLOCK`. -/
theorem await_of_other_event_is_ignored :
    sample_tasks.TIMER_INTERRUPT_ID = 97 ∧
    ∃ k1, handle_syscall sample_codes sample_tasks sample_kernel (Request.AWAIT_EVENT 98) = some k1 ∧
      k1.clock_notifier_tid = sample_tasks.CLOCK_QUEUE_EMPTY ∧
      (k1.tasks 0).map (fun t => t.state) = some TaskState.ACTIVE ∧
      (k1.tasks 0).map (fun t => t.state) ≠ some TaskState.EVENT_BLOCK :=
  ⟨rfl, _, rfl, rfl, rfl, by decide⟩

/-- C29, amended: `AwaitEvent` of the timer-tick event records the caller in
the clock-notifier slot and moves it to `EVENT_BLOCK`, no ready queue changes;
and whenever a task is recorded in that slot, the next timer interrupt moves
it to `READY` and appends it to the ready queue of its priority. -/
theorem await_timer_event (c : KernelConsts) (tc : TaskConsts) (k : Kernel) (a : TaskDescriptor)
    (ha : k.tasks k.active_task = some a)
    (hempty : tc.CLOCK_QUEUE_EMPTY < 0) :
    (∃ k1 a1, handle_syscall c tc k (Request.AWAIT_EVENT tc.TIMER_INTERRUPT_ID) = some k1 ∧
      k1.clock_notifier_tid = (k.active_task : Int) ∧
      k1.tasks k.active_task = some a1 ∧ a1.state = TaskState.EVENT_BLOCK ∧
      k1.scheduler.ready_queue = k.scheduler.ready_queue) ∧
    (∀ (N : Nat) (n : TaskDescriptor), k.clock_notifier_tid = (N : Int) → k.tasks N = some n →
      ∃ k1 n1, handle c tc k (KernelEntry.INTERRUPT InterruptCode.TIMER) = some k1 ∧
        k1.tasks N = some n1 ∧ n1.state = TaskState.READY ∧
        n.task_id ∈ k1.scheduler.ready_queue n.priority) := by
  constructor
  · simp only [handle_syscall, handle_await_event, if_true, ha, set_task]
    exact ⟨_, to_event_block a, rfl, rfl, by simp only [Function.update_same], rfl, rfl⟩
  · intro N n hN hn
    have h0 : (set_task k k.active_task (set_interrupted a true)).tasks k.active_task =
        some (set_interrupted a true) := by
      simp only [set_task, Function.update_same]
    obtain ⟨k1, e1, t1, o1, _, _, c1, _⟩ := ready_task_spec _ k.active_task 0 _ h0
    have hc : k1.clock_notifier_tid = (N : Int) := c1.trans hN
    have hne : k1.clock_notifier_tid ≠ tc.CLOCK_QUEUE_EMPTY := by
      rw [hc]; omega
    have hn1 : ∃ n0, k1.tasks N = some n0 ∧ n0.priority = n.priority ∧ n0.task_id = n.task_id := by
      by_cases he : N = k.active_task
      · subst he
        rw [ha] at hn
        cases hn
        exact ⟨_, t1, rfl, rfl⟩
      · refine ⟨n, ?_, rfl, rfl⟩
        rw [o1 N he]
        simp only [set_task, Function.update_noteq he]
        exact hn
    obtain ⟨n0, hn0, hp, hi⟩ := hn1
    obtain ⟨k2, e2, t2, _, s2, _⟩ := ready_task_spec k1 N 0 n0 hn0
    refine ⟨k2, _, ?_, t2, rfl, ?_⟩
    · simp only [handle, ha, handle_interrupt]
      have e1b : ready_task (set_task k k.active_task (set_interrupted a true))
          (set_task k k.active_task (set_interrupted a true)).active_task 0 = some k1 := e1
      rw [e1b]
      simp only [hc, Int.toNat_ofNat]
      rw [if_pos (hc ▸ hne)]
      exact e2
    · rw [s2, hp, hi]
      exact mem_add_task _ _ _

/-- Instance of C29: the running task 0 awaits the timer event; at the next
tick, taken while task 1 runs, task 0 is `READY` and queued again. -/
theorem await_timer_event_witness :
    ∃ k1 k2 k3, handle_syscall sample_codes sample_tasks sample_kernel (Request.AWAIT_EVENT 97)
        = some k1 ∧
      k1.clock_notifier_tid = 0 ∧ (k1.tasks 0).map (fun t => t.state) = some TaskState.EVENT_BLOCK ∧
      k1.scheduler.ready_queue 1 = [1, 2] ∧
      run_as k1 1 = some k2 ∧
      handle sample_codes sample_tasks k2 (KernelEntry.INTERRUPT InterruptCode.TIMER) = some k3 ∧
      (k3.tasks 0).map (fun t => t.state) = some TaskState.READY ∧
      0 ∈ k3.scheduler.ready_queue 1 := by
  obtain ⟨k1, a1, h1, h2, h3, h4, h5⟩ :=
    (await_timer_event sample_codes sample_tasks sample_kernel (sample_task 0 TaskState.ACTIVE)
      rfl (by decide)).1
  have h1b : handle_syscall sample_codes sample_tasks sample_kernel (Request.AWAIT_EVENT 97)
      = some k1 := h1
  have hk : some k1 = some _ := h1b.symm.trans rfl
  cases hk
  exact ⟨_, _, _, rfl, rfl, rfl, rfl, rfl, rfl, rfl, by decide⟩

/-- C30: `MyTid` returns to the caller the id in its own descriptor and
`MyParentTid` its parent id; both re-queue the caller `READY` and leave the id
and the parent id of every task unchanged. The parent id of a task is the id
of the task whose `Create` produced it (`MAIDENLESS` for the first user task),
and it stays so, like the id, in every execution. -/
theorem my_tid_and_my_parent_tid (c : KernelConsts) (tc : TaskConsts) (k : Kernel)
    (a : TaskDescriptor) (ha : k.tasks k.active_task = some a) :
    (∃ k1, handle_syscall c tc k Request.MY_TID = some k1 ∧
      k1.tasks k.active_task =
        some { a with state := TaskState.READY, response := (a.task_id : Int) } ∧
      a.task_id ∈ k1.scheduler.ready_queue a.priority ∧
      ids_of k1.tasks = ids_of k.tasks) ∧
    (∃ k1, handle_syscall c tc k Request.MY_PARENT_ID = some k1 ∧
      k1.tasks k.active_task = some { a with state := TaskState.READY, response := a.parent_id } ∧
      a.task_id ∈ k1.scheduler.ready_queue a.priority ∧
      ids_of k1.tasks = ids_of k.tasks) ∧
    (table_ok k → a.task_id = k.active_task) ∧
    (∀ priority : Nat, table_ok k → k.p_id_counter < tc.pool_size →
      ∃ k1 child, handle_syscall c tc k (Request.CREATE priority) = some k1 ∧
        k1.tasks k.p_id_counter = some child ∧ child.parent_id = (a.task_id : Int)) ∧
    (0 < tc.pool_size →
      ((boot tc).tasks 0).map (fun t => t.parent_id) = some tc.MAIDENLESS) ∧
    (∀ (entries : List KernelEntry) (k2 : Kernel), table_ok k → run c tc k entries = some k2 →
      ∀ i t, k.tasks i = some t →
        ∃ t2, k2.tasks i = some t2 ∧ t2.task_id = t.task_id ∧ t2.parent_id = t.parent_id) := by
  refine ⟨?_, ?_, ?_, ?_, ?_, ?_⟩
  · simp only [handle_syscall, ha, ready_task_eq k _ _ a ha]
    refine ⟨_, rfl, by simp only [Function.update_same], mem_add_task _ _ _, ?_⟩
    exact ids_of_update k.tasks k.active_task a _ ha rfl
  · simp only [handle_syscall, ha, ready_task_eq k _ _ a ha]
    refine ⟨_, rfl, by simp only [Function.update_same], mem_add_task _ _ _, ?_⟩
    exact ids_of_update k.tasks k.active_task a _ ha rfl
  · intro hk
    exact (table_ok_task hk ha).2
  · intro priority hk hp
    obtain ⟨k1, child, h1, _, h3, _, h5, _⟩ := create_spec c tc k a priority hk ha hp
    exact ⟨k1, child, h1, h3, h5⟩
  · intro hp
    have hp0 : (fresh_kernel tc).p_id_counter < tc.pool_size := hp
    simp only [boot, allocate_new_task, task_allocator_get, hp0, if_true]
    rfl
  · intro entries k2 hk h i t ht
    exact grows_task (grows_run entries _ _ h) hk ht

/-- Instance of C30: task 1, a child of task 0, runs: `MyTid` gives it 1 and
`MyParentTid` gives it 0. -/
theorem my_tid_and_my_parent_tid_witness :
    message_queued.active_task = 1 ∧
    (∃ k1, handle_syscall sample_codes sample_tasks message_queued Request.MY_TID = some k1 ∧
      (k1.tasks 1).map (fun t => (t.state, t.response)) = some (TaskState.READY, 1)) ∧
    (∃ k1, handle_syscall sample_codes sample_tasks message_queued Request.MY_PARENT_ID = some k1 ∧
      (k1.tasks 1).map (fun t => (t.state, t.response)) = some (TaskState.READY, 0)) := by
  obtain ⟨⟨k1, e1, e2, _⟩, ⟨k2, f1, f2, _⟩, _⟩ :=
    my_tid_and_my_parent_tid sample_codes sample_tasks message_queued
      (queue_message (sample_task 1 TaskState.ACTIVE) 0 hello 5) rfl
  refine ⟨rfl, ⟨k1, e1, ?_⟩, ⟨k2, f1, ?_⟩⟩
  · rw [show k1.tasks 1 = _ from e2]; rfl
  · rw [show k2.tasks 1 = _ from f2]; rfl

end Abyss

namespace Track

/-! ## Wait-for sets, look-ahead and switch ids -/

theorem check_loop_eq_check_nodes (cfg : TrackConsts) (path : Nat → Nat) (id : Int) :
    ∀ (k i : Nat) (s : TrackServer) (res : ReservationStatus),
      check_loop cfg path id k i s res = check_nodes cfg id (path_nodes path k i) s res := by
  intro k
  induction k with
  | zero => intro i s res; rfl
  | succ k ih =>
    intro i s res
    rw [path_nodes_succ]
    unfold check_loop check_nodes
    split
    · rfl
    · rename_i s1 res1 failed he
      split
      · rfl
      · exact ih _ _ _

/-- The look-ahead loop, when it comes to an end, has done to the nodes of the
look-ahead walk what the first loop does to the nodes of the path. -/
theorem lookahead_loop_eq_check_nodes {cfg : TrackConsts} {id : Int} :
    ∀ (fuel : Nat) (s : TrackServer) (res : ReservationStatus) (sd next : Nat)
      (r : TrackServer × ReservationStatus),
      lookahead_loop cfg id fuel s res sd next = .ok r → res.successful = true →
      check_nodes cfg id (lookahead_walk cfg s fuel sd next) s res = .ok r := by
  intro fuel
  induction fuel with
  | zero =>
    intro s res sd next r h _
    unfold lookahead_loop at h
    split at h
    · cases h
    · exact h
  | succ fuel ih =>
    intro s res sd next r h hres
    unfold lookahead_loop at h
    rw [lookahead_walk_step]
    by_cases hsd : sd < cfg.SAFETY_DISTANCE
    · simp only [hres, hsd, and_self, if_true] at h ⊢
      split at h
      · cases h
      · rename_i hadv
        rw [hadv]
        exact h
      · rename_i sd1 next1 hadv
        rw [hadv]
        simp only
        unfold check_nodes
        split at h
        · cases h
        · rename_i sa resa failed he
          have hd := (evaluate_differs he).1
          by_cases hf : failed = true
          · simp only [hf, if_true] at h ⊢
            exact h
          · simp only [hf, if_false] at h ⊢
            have hr : resa = res := (evaluate_differs he).2.2 (by simpa using hf)
            have := ih _ _ _ _ _ h (by rw [hr]; exact hres)
            rw [lookahead_walk_congr hd.1 hd.2.1] at this
            exact this
    · simp only [hsd, and_false, if_false] at h ⊢
      exact h

theorem mem_wanted_insert (s : TrackServer) (slot : Int) (n m : Nat) :
    m ∈ (wanted_insert s slot n).train_wanted_nodes slot ↔
      m = n ∨ m ∈ s.train_wanted_nodes slot := by
  simp only [wanted_insert, Function.update_same, List.mem_insert_iff]

/-- What one run of `evaluate_robustness_failed` on `track[n]` leaves in the
wait-for set of the train. -/
theorem evaluate_wanted {cfg : TrackConsts} {s s1 : TrackServer} {res res1 : ReservationStatus}
    {n : Nat} {id : Int} {b : Bool}
    (h : evaluate_robustness_failed cfg s res (s.track n) id = .ok (s1, res1, b)) (m : Nat) :
    m ∈ s1.train_wanted_nodes (cfg.train_num_to_index id) ↔
      m ∈ s.train_wanted_nodes (cfg.train_num_to_index id) ∨ m ∈ step_wanted cfg s.track id n := by
  unfold evaluate_robustness_failed at h
  simp only [wanted_insert_track] at h
  unfold step_wanted
  by_cases h1 : can_reserve cfg (s.track n) id = true
  · simp only [h1, not_true_eq_false, if_false] at h
    change (if side_index cfg s.track id n ≠ -1 then _ else _) = _ at h
    by_cases h2 : side_index cfg s.track id n = -1
    · simp only [h2, ne_eq, not_true_eq_false, if_false] at h
      by_cases h3 : (s.track n).num = 154 ∨ (s.track n).num = 153 ∨ (s.track n).num = 155 ∨
          (s.track n).num = 156
      · simp only [h3, if_true] at h
        by_cases h4 : central_branch_safety cfg s.track id = -1
        · simp only [h4, ne_eq, not_true_eq_false, if_false] at h
          simp only [Except.ok.injEq, Prod.mk.injEq] at h
          obtain ⟨rfl, _, _⟩ := h
          rw [mem_wanted_insert, if_neg (fun hc => hc.2.2.2 h4), List.mem_singleton]
          exact or_comm
        · simp only [ne_eq, h4, not_false_eq_true, if_true] at h
          obtain ⟨rfl, _⟩ := fail_with_probe_ok h
          rw [if_pos ⟨h1, h2, h3, h4⟩]
          simp only [mem_wanted_insert, List.mem_cons, List.mem_singleton, List.not_mem_nil,
            or_false]
          tauto
      · simp only [h3, if_false] at h
        simp only [Except.ok.injEq, Prod.mk.injEq] at h
        obtain ⟨rfl, _, _⟩ := h
        rw [mem_wanted_insert, if_neg (fun hc => h3 hc.2.2.1), List.mem_singleton]
        exact or_comm
    · simp only [ne_eq, h2, not_false_eq_true, if_true] at h
      obtain ⟨rfl, _⟩ := fail_with_probe_ok h
      rw [mem_wanted_insert, if_neg (fun hc => h2 hc.2.1), List.mem_singleton]
      exact or_comm
  · simp only [h1, not_false_eq_true, if_true] at h
    obtain ⟨rfl, _⟩ := fail_with_probe_ok h
    rw [mem_wanted_insert, if_neg (fun hc => h1 hc.1), List.mem_singleton]
    exact or_comm

/-- The wait-for set after the checks of a list of nodes. -/
theorem check_nodes_wanted {cfg : TrackConsts} {id : Int} :
    ∀ (nodes : List Nat) (s : TrackServer) (res : ReservationStatus) (s1 : TrackServer)
      (res1 : ReservationStatus),
      check_nodes cfg id nodes s res = .ok (s1, res1) → ∀ m,
      (m ∈ s1.train_wanted_nodes (cfg.train_num_to_index id) ↔
        m ∈ s.train_wanted_nodes (cfg.train_num_to_index id) ∨
          m ∈ wanted_after cfg s.track id nodes) := by
  intro nodes
  induction nodes with
  | nil =>
    intro s res s1 res1 h m
    simp only [check_nodes, Except.ok.injEq, Prod.mk.injEq] at h
    obtain ⟨rfl, rfl⟩ := h
    simp [wanted_after]
  | cons n rest ih =>
    intro s res s1 res1 h m
    unfold check_nodes at h
    unfold wanted_after
    split at h
    · cases h
    · rename_i sa resa failed he
      have hd := (evaluate_differs he).1
      have hw := evaluate_wanted he m
      rcases evaluate_spec he with ⟨hc, rfl, rfl⟩ | ⟨x, hc, rfl, _⟩
      · simp only [Bool.false_eq_true, if_false] at h
        rw [ih _ _ _ _ h m, hd.1, hw, hc]
        simp only [if_true, List.mem_append]
        tauto
      · simp only [if_true, Except.ok.injEq, Prod.mk.injEq] at h
        obtain ⟨rfl, rfl⟩ := h
        rw [hw, hc]
        simp

theorem check_nodes_differs {cfg : TrackConsts} {id : Int} :
    ∀ (nodes : List Nat) (s : TrackServer) (res : ReservationStatus) (s1 : TrackServer)
      (res1 : ReservationStatus),
      check_nodes cfg id nodes s res = .ok (s1, res1) →
      only_wanted_differs (cfg.train_num_to_index id) s s1 := by
  intro nodes
  induction nodes with
  | nil =>
    intro s res s1 res1 h
    simp only [check_nodes, Except.ok.injEq, Prod.mk.injEq] at h
    rw [← h.1]
    exact only_wanted_differs_refl _ _
  | cons n rest ih =>
    intro s res s1 res1 h
    unfold check_nodes at h
    split at h
    · cases h
    · rename_i sa resa failed he
      have hd := (evaluate_differs he).1
      split at h
      · simp only [Except.ok.injEq, Prod.mk.injEq] at h
        rw [← h.1]
        exact hd
      · exact only_wanted_differs_trans hd (ih _ _ _ _ h)

/-- The verdict of the checks of a list of nodes. -/
theorem check_nodes_spec {cfg : TrackConsts} {id : Int} :
    ∀ (nodes : List Nat) (s : TrackServer) (res : ReservationStatus) (s1 : TrackServer)
      (res1 : ReservationStatus),
      check_nodes cfg id nodes s res = .ok (s1, res1) →
      (first_culprit cfg s.track id nodes = none ∧ res1 = res) ∨
      (first_culprit cfg s.track id nodes ≠ none ∧ res1.successful = false) := by
  intro nodes
  induction nodes with
  | nil =>
    intro s res s1 res1 h
    simp only [check_nodes, Except.ok.injEq, Prod.mk.injEq] at h
    exact Or.inl ⟨rfl, h.2.symm⟩
  | cons n rest ih =>
    intro s res s1 res1 h
    unfold check_nodes at h
    unfold first_culprit
    rw [List.findSome?_cons]
    split at h
    · cases h
    · rename_i sa resa failed he
      have hd := (evaluate_differs he).1
      rcases evaluate_spec he with ⟨hc, rfl, rfl⟩ | ⟨x, hc, rfl, h1, _⟩
      · simp only [Bool.false_eq_true, if_false] at h
        rw [hc]
        have := ih _ _ _ _ h
        rw [hd.1] at this
        exact this
      · simp only [if_true, Except.ok.injEq, Prod.mk.injEq] at h
        obtain ⟨rfl, rfl⟩ := h
        rw [hc]
        exact Or.inr ⟨fun hc2 => (by cases hc2), h1⟩

theorem check_nodes_cons (cfg : TrackConsts) (id : Int) (n : Nat) (rest : List Nat)
    (s : TrackServer) (res : ReservationStatus) :
    check_nodes cfg id (n :: rest) s res =
      match evaluate_robustness_failed cfg s res (s.track n) id with
      | .error h => .error h
      | .ok (s1, res1, failed) =>
        if failed = true then .ok (s1, res1) else check_nodes cfg id rest s1 res1 := rfl

/-- The checks of a list followed by a second list: the second list is examined
only if no node of the first fails. -/
theorem check_nodes_append {cfg : TrackConsts} {id : Int} (more : List Nat) :
    ∀ (nodes : List Nat) (s : TrackServer) (res : ReservationStatus) (s1 : TrackServer)
      (res1 : ReservationStatus),
      check_nodes cfg id nodes s res = .ok (s1, res1) →
      (first_culprit cfg s.track id nodes = none →
        check_nodes cfg id (nodes ++ more) s res = check_nodes cfg id more s1 res1) ∧
      (first_culprit cfg s.track id nodes ≠ none →
        check_nodes cfg id (nodes ++ more) s res = .ok (s1, res1)) := by
  intro nodes
  induction nodes with
  | nil =>
    intro s res s1 res1 h
    simp only [check_nodes, Except.ok.injEq, Prod.mk.injEq] at h
    obtain ⟨rfl, rfl⟩ := h
    exact ⟨fun _ => rfl, fun hn => absurd rfl hn⟩
  | cons n rest ih =>
    intro s res s1 res1 h
    rw [check_nodes_cons] at h
    rw [List.cons_append, check_nodes_cons]
    unfold first_culprit
    rw [List.findSome?_cons]
    split at h
    · cases h
    · rename_i sa resa failed he
      have hd := (evaluate_differs he).1
      rcases evaluate_spec he with ⟨hc, rfl, rfl⟩ | ⟨x, hc, rfl, _⟩
      · simp only [Bool.false_eq_true, if_false] at h ⊢
        rw [hc]
        have := ih _ _ _ _ h
        rw [hd.1] at this
        exact this
      · simp only [if_true, Except.ok.injEq, Prod.mk.injEq] at h ⊢
        obtain ⟨rfl, rfl⟩ := h
        rw [hc]
        exact ⟨fun hn => (by cases hn), fun _ => ⟨rfl, rfl⟩⟩

theorem check_nodes_congr_walk {cfg : TrackConsts} (s : TrackServer) (slot : Int) (fuel sd next : Nat) :
    lookahead_walk cfg (wanted_clear s slot) fuel sd next = lookahead_walk cfg s fuel sd next :=
  @lookahead_walk_congr cfg s (wanted_clear s slot) rfl rfl fuel sd next

/-- The checking phase of `TRACK_TRY_RESERVE` is `check_nodes` on the examined
nodes, started with an empty wait-for set; a failure is replied as it stands,
a success goes on to the granting loop. -/
theorem try_reserve_checks {cfg : TrackConsts} {fuel : Nat} {s s1 : TrackServer}
    {req : Reservation} {res : ReservationStatus}
    (h : TRACK_TRY_RESERVE cfg fuel s req = .ok (s1, res)) :
    ∃ s2 res2,
      check_nodes cfg req.train_id (examined cfg fuel s req)
        (wanted_clear s (cfg.train_num_to_index req.train_id))
        { successful := true, dead_lock_detected := false, res_dist := 0 } = .ok (s2, res2) ∧
      ((res2.successful = false ∧ s1 = s2 ∧ res = res2) ∨
       (res2.successful = true ∧ ∃ s4,
          grant_loop cfg req.path req.len req.train_id req.len 0
            (wanted_clear s2 (cfg.train_num_to_index req.train_id)) res2 = .ok (s4, res) ∧
          s1 = reply_to_switch_subs s4)) := by
  unfold TRACK_TRY_RESERVE at h
  simp only at h
  unfold examined
  split at h
  · cases h
  · rename_i sa resa hc
    rw [check_loop_eq_check_nodes] at hc
    have hda := check_nodes_differs _ _ _ _ _ hc
    have happ := check_nodes_append
      (lookahead_walk cfg s fuel 0 (req.path (req.len - 1))) _ _ _ _ _ hc
    split at h
    · cases h
    · split at h
      · cases h
      · rename_i sb resb hl
        have hfin : check_nodes cfg req.train_id
            (path_nodes req.path req.len 0 ++ lookahead_walk cfg s fuel 0 (req.path (req.len - 1)))
            (wanted_clear s (cfg.train_num_to_index req.train_id))
            { successful := true, dead_lock_detected := false, res_dist := 0 } = .ok (sb, resb) := by
          rcases check_nodes_spec _ _ _ _ _ hc with ⟨hnone, rfl⟩ | ⟨hsome, hfail⟩
          · rw [happ.1 hnone]
            have := lookahead_loop_eq_check_nodes _ _ _ _ _ _ hl rfl
            rw [lookahead_walk_congr hda.1 hda.2.1, check_nodes_congr_walk] at this
            exact this
          · rw [lookahead_loop_of_failed _ _ _ _ _ _ _ hfail] at hl
            cases hl
            exact happ.2 hsome
        refine ⟨sb, resb, hfin, ?_⟩
        by_cases hs : resb.successful = true
        · simp only [hs, if_true] at h
          split at h
          · cases h
          · rename_i sc resc hg
            simp only [Except.ok.injEq, Prod.mk.injEq] at h
            obtain ⟨rfl, rfl⟩ := h
            exact Or.inr ⟨hs, sc, hg, rfl⟩
        · simp only [hs, if_false, Except.ok.injEq, Prod.mk.injEq] at h
          obtain ⟨rfl, rfl⟩ := h
          exact Or.inl ⟨by simpa using hs, rfl, rfl⟩

theorem fail_with_probe_total (cfg : TrackConsts) (s : TrackServer) (res : ReservationStatus)
    (culprit : track_node) (id : Int) (h : culprit.reserved_by ≠ cfg.RESERVED_BY_NO_ONE) :
    ∃ r, fail_with_probe cfg s res culprit id = .ok r := by
  have hd : ∃ d, detect_deadlock cfg s culprit id = .ok d := by
    unfold detect_deadlock
    rw [if_neg h]
    split <;> exact ⟨_, rfl⟩
  obtain ⟨d, hd⟩ := hd
  unfold fail_with_probe
  rw [hd]
  exact ⟨_, rfl⟩

theorem not_reservable_held {cfg : TrackConsts} {track : Nat → track_node} {id : Int} {n : Nat}
    (h : ¬ reservable cfg track id n) : (track n).reserved_by ≠ cfg.RESERVED_BY_NO_ONE :=
  fun hc => h (Or.inl hc)

/-- With `index` equal to the position, `evaluate_robustness_failed` never takes
the fatal branch of `detect_deadlock`: it always returns. -/
theorem evaluate_total (cfg : TrackConsts) (s : TrackServer) (res : ReservationStatus) (n : Nat)
    (id : Int) (hidx : index_is_position s.track) :
    ∃ r, evaluate_robustness_failed cfg s res (s.track n) id = .ok r := by
  unfold evaluate_robustness_failed
  simp only [wanted_insert_track]
  by_cases h1 : can_reserve cfg (s.track n) id = true
  · simp only [h1, not_true_eq_false, if_false]
    change ∃ r, (if side_index cfg s.track id n ≠ -1 then _ else _) = _
    by_cases h2 : side_index cfg s.track id n = -1
    · simp only [h2, ne_eq, not_true_eq_false, if_false]
      by_cases h3 : (s.track n).num = 154 ∨ (s.track n).num = 153 ∨ (s.track n).num = 155 ∨
          (s.track n).num = 156
      · simp only [h3, if_true]
        by_cases h4 : central_branch_safety cfg s.track id = -1
        · simp only [h4, ne_eq, not_true_eq_false, if_false]
          exact ⟨_, rfl⟩
        · simp only [ne_eq, h4, not_false_eq_true, if_true]
          exact fail_with_probe_total _ _ _ _ _
            (not_reservable_held (central_branch_safety_culprit cfg s.track id hidx h4))
      · simp only [h3, if_false]
        exact ⟨_, rfl⟩
    · simp only [ne_eq, h2, not_false_eq_true, if_true]
      refine fail_with_probe_total _ _ _ _ _ ?_
      have h2b : side_index cfg s.track id n ≠ -1 := h2
      unfold side_index at h2b
      change ((s.track (side_index cfg s.track id n).toNat).reserved_by ≠ _)
      unfold side_index
      split at h2b
      · rename_i hb
        rw [if_pos hb]
        exact not_reservable_held (branch_safety_culprit cfg s.track id _ hidx h2b)
      · rename_i hb
        rw [if_neg hb]
        split at h2b
        · rename_i hm
          rw [if_pos hm]
          exact not_reservable_held (branch_safety_culprit cfg s.track id _ hidx h2b)
        · exact absurd rfl h2b
  · simp only [h1, not_false_eq_true, if_true]
    refine fail_with_probe_total _ _ _ _ _ ?_
    have : ¬ reservable cfg s.track id n := fun hc => h1 ((can_reserve_iff cfg s.track id n).2 hc)
    exact not_reservable_held this

theorem check_nodes_total (cfg : TrackConsts) (id : Int) :
    ∀ (nodes : List Nat) (s : TrackServer) (res : ReservationStatus),
      index_is_position s.track → ∃ r, check_nodes cfg id nodes s res = .ok r := by
  intro nodes
  induction nodes with
  | nil => intro s res _; exact ⟨_, rfl⟩
  | cons n rest ih =>
    intro s res hidx
    rw [check_nodes_cons]
    obtain ⟨⟨s1, res1, failed⟩, he⟩ := evaluate_total cfg s res n id hidx
    rw [he]
    simp only
    split
    · exact ⟨_, rfl⟩
    · have hd := (evaluate_differs he).1
      exact ih _ _ (by rw [hd.1]; exact hidx)

/-- With `index` equal to the position, the look-ahead loop can only halt at a
branch whose recorded switch position is unknown, or for lack of fuel. -/
theorem lookahead_loop_error {cfg : TrackConsts} {id : Int} :
    ∀ (fuel : Nat) (s : TrackServer) (res : ReservationStatus) (sd next : Nat) (e : Halt),
      index_is_position s.track →
      lookahead_loop cfg id fuel s res sd next = .error e →
      e = Halt.spin ∨ ∃ sd1 next1, lookahead_advance cfg s sd1 next1 = .error e := by
  intro fuel
  induction fuel with
  | zero =>
    intro s res sd next e _ h
    unfold lookahead_loop at h
    split at h
    · cases h; exact Or.inl rfl
    · cases h
  | succ fuel ih =>
    intro s res sd next e hidx h
    unfold lookahead_loop at h
    split at h
    · split at h
      · rename_i e1 hadv
        cases h
        exact Or.inr ⟨_, _, hadv⟩
      · cases h
      · rename_i sd1 next1 hadv
        obtain ⟨⟨s1, res1, failed⟩, he⟩ := evaluate_total cfg s res next1 id hidx
        rw [he] at h
        simp only at h
        split at h
        · cases h
        · have hd := (evaluate_differs he).1
          rcases ih _ _ _ _ _ (by rw [hd.1]; exact hidx) h with hs | ⟨sd2, next2, ha⟩
          · exact Or.inl hs
          · rw [lookahead_advance_congr hd.1 hd.2.1] at ha
            exact Or.inr ⟨_, _, ha⟩
    · cases h

/-- When the look-ahead walk holds a node that fails its checks, the look-ahead
loop reaches it and comes to an end. -/
theorem lookahead_loop_reaches {cfg : TrackConsts} {id : Int} :
    ∀ (fuel : Nat) (s : TrackServer) (res : ReservationStatus) (sd next : Nat),
      index_is_position s.track → res.successful = true →
      first_culprit cfg s.track id (lookahead_walk cfg s fuel sd next) ≠ none →
      ∃ r, lookahead_loop cfg id fuel s res sd next = .ok r := by
  intro fuel
  induction fuel with
  | zero =>
    intro s res sd next _ _ hc
    exact absurd rfl hc
  | succ fuel ih =>
    intro s res sd next hidx hres hc
    rw [lookahead_walk_step] at hc
    unfold lookahead_loop
    by_cases hsd : sd < cfg.SAFETY_DISTANCE
    · simp only [hres, hsd, and_self, if_true] at hc ⊢
      split at hc
      · rename_i sd1 next1 hadv
        rw [hadv]
        simp only
        obtain ⟨⟨s1, res1, failed⟩, he⟩ := evaluate_total cfg s res next1 id hidx
        rw [he]
        simp only
        have hd := (evaluate_differs he).1
        rcases evaluate_spec he with ⟨hcn, rfl, rfl⟩ | ⟨x, _, rfl, _⟩
        · simp only [Bool.false_eq_true, if_false]
          refine ih _ _ _ _ (by rw [hd.1]; exact hidx) hres ?_
          unfold first_culprit at hc ⊢
          rw [List.findSome?_cons, hcn] at hc
          rw [hd.1, lookahead_walk_congr hd.1 hd.2.1]
          exact hc
        · exact ⟨_, rfl⟩
      · exact absurd rfl hc
    · simp only [hsd, if_false] at hc
      exact absurd rfl hc

/-- With `index` equal to the position and a path of at least one entry, a
request whose examined nodes hold one that fails its checks is answered, and
refused. -/
theorem try_reserve_refused (cfg : TrackConsts) (fuel : Nat) (s : TrackServer) (req : Reservation)
    (hidx : index_is_position s.track) (hlen : 1 ≤ req.len)
    (hc : first_culprit cfg s.track req.train_id (examined cfg fuel s req) ≠ none) :
    ∃ s1 res, TRACK_TRY_RESERVE cfg fuel s req = .ok (s1, res) ∧ res.successful = false := by
  obtain ⟨⟨sa, resa⟩, hck⟩ := check_nodes_total cfg req.train_id (path_nodes req.path req.len 0)
    (wanted_clear s (cfg.train_num_to_index req.train_id))
    { successful := true, dead_lock_detected := false, res_dist := 0 } hidx
  have hda := check_nodes_differs _ _ _ _ _ hck
  have hlen0 : ¬ req.len = 0 := by omega
  have hfin : ∃ sb resb, lookahead_loop cfg req.train_id fuel sa resa 0 (req.path (req.len - 1))
      = .ok (sb, resb) ∧ resb.successful = false := by
    rcases check_nodes_spec _ _ _ _ _ hck with ⟨hnone, rfl⟩ | ⟨_, hfail⟩
    · have hw : first_culprit cfg sa.track req.train_id
          (lookahead_walk cfg sa fuel 0 (req.path (req.len - 1))) ≠ none := by
        rw [hda.1, lookahead_walk_congr hda.1 hda.2.1, check_nodes_congr_walk]
        unfold examined first_culprit at hc
        rw [List.findSome?_append] at hc
        unfold first_culprit at hnone ⊢
        have hnone2 : List.findSome? (culprit cfg s.track req.train_id)
            (path_nodes req.path req.len 0) = none := hnone
        rw [hnone2, Option.none_or] at hc
        exact hc
      obtain ⟨⟨sb, resb⟩, hl⟩ := lookahead_loop_reaches fuel sa
        { successful := true, dead_lock_detected := false, res_dist := 0 } 0
        (req.path (req.len - 1)) (by rw [hda.1]; exact hidx) rfl hw
      refine ⟨sb, resb, hl, ?_⟩
      rcases lookahead_loop_spec _ _ _ _ _ _ _ hl rfl with ⟨hn, _⟩ | ⟨x, _, hf⟩
      · exact absurd hn hw
      · exact hf.1
    · exact ⟨sa, resa, lookahead_loop_of_failed _ _ _ _ _ _ _ hfail, hfail⟩
  obtain ⟨sb, resb, hl, hs⟩ := hfin
  refine ⟨sb, resb, ?_, hs⟩
  unfold TRACK_TRY_RESERVE
  simp only [check_loop_eq_check_nodes, hck, hlen0, if_false, hl, hs, Bool.false_eq_true]

/-- The wait-for set of the requesting train after `TRACK_TRY_RESERVE`, and the
wait-for sets of the other slots. -/
theorem try_reserve_wanted {cfg : TrackConsts} {fuel : Nat} {s s1 : TrackServer}
    {req : Reservation} {res : ReservationStatus}
    (h : TRACK_TRY_RESERVE cfg fuel s req = .ok (s1, res)) :
    (res.successful = true →
      s1.train_wanted_nodes (cfg.train_num_to_index req.train_id) = []) ∧
    (res.successful = false → ∀ m,
      (m ∈ s1.train_wanted_nodes (cfg.train_num_to_index req.train_id) ↔
        m ∈ wanted_after cfg s.track req.train_id (examined cfg fuel s req))) ∧
    (∀ other, other ≠ cfg.train_num_to_index req.train_id →
      s1.train_wanted_nodes other = s.train_wanted_nodes other) := by
  obtain ⟨s2, res2, hck, hcase⟩ := try_reserve_checks h
  have hw := check_nodes_wanted _ _ _ _ _ hck
  have hd := check_nodes_differs _ _ _ _ _ hck
  have hclear : (wanted_clear s (cfg.train_num_to_index req.train_id)).train_wanted_nodes
      (cfg.train_num_to_index req.train_id) = [] := by
    simp only [wanted_clear, Function.update_same]
  have hother : ∀ other, other ≠ cfg.train_num_to_index req.train_id →
      s2.train_wanted_nodes other = s.train_wanted_nodes other := by
    intro other ho
    rw [hd.2.2.2.2.2 other ho]
    simp only [wanted_clear, Function.update_noteq ho]
  rcases hcase with ⟨hf, rfl, rfl⟩ | ⟨ht, s4, hg, rfl⟩
  · refine ⟨fun hc => ?_, fun _ m => ?_, hother⟩
    · rw [hf] at hc; cases hc
    · rw [hw m, hclear]
      simp only [List.not_mem_nil, false_or]
      rfl
  · have hfl := grant_loop_flags _ _ _ _ _ _ hg
    have htr := (grant_loop_track _ _ _ _ _ _ hg).2
    refine ⟨fun _ => ?_, fun hc => ?_, fun other ho => ?_⟩
    · rw [(reply_to_switch_subs_fields s4).2.2.2.1, htr]
      simp only [wanted_clear, Function.update_same]
    · rw [hfl.1, ht] at hc; cases hc
    · rw [(reply_to_switch_subs_fields s4).2.2.2.1, htr]
      simp only [wanted_clear, Function.update_noteq ho]
      exact hother other ho

theorem culprit_none_not_central {cfg : TrackConsts} {track : Nat → track_node} {id : Int}
    {n : Nat} (h : culprit cfg track id n = none) : ¬ central_failed cfg track id n := by
  intro hc
  obtain ⟨h1, h2, h3, h4⟩ := hc
  unfold culprit at h
  rw [if_neg (fun hn => hn h1), if_neg (fun hn => hn h2), if_pos ⟨h3, h4⟩] at h
  cases h

/-- The nodes recorded by a run of checks that fails: the indices of the nodes
up to and including the failing one, and the four central indices when the
failure is that of the central junction. -/
theorem wanted_after_split (cfg : TrackConsts) (track : Nat → track_node) (id : Int) :
    ∀ nodes : List Nat, first_culprit cfg track id nodes ≠ none →
      ∃ pre n post, nodes = pre ++ n :: post ∧
        (∀ x, x ∈ pre → culprit cfg track id x = none) ∧
        culprit cfg track id n ≠ none ∧
        ∀ m, (m ∈ wanted_after cfg track id nodes ↔
          (∃ x, x ∈ pre ++ [n] ∧ m = (track x).index) ∨
          (central_failed cfg track id n ∧ m ∈ [116, 118, 120, 122])) := by
  intro nodes
  induction nodes with
  | nil => intro h; exact absurd rfl h
  | cons a rest ih =>
    intro h
    by_cases ha : culprit cfg track id a = none
    · have hr : first_culprit cfg track id rest ≠ none := by
        unfold first_culprit at h ⊢
        rw [List.findSome?_cons, ha] at h
        exact h
      obtain ⟨pre, n, post, hsplit, hpre, hn, hm⟩ := ih hr
      refine ⟨a :: pre, n, post, by rw [hsplit]; rfl, ?_, hn, fun m => ?_⟩
      · intro x hx
        rcases List.mem_cons.1 hx with rfl | hx
        · exact ha
        · exact hpre x hx
      · unfold wanted_after
        rw [if_pos ha, List.mem_append, hm m]
        unfold step_wanted
        rw [if_neg (culprit_none_not_central ha)]
        constructor
        · rintro (h1 | h1 | h1)
          · exact Or.inl ⟨a, List.mem_cons_self _ _, List.mem_singleton.1 h1⟩
          · obtain ⟨x, hx, e⟩ := h1
            exact Or.inl ⟨x, List.mem_cons_of_mem _ hx, e⟩
          · exact Or.inr h1
        · rintro (⟨x, hx, e⟩ | h1)
          · rw [List.cons_append] at hx
            rcases List.mem_cons.1 hx with rfl | hx
            · exact Or.inl (List.mem_singleton.2 e)
            · exact Or.inr (Or.inl ⟨x, hx, e⟩)
          · exact Or.inr (Or.inr h1)
    · refine ⟨[], a, rest, rfl, fun x hx => (by cases hx), ha, fun m => ?_⟩
      unfold wanted_after
      rw [if_neg ha, List.append_nil]
      unfold step_wanted
      by_cases hc : central_failed cfg track id a
      · rw [if_pos hc]
        constructor
        · intro h1
          rcases List.mem_cons.1 h1 with e | h1
          · exact Or.inl ⟨a, List.mem_singleton.2 rfl, e⟩
          · exact Or.inr ⟨hc, h1⟩
        · rintro (⟨x, hx, e⟩ | ⟨_, h1⟩)
          · rw [List.mem_singleton.1 hx] at e
            exact List.mem_cons.2 (Or.inl e)
          · exact List.mem_cons_of_mem _ h1
      · rw [if_neg hc]
        constructor
        · intro h1
          exact Or.inl ⟨a, List.mem_singleton.2 rfl, List.mem_singleton.1 h1⟩
        · rintro (⟨x, hx, e⟩ | ⟨h1, _⟩)
          · rw [List.mem_singleton.1 hx] at e
            exact List.mem_singleton.2 e
          · exact absurd h1 hc

theorem side_index_eq_neg_one (cfg : TrackConsts) (track : Nat → track_node) (id : Int) (n : Nat) :
    side_index cfg track id n = -1 ↔
      (((track n).type = node_type.NODE_BRANCH → branch_clear cfg track id n) ∧
       ((track n).type = node_type.NODE_MERGE → branch_clear cfg track id (track n).reverse)) := by
  unfold side_index
  by_cases h1 : (track n).type = node_type.NODE_BRANCH
  · rw [if_pos h1, branch_safety_eq_neg_one]
    exact ⟨fun h => ⟨fun _ => h, fun hm => by rw [h1] at hm; cases hm⟩, fun h => h.1 h1⟩
  · rw [if_neg h1]
    by_cases h2 : (track n).type = node_type.NODE_MERGE
    · rw [if_pos h2, branch_safety_eq_neg_one]
      exact ⟨fun h => ⟨fun hb => absurd hb h1, fun _ => h⟩, fun h => h.2 h2⟩
    · rw [if_neg h2]
      exact ⟨fun _ => ⟨fun hb => absurd hb h1, fun hm => absurd hm h2⟩, fun _ => rfl⟩

theorem central_failed_culprit {cfg : TrackConsts} {track : Nat → track_node} {id : Int}
    {n : Nat} (h : central_failed cfg track id n) : culprit cfg track id n ≠ none :=
  fun hn => culprit_none_not_central hn h

theorem first_culprit_of_split {cfg : TrackConsts} {track : Nat → track_node} {id : Int}
    {pre post : List Nat} {n : Nat} (hn : culprit cfg track id n ≠ none) :
    first_culprit cfg track id (pre ++ n :: post) ≠ none := by
  unfold first_culprit
  intro h
  rw [List.findSome?_eq_none_iff] at h
  exact hn (h n (List.mem_append_right _ (List.mem_cons_self _ _)))

theorem wanted_after_of_split {cfg : TrackConsts} {track : Nat → track_node} {id : Int}
    {post : List Nat} {n m : Nat} (hm : m ∈ step_wanted cfg track id n) :
    ∀ pre : List Nat, (∀ x, x ∈ pre → culprit cfg track id x = none) →
      m ∈ wanted_after cfg track id (pre ++ n :: post) := by
  intro pre
  induction pre with
  | nil =>
    intro _
    unfold wanted_after
    exact List.mem_append_left _ hm
  | cons a rest ih =>
    intro hpre
    rw [List.cons_append]
    unfold wanted_after
    rw [if_pos (hpre a (List.mem_cons_self _ _))]
    exact List.mem_append_right _ (ih (fun x hx => hpre x (List.mem_cons_of_mem _ hx)))

theorem slot_lt_22 (id : Int) : get_switch_id_to_index id < 22 := by
  unfold get_switch_id_to_index
  split
  · omega
  · split
    · omega
    · omega

theorem rev_dir_known (dir : Char) :
    get_rev_switch_dir dir = 's' ∨ get_rev_switch_dir dir = 'c' := by
  unfold get_rev_switch_dir
  split
  · exact Or.inr rfl
  · exact Or.inl rfl

theorem pipe_table_known (f : Nat → Char) (sw : Nat) (dir : Char)
    (hd : dir = 's' ∨ dir = 'c') (hf : positions_known f) :
    positions_known (pipe_table f sw dir) := by
  intro slot hslot
  unfold pipe_table
  split
  · split
    · by_cases h1 : slot = get_switch_id_to_index (paired_id sw)
      · rw [h1, Function.update_same]
        exact rev_dir_known dir
      · rw [Function.update_noteq h1]
        by_cases h2 : slot = get_switch_id_to_index sw
        · rw [h2, Function.update_same]; exact hd
        · rw [Function.update_noteq h2]; exact hf slot hslot
    · by_cases h2 : slot = get_switch_id_to_index sw
      · rw [h2, Function.update_same]; exact hd
      · rw [Function.update_noteq h2]; exact hf slot hslot
  · exact hf slot hslot

/-- With 22 switch slots, a served `INIT` leaves a known position in each of them. -/
theorem init_known {tb : TrackTables} {s s1 : TrackServer} {info : Int}
    (hnum : tb.NUM_SWITCHES = 22) (h : TRACK_INIT tb s info = .ok s1) :
    positions_known s1.switch_state := by
  unfold TRACK_INIT at h
  split at h
  · obtain ⟨s2, h1, h2⟩ := init_switch_loop_table tracka_new_switch_state rfl rfl 22 0
      { s with track := tb.init_tracka s.track } (le_refl _)
      (fun _ hh => absurd hh (Nat.not_lt_zero _))
    simp only [tracka_initialization_sequence, hnum, h1, Except.ok.injEq] at h
    subst h
    intro slot hslot
    rw [(reply_to_switch_subs_fields s2).1, h2 slot (by omega)]
    exact tracka_target_ok slot
  · split at h
    · obtain ⟨s2, h1, h2⟩ := init_switch_loop_table trackb_new_switch_state rfl rfl 22 0
        { s with track := tb.init_trackb s.track } (le_refl _)
        (fun _ hh => absurd hh (Nat.not_lt_zero _))
      simp only [trackb_initialization_sequence, hnum, h1, Except.ok.injEq] at h
      subst h
      intro slot hslot
      rw [(reply_to_switch_subs_fields s2).1, h2 slot (by omega)]
      exact trackb_target_ok slot
    · cases h

theorem serve_all_known {cfg : TrackConsts} {tb : TrackTables} :
    ∀ (reqs : List TrackRequest) (s s1 : TrackServer),
      (∀ id dir, TrackRequest.SWITCH id dir ∈ reqs → dir = 's' ∨ dir = 'c') →
      serve_all cfg tb s reqs = .ok s1 → positions_known s.switch_state →
      positions_known s1.switch_state := by
  intro reqs
  induction reqs with
  | nil =>
    intro s s1 _ h hk
    simp only [serve_all, Except.ok.injEq] at h
    rw [← h]; exact hk
  | cons r rest ih =>
    intro s s1 hdir h hk
    unfold serve_all at h
    split at h
    · cases h
    · rename_i s2 hs
      refine ih s2 s1 (fun id dir hm => hdir id dir (List.mem_cons_of_mem _ hm)) h ?_
      exact serve_switch_inv (fun d => d = 's' ∨ d = 'c') (Or.inl rfl) (Or.inr rfl)
        (fun f _ => positions_known f)
        (fun f _ sw dir hd hf => pipe_table_known f sw dir hd hf) s s2 r
        (fun id dir hr => hdir id dir (by rw [hr]; exact List.mem_cons_self _ _)) hs hk

theorem lookahead_advance_known (cfg : TrackConsts) (s : TrackServer) (sd n : Nat)
    (hk : positions_known s.switch_state) : ∃ r, lookahead_advance cfg s sd n = .ok r := by
  unfold lookahead_advance
  simp only
  split
  · exact ⟨_, rfl⟩
  · split
    · rcases hk _ (slot_lt_22 (s.track n).num) with h | h
      · rw [if_pos h]; exact ⟨_, rfl⟩
      · rw [h]
        exact ⟨_, rfl⟩
    · exact ⟨_, rfl⟩

/-- C33: `TRACK_TRY_RESERVE` for train `T` leaves `wanted[T]` empty when it
grants; when it refuses, `wanted[T]` holds exactly the indices of the examined
nodes up to and including the one whose check failed, with 116, 118, 120 and 122
when the failed check is that of the central junction, whatever `wanted[T]` held
before; the wait-for set of every other slot is unchanged. -/
theorem wanted_set_bookkeeping (cfg : TrackConsts) (fuel : Nat) (s s1 : TrackServer)
    (req : Reservation) (res : ReservationStatus)
    (h : TRACK_TRY_RESERVE cfg fuel s req = .ok (s1, res)) :
    (res.successful = true →
      s1.train_wanted_nodes (cfg.train_num_to_index req.train_id) = []) ∧
    (res.successful = false →
      ∃ pre n post, examined cfg fuel s req = pre ++ n :: post ∧
        (∀ x, x ∈ pre → culprit cfg s.track req.train_id x = none) ∧
        culprit cfg s.track req.train_id n ≠ none ∧
        ∀ m, (m ∈ s1.train_wanted_nodes (cfg.train_num_to_index req.train_id) ↔
          (∃ x, x ∈ pre ++ [n] ∧ m = (s.track x).index) ∨
          (central_failed cfg s.track req.train_id n ∧ m ∈ [116, 118, 120, 122]))) ∧
    (∀ other, other ≠ cfg.train_num_to_index req.train_id →
      s1.train_wanted_nodes other = s.train_wanted_nodes other) := by
  obtain ⟨h1, h2, h3⟩ := try_reserve_wanted h
  refine ⟨h1, fun hf => ?_, h3⟩
  have hc : first_culprit cfg s.track req.train_id (examined cfg fuel s req) ≠ none := by
    rcases try_reserve_spec h with ⟨_, ht, _⟩ | ⟨x, hx, _⟩
    · rw [hf] at ht; cases ht
    · rw [hx]; exact fun hn => by cases hn
  obtain ⟨pre, n, post, hsplit, hpre, hn, hm⟩ := wanted_after_split cfg s.track req.train_id _ hc
  exact ⟨pre, n, post, hsplit, hpre, hn, fun m => (h2 hf m).trans (hm m)⟩

/-- Instance of C33: train 58 asks for sensor 0 while train 71 holds sensor 4,
a destination of the branch 2 that the look-ahead reaches: the request is
refused, `wanted[58]` holds the indices 0 and 2, and no other wait-for set changes. -/
theorem wanted_set_bookkeeping_witness :
    ∃ s1 res,
      TRACK_TRY_RESERVE sample_consts 10 (sample_server train71_on_4 's') ⟨58, 1, fun _ => 0⟩
        = .ok (s1, res) ∧
      res.successful = false ∧ s1.train_wanted_nodes 58 = [2, 0] ∧
      ∀ other, other ≠ 58 → s1.train_wanted_nodes other
        = (sample_server train71_on_4 's').train_wanted_nodes other := by
  refine ⟨_, _, rfl, rfl, rfl, ?_⟩
  have key := fun s1 res h =>
    wanted_set_bookkeeping sample_consts 10 (sample_server train71_on_4 's') s1
      ⟨58, 1, fun _ => 0⟩ res h
  exact (key _ _ rfl).2.2

/-- C34: central-junction exclusion. Let a node examined by `TRACK_TRY_RESERVE`
for train `T` be numbered 153..156 and pass the checks that come first (the
nodes examined before it pass, the node may be taken by `T`, and so may both
destinations of the node if it is a branch, or of its reverse if it is a
merge), while not every STRAIGHT and CURVED destination of the central branch
nodes 116, 118, 120 and 122 may be taken by `T`. Then (with a path of at least
one entry and `index` equal to the position in the table) a reply is produced,
it says `successful = false`, and `wanted[T]` holds 116, 118, 120 and 122. -/
theorem central_junction_exclusion (cfg : TrackConsts) (fuel : Nat) (s : TrackServer)
    (req : Reservation) (pre post : List Nat) (n : Nat)
    (hidx : index_is_position s.track) (hlen : 1 ≤ req.len)
    (hex : examined cfg fuel s req = pre ++ n :: post)
    (hpre : ∀ x, x ∈ pre → passes_checks cfg s.track req.train_id x)
    (hnum : 153 ≤ (s.track n).num ∧ (s.track n).num ≤ 156)
    (hres : reservable cfg s.track req.train_id n)
    (hbranch : (s.track n).type = node_type.NODE_BRANCH → branch_clear cfg s.track req.train_id n)
    (hmerge : (s.track n).type = node_type.NODE_MERGE →
      branch_clear cfg s.track req.train_id (s.track n).reverse)
    (hbusy : ¬ (branch_clear cfg s.track req.train_id 116 ∧ branch_clear cfg s.track req.train_id 118 ∧
      branch_clear cfg s.track req.train_id 120 ∧ branch_clear cfg s.track req.train_id 122)) :
    ∃ s1 res, TRACK_TRY_RESERVE cfg fuel s req = .ok (s1, res) ∧ res.successful = false ∧
      116 ∈ s1.train_wanted_nodes (cfg.train_num_to_index req.train_id) ∧
      118 ∈ s1.train_wanted_nodes (cfg.train_num_to_index req.train_id) ∧
      120 ∈ s1.train_wanted_nodes (cfg.train_num_to_index req.train_id) ∧
      122 ∈ s1.train_wanted_nodes (cfg.train_num_to_index req.train_id) := by
  have hcf : central_failed cfg s.track req.train_id n := by
    refine ⟨(can_reserve_iff _ _ _ _).2 hres, (side_index_eq_neg_one _ _ _ _).2 ⟨hbranch, hmerge⟩,
      by omega, ?_⟩
    intro hc
    exact hbusy ((central_branch_safety_eq_neg_one _ _ _).1 hc)
  have hpre2 : ∀ x, x ∈ pre → culprit cfg s.track req.train_id x = none :=
    fun x hx => (culprit_eq_none _ _ _ _).2 (hpre x hx)
  have hc : first_culprit cfg s.track req.train_id (examined cfg fuel s req) ≠ none := by
    rw [hex]; exact first_culprit_of_split (central_failed_culprit hcf)
  obtain ⟨s1, res, h, hf⟩ := try_reserve_refused cfg fuel s req hidx hlen hc
  have hw := (try_reserve_wanted h).2.1 hf
  have hstep : ∀ m, m ∈ [116, 118, 120, 122] →
      m ∈ s1.train_wanted_nodes (cfg.train_num_to_index req.train_id) := by
    intro m hm
    rw [hw m, hex]
    refine wanted_after_of_split ?_ pre hpre2
    unfold step_wanted
    rw [if_pos hcf]
    exact List.mem_cons_of_mem _ hm
  exact ⟨s1, res, h, hf, hstep 116 (by decide), hstep 118 (by decide), hstep 120 (by decide),
    hstep 122 (by decide)⟩

/-- Instance of C34: train 58 asks for the branch 153 (node 116) while train 71
holds node 124, the curved destination of the central branch at 120. -/
theorem central_junction_exclusion_witness :
    ∃ s1 res, TRACK_TRY_RESERVE sample_consts 10 (central_server train71_on_124)
        ⟨58, 1, fun _ => 116⟩ = .ok (s1, res) ∧ res.successful = false ∧
      116 ∈ s1.train_wanted_nodes 58 ∧ 118 ∈ s1.train_wanted_nodes 58 ∧
      120 ∈ s1.train_wanted_nodes 58 ∧ 122 ∈ s1.train_wanted_nodes 58 :=
  central_junction_exclusion sample_consts 10 (central_server train71_on_124)
    ⟨58, 1, fun _ => 116⟩ []
    (lookahead_walk sample_consts (central_server train71_on_124) 10 0 116) 116
    (fun _ => rfl) (by decide) rfl (fun x hx => by cases hx) (by decide) (by decide)
    (fun _ => by decide) (fun h => by cases h) (by decide)

/-- Counterexample to C35 as stated, on the sample track. Train 58 asks for
sensor 0 while train 71 holds the branch 2: sensor 0 passes; the walk described
leads to 2 and on to 4 (200 is below the safety distance), yet the handler stops
at 2, whose check fails, and 4 is never examined, as `wanted[58]` shows. And
from sensor 1 the walk described goes on from the exit 7, reached at distance
100, while the handler examines 7 and ends the walk there. -/
theorem walk_stops_at_failed_node :
    passes_checks sample_consts (sample_server train71_on_2 's').track 58 0 ∧
    claimed_walk sample_consts (sample_server train71_on_2 's') 10 0 0 = [2, 4] ∧
    (∃ s1 res,
      TRACK_TRY_RESERVE sample_consts 10 (sample_server train71_on_2 's') ⟨58, 1, fun _ => 0⟩
        = .ok (s1, res) ∧
      res.successful = false ∧ s1.train_wanted_nodes 58 = [2, 0] ∧
      4 ∉ s1.train_wanted_nodes 58) ∧
    ((sample_server nobody 's').track 7).type = node_type.NODE_EXIT ∧
    claimed_walk sample_consts (sample_server nobody 's') 10 0 1 = List.replicate 10 7 ∧
    lookahead_walk sample_consts (sample_server nobody 's') 10 0 1 = [7] ∧
    lookahead_loop sample_consts 58 10 (sample_server nobody 's')
        { successful := true, dead_lock_detected := false, res_dist := 0 } 0 1 =
      check_nodes sample_consts 58 [7] (sample_server nobody 's')
        { successful := true, dead_lock_detected := false, res_dist := 0 } := by
  refine ⟨by decide, by decide, ⟨_, _, rfl, rfl, rfl, by decide⟩, rfl, by decide, by decide, rfl⟩

/-- C35 (amended): look-ahead walk. Let `nodes` be the nodes of the path
followed by the nodes of the walk: from the last node of the path, along the
AHEAD edge at a sensor or merge and along the edge selected by the recorded
switch position at a branch, while the accumulated distance is below
`SAFETY_DISTANCE`, ending at any other kind of node. Whenever
`TRACK_TRY_RESERVE` replies: (1) the reply and the state before granting are
those of running the checks of `evaluate_robustness_failed` over `nodes`, in
order and up to the first node that fails, walk nodes like path nodes; (2) the
reply is `successful = true` exactly when every node of `nodes` passes the
checks; (3) on a refusal the nodes examined, as recorded in `wanted[T]`, are
those of `nodes` up to and including the first that does not pass. -/
theorem lookahead_walk_is_checked (cfg : TrackConsts) (fuel : Nat) (s s1 : TrackServer)
    (req : Reservation) (res : ReservationStatus)
    (h : TRACK_TRY_RESERVE cfg fuel s req = .ok (s1, res)) :
    (∃ s2 res2,
      check_nodes cfg req.train_id
        (path_nodes req.path req.len 0 ++ lookahead_walk cfg s fuel 0 (req.path (req.len - 1)))
        (wanted_clear s (cfg.train_num_to_index req.train_id))
        { successful := true, dead_lock_detected := false, res_dist := 0 } = .ok (s2, res2) ∧
      (res.successful = false → s1 = s2 ∧ res = res2)) ∧
    (res.successful = true ↔
      ∀ x, x ∈ path_nodes req.path req.len 0 ++
          lookahead_walk cfg s fuel 0 (req.path (req.len - 1)) →
        passes_checks cfg s.track req.train_id x) ∧
    (res.successful = false →
      ∃ pre n post,
        path_nodes req.path req.len 0 ++ lookahead_walk cfg s fuel 0 (req.path (req.len - 1))
          = pre ++ n :: post ∧
        (∀ x, x ∈ pre → passes_checks cfg s.track req.train_id x) ∧
        ¬ passes_checks cfg s.track req.train_id n ∧
        ∀ m, (m ∈ s1.train_wanted_nodes (cfg.train_num_to_index req.train_id) ↔
          (∃ x, x ∈ pre ++ [n] ∧ m = (s.track x).index) ∨
          (central_failed cfg s.track req.train_id n ∧ m ∈ [116, 118, 120, 122]))) := by
  obtain ⟨s2, res2, hck, hcase⟩ := try_reserve_checks h
  have hspec := try_reserve_spec h
  refine ⟨⟨s2, res2, hck, fun hf => ?_⟩, ⟨fun ht x hx => ?_, fun hall => ?_⟩, fun hf => ?_⟩
  · rcases hcase with ⟨_, rfl, rfl⟩ | ⟨ht2, s4, hg, _⟩
    · exact ⟨rfl, rfl⟩
    · have hfl := (grant_loop_flags _ _ _ _ _ _ hg).1
      rw [hf, ht2] at hfl
      cases hfl
  · rcases hspec with ⟨hnone, _⟩ | ⟨y, _, hfail, _⟩
    · exact first_culprit_none_passes hnone x hx
    · rw [hfail.1] at ht
      cases ht
  · rcases hspec with ⟨_, ht, _⟩ | ⟨y, hy, _, _⟩
    · exact ht
    · have hnone := all_pass_first_culprit_none hall
      rw [show examined cfg fuel s req = path_nodes req.path req.len 0 ++
        lookahead_walk cfg s fuel 0 (req.path (req.len - 1)) from rfl] at hy
      rw [hnone] at hy
      cases hy
  · have hc : first_culprit cfg s.track req.train_id (examined cfg fuel s req) ≠ none := by
      rcases hspec with ⟨_, ht, _⟩ | ⟨x, hx, _⟩
      · rw [hf] at ht; cases ht
      · rw [hx]; exact fun hn => by cases hn
    obtain ⟨pre, n, post, hsplit, hpre, hn, hm⟩ :=
      wanted_after_split cfg s.track req.train_id _ hc
    refine ⟨pre, n, post, hsplit, fun x hx => (culprit_eq_none _ _ _ _).1 (hpre x hx),
      fun hp => hn ((culprit_eq_none _ _ _ _).2 hp), fun m => ?_⟩
    exact ((try_reserve_wanted h).2.1 hf m).trans (hm m)

/-- Instance of C35: nobody holds anything and train 58 asks for sensor 0; the
walk leads to the branch 2 and, the switch being straight, on to sensor 4. All
three nodes pass and the request is granted. With the switch curved the walk
leads from 2 to 8 instead. -/
theorem lookahead_walk_is_checked_witness :
    lookahead_walk sample_consts (sample_server nobody 's') 10 0 0 = [2, 4] ∧
    lookahead_walk sample_consts (sample_server nobody 'c') 10 0 0 = [2, 8] ∧
    ∃ s1 res,
      TRACK_TRY_RESERVE sample_consts 10 (sample_server nobody 's') ⟨58, 1, fun _ => 0⟩
        = .ok (s1, res) ∧ res.successful = true ∧
      passes_checks sample_consts (sample_server nobody 's').track 58 4 := by
  refine ⟨by decide, by decide, _, _, rfl, rfl, ?_⟩
  have key := fun s1 res h =>
    lookahead_walk_is_checked sample_consts 10 (sample_server nobody 's') s1
      ⟨58, 1, fun _ => 0⟩ res h
  exact (key _ _ rfl).2.1.1 rfl 4 (by decide)

/-- C36: the fatal branch of `detect_deadlock` is not reached from
`TRACK_TRY_RESERVE`. On a track table whose `index` fields are the positions,
every node handed to the probe by the checks of a node is held by somebody, the
checks of every node return whatever the reservations and wait-for sets, the
loop over the path returns, and the look-ahead loop can only halt in its own
fatal branch (a switch position that is neither `s` nor `c`) or for lack of
loop budget. -/
theorem deadlock_probe_is_given_a_held_node (cfg : TrackConsts) (fuel : Nat) (s : TrackServer)
    (req : Reservation) (hidx : index_is_position s.track) :
    (∀ n x, culprit cfg s.track req.train_id n = some x →
      (s.track x).reserved_by ≠ cfg.RESERVED_BY_NO_ONE) ∧
    (∀ (s0 : TrackServer) (res : ReservationStatus) (n : Nat), s0.track = s.track →
      ∃ r, evaluate_robustness_failed cfg s0 res (s0.track n) req.train_id = .ok r) ∧
    (∀ (s0 : TrackServer) (res : ReservationStatus), s0.track = s.track →
      ∃ r, check_loop cfg req.path req.train_id req.len 0 s0 res = .ok r) ∧
    (∀ (s0 : TrackServer) (res : ReservationStatus) (sd next : Nat) (e : Halt),
      s0.track = s.track →
      lookahead_loop cfg req.train_id fuel s0 res sd next = .error e →
      e = Halt.spin ∨ ∃ sd1 next1, lookahead_advance cfg s0 sd1 next1 = .error e) := by
  refine ⟨fun n x hx => ?_, fun s0 res n h0 => ?_, fun s0 res h0 => ?_,
    fun s0 res sd next e h0 he => ?_⟩
  · exact not_reservable_held (culprit_not_reservable cfg s.track req.train_id n x hidx hx)
  · exact evaluate_total cfg s0 res n req.train_id (by rw [h0]; exact hidx)
  · rw [check_loop_eq_check_nodes]
    exact check_nodes_total cfg req.train_id _ s0 res (by rw [h0]; exact hidx)
  · exact lookahead_loop_error fuel s0 res sd next e (by rw [h0]; exact hidx) he

/-- Instance of C36: on the sample track with train 71 on sensor 4, the checks
of the branch 2 for train 58 hand node 4 to the probe, and node 4 is held. -/
theorem deadlock_probe_is_given_a_held_node_witness :
    culprit sample_consts (sample_server train71_on_4 's').track 58 2 = some 4 ∧
    ((sample_server train71_on_4 's').track 4).reserved_by ≠ sample_consts.RESERVED_BY_NO_ONE ∧
    ∃ r, check_loop sample_consts (fun _ => 2) 58 1 0 (sample_server train71_on_4 's')
      { successful := true, dead_lock_detected := false, res_dist := 0 } = .ok r :=
  ⟨by decide,
   (deadlock_probe_is_given_a_held_node sample_consts 10 (sample_server train71_on_4 's')
      ⟨58, 1, fun _ => 2⟩ (sample_index train71_on_4)).1 2 4 (by decide),
   (deadlock_probe_is_given_a_held_node sample_consts 10 (sample_server train71_on_4 's')
      ⟨58, 1, fun _ => 2⟩ (sample_index train71_on_4)).2.2.1 _ _ rfl⟩

/-- C37 does not hold of the code: with `len = 1` and a path whose only entry is
the branch 2, the granting loop reads `path[1]`. Two requests that agree on
`path[0]` are treated differently: with 4 (the straight destination) in
`path[1]` the path is granted, with 2 in `path[1]` the server halts. -/
theorem grant_reads_past_the_path :
    (∀ k, k < 1 → branch_then_4 k = branch_then_2 k) ∧
    (∃ s1 res,
      TRACK_TRY_RESERVE sample_consts 10 (sample_server nobody 's') ⟨58, 1, branch_then_4⟩
        = .ok (s1, res) ∧ res.successful = true ∧ res.res_dist = 400) ∧
    TRACK_TRY_RESERVE sample_consts 10 (sample_server nobody 's') ⟨58, 1, branch_then_2⟩
      = .error Halt.crash := by
  refine ⟨fun k hk => ?_, ⟨_, _, rfl, rfl, rfl⟩, rfl⟩
  have : k = 0 := by omega
  subst this
  rfl

/-- C38: with 22 switch slots, once an `INIT` has been served every recorded
switch position is `s` or `c`, and this is still so after any further requests
(`SWITCH` with direction `s` or `c`, `TRY_RESERVE`, `UNRESERVE`, subscriptions,
another `INIT`); on every server state with such a table the step of the
look-ahead that reads the switch position does not take its fatal branch. -/
theorem switch_positions_stay_known (cfg : TrackConsts) (tb : TrackTables)
    (s0 s1 s2 : TrackServer) (info : Int) (reqs : List TrackRequest)
    (hnum : tb.NUM_SWITCHES = 22)
    (hinit : TRACK_INIT tb s0 info = .ok s1)
    (hdir : ∀ id dir, TrackRequest.SWITCH id dir ∈ reqs → dir = 's' ∨ dir = 'c')
    (hserve : serve_all cfg tb s1 reqs = .ok s2) :
    positions_known s1.switch_state ∧ positions_known s2.switch_state ∧
    ∀ s3 : TrackServer, s3.switch_state = s2.switch_state →
      ∀ sd n, ∃ r, lookahead_advance cfg s3 sd n = .ok r := by
  have h1 := init_known hnum hinit
  have h2 := serve_all_known reqs s1 s2 hdir hserve h1
  exact ⟨h1, h2, fun s3 h3 sd n => lookahead_advance_known cfg s3 sd n (by rw [h3]; exact h2)⟩

/-- Instance of C38: the server starts with every position unknown, is
initialised for track A, then serves a `SWITCH` and a `TRY_RESERVE`. -/
theorem switch_positions_stay_known_witness :
    ∃ s1 s2,
      TRACK_INIT sample_tables uninitialised_server 1 = .ok s1 ∧
      serve_all sample_consts sample_tables s1
        [TrackRequest.SWITCH 5 's', TrackRequest.TRY_RESERVE 10 ⟨58, 1, fun _ => 0⟩] = .ok s2 ∧
      positions_known s2.switch_state := by
  obtain ⟨s1, h1⟩ : ∃ s1, TRACK_INIT sample_tables uninitialised_server 1 = .ok s1 := ⟨_, rfl⟩
  obtain ⟨s2, h2⟩ : ∃ s2, serve_all sample_consts sample_tables s1
      [TrackRequest.SWITCH 5 's', TrackRequest.TRY_RESERVE 10 ⟨58, 1, fun _ => 0⟩] = .ok s2 := by
    have e : s1 = _ := (Except.ok.inj (h1.symm.trans rfl))
    exact ⟨_, by rw [e]; rfl⟩
  refine ⟨s1, s2, h1, h2, ?_⟩
  exact (switch_positions_stay_known sample_consts sample_tables uninitialised_server s1 s2 1 _
    rfl h1 (by
      intro id dir hm
      simp only [List.mem_cons, TrackRequest.SWITCH.injEq, List.mem_singleton,
        List.not_mem_nil, or_false, false_or, reduceCtorEq] at hm
      exact Or.inl hm.2) h2).2.1

/-- C40: switch id and slot index are inverse on the valid range. For every
slot index `i` in 0..21, `get_switch_id_to_index (get_switch_index_to_id i) = i`;
for every id in 1..18 or 153..156,
`get_switch_index_to_id (get_switch_id_to_index id) = id`; the slot of a valid
id is below 22 and two valid ids with the same slot are equal. -/
theorem switch_id_and_index_are_inverse :
    (∀ i : Nat, i < 22 → get_switch_id_to_index (get_switch_index_to_id i) = i) ∧
    (∀ id : Nat, valid_switch_id id →
      get_switch_index_to_id (get_switch_id_to_index id) = id ∧
      get_switch_id_to_index id < 22) ∧
    (∀ id1 id2 : Nat, valid_switch_id id1 → valid_switch_id id2 →
      get_switch_id_to_index id1 = get_switch_id_to_index id2 → id1 = id2) := by
  refine ⟨index_round_trip, fun id h => ⟨valid_id_round_trip id h, slot_lt_22 id⟩,
    fun id1 id2 h1 h2 he => ?_⟩
  rw [← valid_id_round_trip id1 h1, ← valid_id_round_trip id2 h2, he]

/-- Instance of C40: slot 19 is the slot of switch 154, switch 154 is the switch
of slot 19, and the switches 18 and 153 do not share a slot. -/
theorem switch_id_and_index_are_inverse_witness :
    get_switch_id_to_index (get_switch_index_to_id (19 : Nat)) = 19 ∧
    get_switch_index_to_id (get_switch_id_to_index (154 : Nat)) = 154 ∧
    get_switch_id_to_index (18 : Nat) ≠ get_switch_id_to_index (153 : Nat) :=
  ⟨switch_id_and_index_are_inverse.1 19 (by decide),
   (switch_id_and_index_are_inverse.2.1 154 (Or.inr ⟨by decide, by decide⟩)).1,
   fun he => absurd (switch_id_and_index_are_inverse.2.2 18 153 (Or.inl ⟨by decide, by decide⟩)
     (Or.inr ⟨by decide, by decide⟩) he) (by decide)⟩

end Track

namespace Abyss

/-! ## Claims about the clock interface and the ready queues -/

/-- C31: `Clock::Delay(tid, ticks)` and `Clock::DelayUntil(tid, ticks)` with
`ticks < 0` return `NEGATIVE_DELAY` for every `tid` and send nothing; with
`ticks >= 0` and `tid` different from the clock server id they return
`INVALID_ID` and send nothing. -/
theorem clock_wrappers_reject_bad_arguments (cc : ClockConsts) (reply_of : ClockSend → Int)
    (tid ticks : Int) :
    (ticks < 0 →
      Clock.Delay cc reply_of tid ticks = (cc.NEGATIVE_DELAY, []) ∧
      Clock.DelayUntil cc reply_of tid ticks = (cc.NEGATIVE_DELAY, [])) ∧
    (0 ≤ ticks → tid ≠ cc.CLOCK_SERVER_ID →
      Clock.Delay cc reply_of tid ticks = (cc.INVALID_ID, []) ∧
      Clock.DelayUntil cc reply_of tid ticks = (cc.INVALID_ID, [])) := by
  refine ⟨fun hneg => ?_, fun hpos htid => ?_⟩
  · unfold Clock.Delay Clock.DelayUntil
    rw [if_pos hneg, if_pos hneg]
    exact ⟨rfl, rfl⟩
  · unfold Clock.Delay Clock.DelayUntil timer_server_interface_helper
    rw [if_neg (not_lt.2 hpos), if_neg (not_lt.2 hpos)]
    exact ⟨if_pos htid, if_pos htid⟩

/-- Instance of C31: with the clock server at id 2, `Delay(2, -5)` returns
`NEGATIVE_DELAY` and `DelayUntil(3, 5)` returns `INVALID_ID`, and neither sends. -/
theorem clock_wrappers_reject_bad_arguments_witness :
    Clock.Delay sample_clock (fun _ => 0) 2 (-5) = (-1, []) ∧
    Clock.DelayUntil sample_clock (fun _ => 0) 3 5 = (-2, []) :=
  ⟨((clock_wrappers_reject_bad_arguments sample_clock (fun _ => 0) 2 (-5)).1 (by decide)).1,
   ((clock_wrappers_reject_bad_arguments sample_clock (fun _ => 0) 3 5).2 (by decide)
      (by decide)).2⟩

/-- C32, evaluated: from boot, task 0 creates task 1 and yields; task 1 awaits
the timer event; two ticks arrive while task 0 runs. The first tick queues task
1, the second queues it again: task 1 stands twice in ready queue 0. When it
then runs and awaits the timer event again, it is in `EVENT_BLOCK` and still in
the ready queue. -/
theorem tick_queues_the_notifier_twice :
    ∃ k5 k6,
      run sample_codes sample_tasks (boot sample_tasks)
        [KernelEntry.SYSCALL (Request.CREATE 0), KernelEntry.SYSCALL Request.YIELD,
         KernelEntry.SYSCALL (Request.AWAIT_EVENT 97), KernelEntry.INTERRUPT InterruptCode.TIMER,
         KernelEntry.INTERRUPT InterruptCode.TIMER] = some k5 ∧
      k5.scheduler.ready_queue 0 = [1, 0, 1] ∧
      run sample_codes sample_tasks k5 [KernelEntry.SYSCALL (Request.AWAIT_EVENT 97)] = some k6 ∧
      k6.active_task = 1 ∧
      (k6.tasks 1).map (fun t => t.state) = some TaskState.EVENT_BLOCK ∧
      k6.scheduler.ready_queue 0 = [0, 1] :=
  ⟨_, _, rfl, rfl, rfl, rfl, rfl, rfl⟩

end Abyss
